import Mathlib

/-!
# SkyReader checksums (src/checksum.cpp)

A shallow embedding of the checksum code of `checksum.cpp`.

* The record (`unsigned char *buffer`) is a `List Nat` of bytes; a pointer
  into it (`buffer + offset`) is the suffix `buffer.drop offset`.
* Every read and write goes through checked indexing: a run that touches a
  byte outside the list yields `none` (the C++ run has no defined result).
* `unsigned short` values are naturals reduced modulo `0x10000`, bytes are
  reduced modulo `0x100` when stored.
* `int type` and `int dataArea` are integers.
* `Crypt::IsAccessControlBlock` lives in another class; it is the parameter
  `acb : Nat → Bool` of the functions that consult it.
* The `verbose` diagnostics (printf only) are left out. The failure report that
  `ValidateAllChecksums` writes to stderr whatever `verbose` is (lines 326-328)
  is kept: `ValidateAllChecksums.report` gives the returned `bool`, the buffer
  and the reported (type, dataArea) pairs, and `ValidateAllChecksums` is the
  same run without the stderr lines.
-/

namespace Checksum

/-! ## CRC engine (lines 35-64) -/

/-- One pass of the loop body of `UpdateCcittCrc16` (lines 41-48) on the pair
`(crc16, num2)`. -/
def UpdateCcittCrc16.round (s : Nat × Nat) : Nat × Nat :=
  let num3 : Nat := if (s.1 ^^^ s.2) > 0x7fff then 1 else 0
  (((s.1 <<< 1) ^^^ (num3 * 0x1021)) % 0x10000, (s.2 <<< 1) % 0x10000)

/-- The function `Checksum::UpdateCcittCrc16` (lines 38-51): `num2` starts as
`(unsigned short)(data << 8)` and the loop body runs eight times. -/
def UpdateCcittCrc16 (crc16 data : Nat) : Nat :=
  (UpdateCcittCrc16.round^[8] (crc16, (data <<< 8) % 0x10000)).1

/-- The byte loop `for (i = 0; i < n; i++) crc = UpdateCcittCrc16(crc, numPtr[i])`
(lines 56-60 and 195-202), with `n` passes left and the cursor at `i`. -/
def crcBytes (numPtr : List Nat) : Nat → Nat → Nat → Option Nat
  | 0, _, crc => some crc
  | n + 1, i, crc =>
    match numPtr[i]? with
    | none => none
    | some d => crcBytes numPtr n (i + 1) (UpdateCcittCrc16 crc d)

/-- The function `Checksum::ComputeCcittCrc16` (lines 53-64). -/
def ComputeCcittCrc16 (data : List Nat) (bytes : Nat) : Option Nat :=
  crcBytes data bytes 0 0xffff

/-! ## Parameter table (lines 66-118) -/

/-- The function `Checksum::getChecksumParameters`: `none` is the `false`
return, `some (checksumOffset, dataOffset, dataLength)` the `true` return. -/
def getChecksumParameters (checksumType : Int) : Option (Nat × Nat × Nat) :=
  if checksumType = 0 then some (0x1E, 0, 0x1E)
  else if checksumType = 1 then some (0x0E, 0, 0x10)
  else if checksumType = 2 then some (0x0C, 0x10, 0x40)
  else if checksumType = 3 then some (0x0A, 0x50, 0x40)
  else if checksumType = 4 then some (0x00, 0x90, 0x40)
  else none

/-! ## Checksum computation (lines 120-233) -/

/-- The call `memcpy(dst, src, n)` seen from the destination: the first `n`
bytes at `src`. -/
def memcpy (src : List Nat) (n : Nat) : Option (List Nat) :=
  if n ≤ src.length then some (src.take n) else none

/-- The block walk `while (true)` of lines 180-208, with `n` blocks left before
`block` reaches `startBlock + cntBlock`: a block that is not an access-control
block is folded into the checksum, the cursor always advances. -/
def computeChecksum.blockLoop (acb : Nat → Bool) :
    Nat → List Nat → Nat → Nat → Option Nat
  | 0, _, _, checksum => some checksum
  | n + 1, numPtr, block, checksum =>
    if acb block then
      computeChecksum.blockLoop acb n (numPtr.drop 0x10) (block + 1) checksum
    else
      match crcBytes numPtr 0x10 0 checksum with
      | none => none
      | some c => computeChecksum.blockLoop acb n (numPtr.drop 0x10) (block + 1) c

/-- The padding walk `while (block < 0x1c)` of lines 211-231, with `n` blocks
left before `block` reaches `0x1c`: sixteen zero bytes for every block that is
not an access-control block. -/
def computeChecksum.padLoop (acb : Nat → Bool) : Nat → Nat → Nat → Nat
  | 0, _, checksum => checksum
  | n + 1, block, checksum =>
    if acb block then computeChecksum.padLoop acb n (block + 1) checksum
    else computeChecksum.padLoop acb n (block + 1)
      ((fun c => UpdateCcittCrc16 c 0)^[0x10] checksum)

/-- Lines 160-233 of `computeChecksum`, entered with the current value of
`*checksum`. -/
def computeChecksum.walk (acb : Nat → Bool) (type : Int) (memoryIn : List Nat)
    (checksum : Nat) : Option (Option Nat) :=
  if type = 2 ∨ type = 3 ∨ type = 4 then
    let startBlock : Nat := if type = 2 then 1 else if type = 3 then 5 else 10
    let cntBlock : Nat := 4
    let numPtr := memoryIn.drop (startBlock * 0x10)
    let checksum := if type ≠ 4 then 0xffff else checksum
    match computeChecksum.blockLoop acb cntBlock numPtr startBlock checksum with
    | none => none
    | some checksum =>
      if type ≠ 3 then some (some checksum)
      else
        let block := startBlock + cntBlock
        some (some (computeChecksum.padLoop acb (0x1c - block) block checksum))
  else some none

/-- The function `Checksum::computeChecksum`: `none` is a read outside the
memory, `some none` the `false` return, `some (some c)` the `true` return with
`*checksum = c`. -/
def computeChecksum (acb : Nat → Bool) (type : Int) (memoryIn : List Nat) :
    Option (Option Nat) :=
  if type = 0 ∨ type = 1 ∨ type = 4 then
    match getChecksumParameters type with
    | none => some none
    | some (_, dataOffset, dataLength) =>
      if type = 1 ∨ type = 4 then
        match memcpy (memoryIn.drop dataOffset) 0x10 with
        | none => none
        | some header =>
          let header :=
            if type = 1 then (header.set 14 5).set 15 0
            else (header.set 0 6).set 1 1
          match ComputeCcittCrc16 header 0x10 with
          | none => none
          | some checksum =>
            if type = 1 then some (some checksum)
            else computeChecksum.walk acb type memoryIn checksum
      else
        match ComputeCcittCrc16 (memoryIn.drop dataOffset) dataLength with
        | none => none
        | some checksum => some (some checksum)
  else computeChecksum.walk acb type memoryIn 0

/-! ## Validation and regeneration (lines 245-337) -/

/-- The function `Checksum::validateChecksum`: the result pairs the returned
`bool` with the buffer as the call leaves it. -/
def validateChecksum (acb : Nat → Bool) (buffer : List Nat) (type dataArea : Int)
    (overwrite : Bool) : Option (Bool × List Nat) :=
  match getChecksumParameters type with
  | none => some (false, buffer)
  | some (checksumOffset, _, _) =>
    let offset : Nat :=
      if type ≠ 0 then (if dataArea = 0 then 0x08 else 0x24) * 0x10 else 0
    let sequenced : Option (List Nat) :=
      if overwrite = true ∧ type = 1 then
        (buffer[offset + 0x09]?).map
          (fun v => buffer.set (offset + 0x09) ((v + 1) % 0x100))
      else some buffer
    match sequenced with
    | none => none
    | some buffer =>
      match computeChecksum acb type (buffer.drop offset) with
      | none => none
      | some none => some (false, buffer)
      | some (some computedChecksum) =>
        let loc : Nat :=
          (if type = 4 then offset + 0x90 else offset) + checksumOffset
        match buffer[loc]?, buffer[loc + 1]? with
        | some lo, some hi =>
          let oldChecksum : Nat := ((lo &&& 0xff) ||| ((hi &&& 0xff) <<< 8)) % 0x10000
          let isMatch : Bool := decide (oldChecksum = computedChecksum)
          if overwrite = true then
            some (isMatch, (buffer.set loc (computedChecksum &&& 0xff)).set (loc + 1)
              ((computedChecksum >>> 8) &&& 0xff))
          else some (isMatch, buffer)
        | _, _ => none

/-- The inner loop `for (type = 4; type >= 0; type--)` of `ValidateAllChecksums`
with `n` passes left, that is `type = n - 1`. -/
def ValidateAllChecksums.typeLoop (acb : Nat → Bool) (dataArea : Int)
    (overwrite : Bool) : Nat → Bool → List Nat → Option (Bool × List Nat)
  | 0, OK, buffer => some (OK, buffer)
  | n + 1, OK, buffer =>
    match validateChecksum acb buffer (n : Int) dataArea overwrite with
    | none => none
    | some (res, buffer) =>
      ValidateAllChecksums.typeLoop acb dataArea overwrite n (OK && res) buffer

/-- The outer loop `for (dataArea = 0; dataArea <= 1; dataArea++)` with `n`
passes left, that is `dataArea = 2 - n`. -/
def ValidateAllChecksums.areaLoop (acb : Nat → Bool) (overwrite : Bool) :
    Nat → Bool → List Nat → Option (Bool × List Nat)
  | 0, OK, buffer => some (OK, buffer)
  | n + 1, OK, buffer =>
    match ValidateAllChecksums.typeLoop acb ((2 : Int) - ((n + 1 : Nat) : Int))
        overwrite 5 OK buffer with
    | none => none
    | some (OK, buffer) => ValidateAllChecksums.areaLoop acb overwrite n OK buffer

/-- The function `Checksum::ValidateAllChecksums`. -/
def ValidateAllChecksums (acb : Nat → Bool) (buffer : List Nat) (overwrite : Bool) :
    Option (Bool × List Nat) :=
  ValidateAllChecksums.areaLoop acb overwrite 2 true buffer

/-- The inner loop of `ValidateAllChecksums` together with the lines it writes
to stderr: the pass for `type = n - 1` appends the pair (type, dataArea), which
stands for the line "Checksum failure for checksum type %d, data area %d", when
`!res && !overwrite` (lines 326-328). -/
def ValidateAllChecksums.typeLoopReport (acb : Nat → Bool) (dataArea : Int)
    (overwrite : Bool) :
    Nat → Bool → List Nat → List (Int × Int) → Option (Bool × List Nat × List (Int × Int))
  | 0, OK, buffer, stderr => some (OK, buffer, stderr)
  | n + 1, OK, buffer, stderr =>
    match validateChecksum acb buffer (n : Int) dataArea overwrite with
    | none => none
    | some (res, buffer) =>
      ValidateAllChecksums.typeLoopReport acb dataArea overwrite n (OK && res) buffer
        (if (!res && !overwrite) = true then stderr ++ [((n : Int), dataArea)] else stderr)

/-- The outer loop of `ValidateAllChecksums` together with the lines written to
stderr, with `n` passes left, that is `dataArea = 2 - n`. -/
def ValidateAllChecksums.areaLoopReport (acb : Nat → Bool) (overwrite : Bool) :
    Nat → Bool → List Nat → List (Int × Int) → Option (Bool × List Nat × List (Int × Int))
  | 0, OK, buffer, stderr => some (OK, buffer, stderr)
  | n + 1, OK, buffer, stderr =>
    match ValidateAllChecksums.typeLoopReport acb ((2 : Int) - ((n + 1 : Nat) : Int))
        overwrite 5 OK buffer stderr with
    | none => none
    | some (OK, buffer, stderr) =>
      ValidateAllChecksums.areaLoopReport acb overwrite n OK buffer stderr

/-- The function `Checksum::ValidateAllChecksums` with its output on stderr: the
returned `bool`, the buffer it leaves, and the (type, dataArea) pairs of the
failure lines in the order they are written. -/
def ValidateAllChecksums.report (acb : Nat → Bool) (buffer : List Nat) (overwrite : Bool) :
    Option (Bool × List Nat × List (Int × Int)) :=
  ValidateAllChecksums.areaLoopReport acb overwrite 2 true buffer []

/-! ## Vocabulary of the statements -/

/-- The conventional MSB-first bit step of a CCITT CRC16: shift left, and fold
in the polynomial `0x1021` when bit 15 was set, modulo `2^16`. -/
def ccittBitStep (c : Nat) : Nat :=
  if c.testBit 15 then ((c <<< 1) ^^^ 0x1021) % 0x10000 else (c <<< 1) % 0x10000

/-- The conventional byte step: the byte enters the high half of the register,
then eight bit steps. -/
def ccittByteStep (crc b : Nat) : Nat := ccittBitStep^[8] (crc ^^^ (b <<< 8))

/-- CRC-16/CCITT-FALSE: initial value `0xFFFF`, polynomial `0x1021`, no
reflection, no final XOR. -/
def crc16CcittFalse (bs : List Nat) : Nat := bs.foldl ccittByteStep 0xFFFF

/-- The CRC register after the bytes `bs` went through `UpdateCcittCrc16`,
starting from `0xffff`. -/
def crcOf (bs : List Nat) : Nat := bs.foldl UpdateCcittCrc16 0xffff

/-- The sixteen-byte block `k` of a slice, `slice[16k .. 16k+16)`. -/
def blockAt (slice : List Nat) (k : Nat) : List Nat := (slice.drop (0x10 * k)).take 0x10

/-- The blocks `k` of `ks` with `p k` false, concatenated in the order of `ks`. -/
def keptBlocks (p : Nat → Bool) (slice : List Nat) (ks : List Nat) : List Nat :=
  (ks.filter (fun k => !p k)).flatMap (blockAt slice)

/-- Sixteen zero bytes for every `k` of `ks` with `p k` false. -/
def zeroBlocks (p : Nat → Bool) (ks : List Nat) : List Nat :=
  (ks.filter (fun k => !p k)).flatMap (fun _ => List.replicate 0x10 0)

/-- The byte offset at which `validateChecksum` places `ptr`: `0` for type 0,
else the base of the data area (block `0x08` or block `0x24`). -/
def areaBase (type dataArea : Int) : Nat :=
  if type = 0 then 0 else if dataArea = 0 then 0x80 else 0x240

/-- The `checksumOffset` that `getChecksumParameters` gives for a type. -/
def checksumOffsetOf (type : Int) : Nat :=
  match getChecksumParameters type with
  | some (checksumOffset, _, _) => checksumOffset
  | none => 0

/-- The location of the checksum field in the record: base plus
`checksumOffset`, plus `0x90` for type 4. -/
def fieldLoc (type dataArea : Int) : Nat :=
  areaBase type dataArea + checksumOffsetOf type + (if type = 4 then 0x90 else 0)

/-- The number of bytes from the base that a `validateChecksum` call of the type
can reach: the bytes `computeChecksum` reads and the stored field. -/
def sliceSpan (type : Int) : Nat :=
  if type = 0 then 0x20 else if type = 1 then 0x10 else if type = 2 then 0x50
  else if type = 3 then 0x90 else 0xE0

/-- The little-endian 16-bit value read at `loc`, as `validateChecksum` reads
`oldChecksum`. -/
def stored16 (buffer : List Nat) (loc : Nat) : Nat :=
  ((buffer.getD loc 0 &&& 0xff) ||| ((buffer.getD (loc + 1) 0 &&& 0xff) <<< 8)) % 0x10000

/-- The buffer after the two byte stores of a checksum at `loc`. -/
def write16 (buffer : List Nat) (loc c : Nat) : List Nat :=
  (buffer.set loc (c &&& 0xff)).set (loc + 1) ((c >>> 8) &&& 0xff)

/-- The buffer after `ptr[0x09]++` on the byte at `i`. -/
def bumpByte (buffer : List Nat) (i : Nat) : List Nat :=
  buffer.set i ((buffer.getD i 0 + 1) % 0x100)

/-- The buffer on which `validateChecksum` computes: the sequence byte is
bumped first when the call overwrites a type-1 checksum. -/
def bumped (buffer : List Nat) (type dataArea : Int) (overwrite : Bool) : List Nat :=
  if overwrite = true ∧ type = 1 then bumpByte buffer (areaBase type dataArea + 0x09)
  else buffer

/-- The byte stream whose CRC is the checksum of a type on a slice. -/
def checksumInput (acb : Nat → Bool) (type : Int) (slice : List Nat) : List Nat :=
  if type = 0 then slice.take 0x1E
  else if type = 1 then ((slice.take 0x10).set 14 5).set 15 0
  else if type = 2 then keptBlocks acb slice [1, 2, 3, 4]
  else if type = 3 then keptBlocks acb slice [5, 6, 7, 8] ++ zeroBlocks acb (List.range' 9 19)
  else ((((slice.drop 0x90).take 0x10).set 0 6).set 1 1) ++ keptBlocks acb slice [10, 11, 12, 13]

/-- The first offset, from the base, of the bytes that enter the checksum of a
type as they stand in the record (substituted bytes left out). -/
def inputLo (type : Int) : Nat :=
  if type = 0 then 0 else if type = 1 then 0 else if type = 2 then 0x10
  else if type = 3 then 0x50 else 0x92

/-- The offset, from the base, just after the last byte that can enter the
checksum of a type. -/
def inputHi (type : Int) : Nat :=
  if type = 0 then 0x1E else if type = 1 then 0x0E else if type = 2 then 0x50
  else if type = 3 then 0x90 else 0xE0

/-- The record offsets whose bytes can enter the computed checksum. -/
def inInput (type dataArea : Int) (i : Nat) : Prop :=
  areaBase type dataArea + inputLo type ≤ i ∧ i < areaBase type dataArea + inputHi type

/-- The record offsets a read-only check depends on: the stored field and the
bytes that enter the computation. -/
def inSupport (type dataArea : Int) (i : Nat) : Prop :=
  i = fieldLoc type dataArea ∨ i = fieldLoc type dataArea + 1 ∨ inInput type dataArea i

/-- The record offsets an overwriting call can change: the stored field, and
the sequence byte for type 1. -/
def inFootprint (type dataArea : Int) (i : Nat) : Prop :=
  i = fieldLoc type dataArea ∨ i = fieldLoc type dataArea + 1 ∨
    (type = 1 ∧ i = areaBase type dataArea + 0x09)

/-- The read-only check of one checksum passes on the buffer. -/
def Valid (acb : Nat → Bool) (type dataArea : Int) (buffer : List Nat) : Prop :=
  validateChecksum acb buffer type dataArea false = some (true, buffer)

/-- The buffer an overwriting `validateChecksum` call leaves on a record that
is long enough. -/
def stepBuf (acb : Nat → Bool) (buffer : List Nat) (type dataArea : Int) : List Nat :=
  write16 (bumped buffer type dataArea true) (fieldLoc type dataArea)
    (crcOf (checksumInput acb type
      ((bumped buffer type dataArea true).drop (areaBase type dataArea))))

/-- The buffer after overwriting calls for the listed (type, dataArea) pairs,
in list order. -/
def sweepBuf (acb : Nat → Bool) : List Nat → List (Int × Int) → List Nat
  | buffer, [] => buffer
  | buffer, p :: ps => sweepBuf acb (stepBuf acb buffer p.1 p.2) ps

/-- The (type, dataArea) pairs in the order in which `ValidateAllChecksums`
visits them. -/
def sweepOrder : List (Int × Int) :=
  [(4, 0), (3, 0), (2, 0), (1, 0), (0, 0), (4, 1), (3, 1), (2, 1), (1, 1), (0, 1)]

/-- An overwriting call for `(type2, area2)` can change a byte that the check of
`(type1, area1)` depends on: the same checksum, or a type-2 or type-3 field
inside the header that the type-1 checksum of the same area covers. -/
def clash (type1 area1 type2 area2 : Int) : Bool :=
  decide (areaBase type1 area1 = areaBase type2 area2) &&
    (decide (type1 = type2) || (decide (type1 = 1) && (decide (type2 = 2) || decide (type2 = 3))))

/-- Every pair of the list is a valid type whose overwriting call leaves the
check of `(type, dataArea)` alone. -/
def framed (type dataArea : Int) (ps : List (Int × Int)) : Bool :=
  ps.all (fun p => decide (0 ≤ p.1) && decide (p.1 ≤ 4) && !clash type dataArea p.1 p.2)

/-- A record of 0x320 bytes, zero except for the type-1 checksum field of data
area 0 at `0x8E`, which holds `0x95FF`, the checksum of its header. -/
def validTypeOneRecord : List Nat :=
  List.replicate 0x8E 0 ++ [0xFF, 0x95] ++ List.replicate 0x290 0

/-- The loop `while (true)` of lines 180-208 with its exit test written as in
the source, run for at most `fuel` passes: `none` when the fuel runs out before
the exit, else the outcome of the walk, which is `none` for a read outside the
memory and the checksum at the exit otherwise. -/
def computeChecksum.blockWhile (acb : Nat → Bool) (startBlock cntBlock : Nat) :
    Nat → List Nat → Nat → Nat → Option (Option Nat)
  | 0, _, _, _ => none
  | fuel + 1, numPtr, block, checksum =>
    if block ≥ startBlock + cntBlock then some (some checksum)
    else if acb block then
      computeChecksum.blockWhile acb startBlock cntBlock fuel (numPtr.drop 0x10) (block + 1)
        checksum
    else
      match crcBytes numPtr 0x10 0 checksum with
      | none => some none
      | some c =>
        computeChecksum.blockWhile acb startBlock cntBlock fuel (numPtr.drop 0x10) (block + 1) c

/-- The loop `while (block < 0x1c)` of lines 211-231 with its test written as in
the source, run for at most `fuel` passes: `none` when the fuel runs out. -/
def computeChecksum.padWhile (acb : Nat → Bool) : Nat → Nat → Nat → Option Nat
  | 0, _, _ => none
  | fuel + 1, block, checksum =>
    if block < 0x1c then
      computeChecksum.padWhile acb fuel (block + 1)
        (if acb block then checksum else (fun c => UpdateCcittCrc16 c 0)^[0x10] checksum)
    else some checksum

/-- A record of 0x320 bytes, zero except for the type-3 and type-2 checksum
fields of data area 0 at `0x8A..0x8D`, which hold `0x8C6A` and `0xF7CA`: the
checksums `0x8D6A` and `0xD6DA` of the zero blocks with the bits of the CRC
polynomial `0x11021`, spread over the four bytes, flipped. -/
def bothStaleRecord : List Nat :=
  List.replicate 0x8A 0 ++ [0x6A, 0x8C, 0xCA, 0xF7] ++ List.replicate 0x292 0

/-- A record of 0x320 bytes, zero except for the type-3 checksum field of data
area 0 at `0x8A`, which holds `0xFFFF`, the type-3 checksum when every block is
an access-control block. -/
def typeThreeValidRecord : List Nat :=
  List.replicate 0x8A 0 ++ [0xFF, 0xFF] ++ List.replicate 0x294 0

/-- The failure lines on stderr for a list of checks with their results: the
(type, dataArea) pair of every check that returned false, when overwrite is off;
nothing when overwrite is on. -/
def failureReports (overwrite : Bool) (results : List ((Int × Int) × Bool)) :
    List (Int × Int) :=
  (results.filter (fun x => !x.2 && !overwrite)).map Prod.fst

/-- The change of the four checksum bytes at offsets 0x0A..0x0D of the header of
data area `dataArea` (the stored type-3 checksum, then the stored type-2 one)
between the records `b` and `b'`: byte by byte, the one XOR the other. -/
def fieldChange (dataArea : Int) (b b' : List Nat) : List Nat :=
  [b.getD (areaBase 1 dataArea + 0x0A) 0 ^^^ b'.getD (areaBase 1 dataArea + 0x0A) 0,
   b.getD (areaBase 1 dataArea + 0x0B) 0 ^^^ b'.getD (areaBase 1 dataArea + 0x0B) 0,
   b.getD (areaBase 1 dataArea + 0x0C) 0 ^^^ b'.getD (areaBase 1 dataArea + 0x0C) 0,
   b.getD (areaBase 1 dataArea + 0x0D) 0 ^^^ b'.getD (areaBase 1 dataArea + 0x0D) 0]

/-! # Theorems -/

set_option maxRecDepth 100000

/-! ## The CRC engine -/

theorem testBit15_iff (c : Nat) (h : c < 0x10000) : c.testBit 15 = decide (c > 0x7fff) := by
  rw [Nat.testBit_to_div_mod]
  apply decide_eq_decide.mpr
  omega

theorem round_fst_lt (s : Nat × Nat) : (UpdateCcittCrc16.round s).1 < 0x10000 := by
  unfold UpdateCcittCrc16.round
  exact Nat.mod_lt _ (by decide)

theorem round_snd_lt (s : Nat × Nat) : (UpdateCcittCrc16.round s).2 < 0x10000 := by
  unfold UpdateCcittCrc16.round
  exact Nat.mod_lt _ (by decide)

theorem shift_xor_mod (a b k : Nat) :
    ((a <<< 1) ^^^ k) % 0x10000 ^^^ (b <<< 1) % 0x10000 = (((a ^^^ b) <<< 1) ^^^ k) % 0x10000 := by
  apply Nat.eq_of_testBit_eq
  intro i
  have e : (0x10000 : Nat) = 2 ^ 16 := by norm_num
  simp only [e, Nat.testBit_xor, Nat.testBit_mod_two_pow, Nat.testBit_shiftLeft]
  cases decide (i < 16) <;> cases decide (i ≥ 1) <;> cases a.testBit (i - 1) <;>
    cases b.testBit (i - 1) <;> cases k.testBit i <;> rfl

theorem round_xor (s : Nat × Nat) (h1 : s.1 < 0x10000) (h2 : s.2 < 0x10000) :
    (UpdateCcittCrc16.round s).1 ^^^ (UpdateCcittCrc16.round s).2 = ccittBitStep (s.1 ^^^ s.2) := by
  have hx : s.1 ^^^ s.2 < 0x10000 := Nat.xor_lt_two_pow (n := 16) h1 h2
  unfold UpdateCcittCrc16.round ccittBitStep
  rw [testBit15_iff _ hx]
  by_cases hc : (s.1 ^^^ s.2) > 0x7fff
  · simp only [hc, if_true, decide_True, Nat.one_mul]
    exact shift_xor_mod _ _ _
  · simp only [hc, if_false, decide_False, Nat.zero_mul]
    have := shift_xor_mod s.1 s.2 0
    simpa using this

theorem round_iterate_lt (n : Nat) (s : Nat × Nat) (h1 : s.1 < 0x10000) (h2 : s.2 < 0x10000) :
    (UpdateCcittCrc16.round^[n] s).1 < 0x10000 ∧ (UpdateCcittCrc16.round^[n] s).2 < 0x10000 := by
  induction n generalizing s with
  | zero => exact ⟨h1, h2⟩
  | succ n ih =>
    rw [Function.iterate_succ_apply]
    exact ih _ (round_fst_lt s) (round_snd_lt s)

theorem round_iterate_xor (n : Nat) (s : Nat × Nat) (h1 : s.1 < 0x10000) (h2 : s.2 < 0x10000) :
    (UpdateCcittCrc16.round^[n] s).1 ^^^ (UpdateCcittCrc16.round^[n] s).2
      = ccittBitStep^[n] (s.1 ^^^ s.2) := by
  induction n generalizing s with
  | zero => rfl
  | succ n ih =>
    rw [Function.iterate_succ_apply, Function.iterate_succ_apply,
      ih _ (round_fst_lt s) (round_snd_lt s), round_xor s h1 h2]

theorem round_iterate_snd (n : Nat) (s : Nat × Nat) (h2 : s.2 < 0x10000) :
    (UpdateCcittCrc16.round^[n] s).2 = (s.2 <<< n) % 0x10000 := by
  induction n generalizing s with
  | zero => simp [Nat.mod_eq_of_lt h2]
  | succ n ih =>
    rw [Function.iterate_succ_apply, ih _ (round_snd_lt s)]
    show ((s.2 <<< 1) % 0x10000) <<< n % 0x10000 = _
    simp only [Nat.shiftLeft_eq, Nat.pow_succ]
    rw [Nat.mod_mul_mod]
    congr 1
    ring

theorem UpdateCcittCrc16_eq_ccittByteStep (crc b : Nat) (hc : crc < 0x10000) (hb : b < 0x100) :
    UpdateCcittCrc16 crc b = ccittByteStep crc b := by
  unfold UpdateCcittCrc16 ccittByteStep
  have hs : (b <<< 8) % 0x10000 = b <<< 8 := by
    rw [Nat.shiftLeft_eq]; omega
  have h2 : ((crc, (b <<< 8) % 0x10000) : Nat × Nat).2 < 0x10000 := Nat.mod_lt _ (by decide)
  have hx := round_iterate_xor 8 (crc, (b <<< 8) % 0x10000) hc h2
  have hz := round_iterate_snd 8 (crc, (b <<< 8) % 0x10000) h2
  have hz0 : (UpdateCcittCrc16.round^[8] (crc, (b <<< 8) % 0x10000)).2 = 0 := by
    rw [hz]
    show ((b <<< 8) % 0x10000) <<< 8 % 0x10000 = 0
    simp only [Nat.shiftLeft_eq]
    omega
  rw [hz0, Nat.xor_zero] at hx
  rw [hx]
  show ccittBitStep^[8] (crc ^^^ (b <<< 8) % 0x10000) = _
  rw [hs]

theorem UpdateCcittCrc16_lt (crc d : Nat) : UpdateCcittCrc16 crc d < 0x10000 := by
  unfold UpdateCcittCrc16
  rw [show (8 : Nat) = 7 + 1 from rfl, Function.iterate_succ_apply']
  exact round_fst_lt _

theorem crcBytes_eq (numPtr : List Nat) (n i crc : Nat) (h : i + n ≤ numPtr.length) :
    crcBytes numPtr n i crc = some (((numPtr.drop i).take n).foldl UpdateCcittCrc16 crc) := by
  induction n generalizing i crc with
  | zero => simp [crcBytes]
  | succ n ih =>
    have hi : i < numPtr.length := by omega
    rw [crcBytes, List.getElem?_eq_getElem hi]
    simp only
    rw [ih (i + 1) _ (by omega)]
    rw [List.drop_eq_getElem_cons hi, List.take_succ_cons, List.foldl_cons]

theorem ComputeCcittCrc16_eq (data : List Nat) (bytes : Nat) (h : bytes ≤ data.length) :
    ComputeCcittCrc16 data bytes = some (crcOf (data.take bytes)) := by
  unfold ComputeCcittCrc16 crcOf
  rw [crcBytes_eq _ _ _ _ (by omega)]
  simp

theorem ComputeCcittCrc16_self (data : List Nat) :
    ComputeCcittCrc16 data data.length = some (crcOf data) := by
  rw [ComputeCcittCrc16_eq _ _ (Nat.le_refl _), List.take_length]

theorem ComputeCcittCrc16_of_length (data : List Nat) (n : Nat) (h : data.length = n) :
    ComputeCcittCrc16 data n = some (crcOf data) := by
  subst h
  exact ComputeCcittCrc16_self data

theorem foldl_Update_lt (bs : List Nat) (crc : Nat) (h : crc < 0x10000) :
    bs.foldl UpdateCcittCrc16 crc < 0x10000 := by
  induction bs generalizing crc with
  | nil => exact h
  | cons b bs ih => exact ih _ (UpdateCcittCrc16_lt _ _)

theorem foldl_Update_eq_ccitt (bs : List Nat) (crc : Nat) (hc : crc < 0x10000)
    (hb : ∀ x ∈ bs, x < 0x100) :
    bs.foldl UpdateCcittCrc16 crc = bs.foldl ccittByteStep crc := by
  induction bs generalizing crc with
  | nil => rfl
  | cons b bs ih =>
    rw [List.foldl_cons, List.foldl_cons,
      ← UpdateCcittCrc16_eq_ccittByteStep crc b hc (hb b (List.mem_cons_self _ _))]
    exact ih _ (UpdateCcittCrc16_lt _ _) (fun x hx => hb x (List.mem_cons_of_mem _ hx))

/-! ## The computation engine -/

theorem blockLoop_eq (acb : Nat → Bool) (slice : List Nat) (n block checksum : Nat)
    (h : 0x10 * (block + n) ≤ slice.length) :
    computeChecksum.blockLoop acb n (slice.drop (0x10 * block)) block checksum
      = some ((keptBlocks acb slice (List.range' block n)).foldl UpdateCcittCrc16 checksum) := by
  induction n generalizing block checksum with
  | zero => simp [computeChecksum.blockLoop, keptBlocks]
  | succ n ih =>
    have hd : (slice.drop (0x10 * block)).drop 0x10 = slice.drop (0x10 * (block + 1)) := by
      rw [List.drop_drop, Nat.mul_add]
    rw [computeChecksum.blockLoop, hd, List.range'_succ]
    by_cases hp : acb block = true
    · rw [if_pos hp, ih (block + 1) checksum (by omega)]
      simp [keptBlocks, hp]
    · rw [if_neg hp, crcBytes_eq _ _ _ _ (by simp; omega)]
      simp only
      rw [ih (block + 1) _ (by omega)]
      simp [keptBlocks, hp, blockAt, List.foldl_append]

theorem iterate_zero_eq (n checksum : Nat) :
    (fun c => UpdateCcittCrc16 c 0)^[n] checksum
      = (List.replicate n 0).foldl UpdateCcittCrc16 checksum := by
  induction n generalizing checksum with
  | zero => rfl
  | succ n ih => rw [Function.iterate_succ_apply, ih, List.replicate_succ, List.foldl_cons]

theorem padLoop_eq (acb : Nat → Bool) (n block checksum : Nat) :
    computeChecksum.padLoop acb n block checksum
      = (zeroBlocks acb (List.range' block n)).foldl UpdateCcittCrc16 checksum := by
  induction n generalizing block checksum with
  | zero => simp [computeChecksum.padLoop, zeroBlocks]
  | succ n ih =>
    rw [computeChecksum.padLoop, List.range'_succ]
    by_cases hp : acb block = true
    · rw [if_pos hp, ih]
      simp [zeroBlocks, hp]
    · rw [if_neg hp, ih, iterate_zero_eq]
      simp [zeroBlocks, hp, List.foldl_append]

theorem computeChecksum_zero (acb : Nat → Bool) (slice : List Nat) (h : 0x1E ≤ slice.length) :
    computeChecksum acb 0 slice = some (some (crcOf (slice.take 0x1E))) := by
  simp [computeChecksum, getChecksumParameters, ComputeCcittCrc16_eq _ _ h]

theorem computeChecksum_one (acb : Nat → Bool) (slice : List Nat) (h : 0x10 ≤ slice.length) :
    computeChecksum acb 1 slice = some (some (crcOf (((slice.take 0x10).set 14 5).set 15 0))) := by
  have hl : (((slice.take 0x10).set 14 5).set 15 0).length = 0x10 := by simp; omega
  have hc := ComputeCcittCrc16_of_length _ _ hl
  simp only [computeChecksum, getChecksumParameters, memcpy]
  simp [h]
  simp at hc
  rw [hc]

theorem computeChecksum_two (acb : Nat → Bool) (slice : List Nat) (h : 0x50 ≤ slice.length) :
    computeChecksum acb 2 slice = some (some (crcOf (keptBlocks acb slice [1, 2, 3, 4]))) := by
  have hb := blockLoop_eq acb slice 4 1 0xffff (by omega)
  simp only [computeChecksum, computeChecksum.walk]
  simp
  simp at hb
  rw [hb]
  simp [crcOf, List.range']

theorem computeChecksum_three (acb : Nat → Bool) (slice : List Nat) (h : 0x90 ≤ slice.length) :
    computeChecksum acb 3 slice = some (some (crcOf (keptBlocks acb slice [5, 6, 7, 8]
      ++ zeroBlocks acb (List.range' 9 19)))) := by
  have hb := blockLoop_eq acb slice 4 5 0xffff (by omega)
  simp only [computeChecksum, computeChecksum.walk]
  simp
  simp at hb
  rw [hb]
  simp [crcOf, List.range', padLoop_eq, List.foldl_append]

theorem computeChecksum_four (acb : Nat → Bool) (slice : List Nat) (h : 0xE0 ≤ slice.length) :
    computeChecksum acb 4 slice = some (some (crcOf
      (((((slice.drop 0x90).take 0x10).set 0 6).set 1 1)
        ++ keptBlocks acb slice [10, 11, 12, 13]))) := by
  have hl : (((((slice.drop 0x90).take 0x10).set 0 6).set 1 1)).length = 0x10 := by simp; omega
  have hc := ComputeCcittCrc16_of_length _ _ hl
  have hb := blockLoop_eq acb slice 4 10
    (crcOf (((((slice.drop 0x90).take 0x10).set 0 6).set 1 1))) (by omega)
  have h' : 16 ≤ slice.length - 144 := by omega
  simp only [computeChecksum, getChecksumParameters, memcpy, computeChecksum.walk]
  simp [h']
  simp at hc hb
  rw [hc]
  simp only
  rw [hb]
  simp [crcOf, List.range', List.foldl_append]

/-! ## Validation of one checksum -/

theorem type_cases (t : Int) (h0 : 0 ≤ t) (h4 : t ≤ 4) :
    t = 0 ∨ t = 1 ∨ t = 2 ∨ t = 3 ∨ t = 4 := by omega

theorem computeChecksum_eq (acb : Nat → Bool) (t : Int) (slice : List Nat)
    (h0 : 0 ≤ t) (h4 : t ≤ 4) (h : sliceSpan t ≤ slice.length) :
    computeChecksum acb t slice = some (some (crcOf (checksumInput acb t slice))) := by
  rcases type_cases t h0 h4 with rfl | rfl | rfl | rfl | rfl
  · exact computeChecksum_zero acb slice (by simp [sliceSpan] at h; omega)
  · exact computeChecksum_one acb slice (by simpa [sliceSpan] using h)
  · exact computeChecksum_two acb slice (by simpa [sliceSpan] using h)
  · exact computeChecksum_three acb slice (by simpa [sliceSpan] using h)
  · exact computeChecksum_four acb slice (by simpa [sliceSpan] using h)

theorem length_bumped (b : List Nat) (t a : Int) (ow : Bool) :
    (bumped b t a ow).length = b.length := by
  unfold bumped bumpByte
  split <;> simp

theorem length_write16 (b : List Nat) (loc c : Nat) : (write16 b loc c).length = b.length := by
  simp [write16]

theorem fieldLoc_lt (t a : Int) (h0 : 0 ≤ t) (h4 : t ≤ 4) :
    fieldLoc t a + 2 ≤ areaBase t a + sliceSpan t := by
  rcases type_cases t h0 h4 with rfl | rfl | rfl | rfl | rfl <;>
    simp [fieldLoc, areaBase, sliceSpan, checksumOffsetOf, getChecksumParameters]

theorem validateChecksum_eq (acb : Nat → Bool) (b : List Nat) (t a : Int) (ow : Bool)
    (h0 : 0 ≤ t) (h4 : t ≤ 4) (h : areaBase t a + sliceSpan t ≤ b.length) :
    validateChecksum acb b t a ow
      = some (decide (stored16 (bumped b t a ow) (fieldLoc t a)
                = crcOf (checksumInput acb t ((bumped b t a ow).drop (areaBase t a)))),
          if ow = true then
            write16 (bumped b t a ow) (fieldLoc t a)
              (crcOf (checksumInput acb t ((bumped b t a ow).drop (areaBase t a))))
          else b) := by
  have hloc := fieldLoc_lt t a h0 h4
  have hcs := computeChecksum_eq acb t ((bumped b t a ow).drop (areaBase t a)) h0 h4
    (by rw [List.length_drop, length_bumped]; omega)
  have hl1 : fieldLoc t a < (bumped b t a ow).length := by rw [length_bumped]; omega
  have hl2 : fieldLoc t a + 1 < (bumped b t a ow).length := by rw [length_bumped]; omega
  have hb : (if ow = true ∧ t = 1 then
        (b[areaBase t a + 0x09]?).map
          (fun v => b.set (areaBase t a + 0x09) ((v + 1) % 0x100))
      else some b) = some (bumped b t a ow) := by
    unfold bumped bumpByte
    split
    · rename_i hc
      obtain ⟨-, rfl⟩ := hc
      have : areaBase 1 a + 9 < b.length := by
        simp [sliceSpan] at h; omega
      rw [List.getElem?_eq_getElem this, List.getD_eq_getElem _ _ this]
      rfl
    · rfl
  have hoff : (if t ≠ 0 then (if a = 0 then 0x08 else 0x24) * 0x10 else 0) = areaBase t a := by
    unfold areaBase
    by_cases h1 : t = 0 <;> by_cases h2 : a = 0 <;> simp [h1, h2]
  have hpar : ∃ x y, getChecksumParameters t = some (checksumOffsetOf t, x, y) := by
    rcases type_cases t h0 h4 with rfl | rfl | rfl | rfl | rfl <;>
      simp [checksumOffsetOf, getChecksumParameters]
  obtain ⟨x, y, hpar⟩ := hpar
  have hfl : (if t = 4 then areaBase t a + 0x90 else areaBase t a) + checksumOffsetOf t
      = fieldLoc t a := by
    unfold fieldLoc
    by_cases h1 : t = 4 <;> simp [h1]
    omega
  unfold validateChecksum
  rw [hpar]
  simp only [hoff, hfl]
  rw [hb]
  simp only [hcs]
  rw [List.getElem?_eq_getElem hl1, List.getElem?_eq_getElem hl2]
  simp only [stored16, List.getD_eq_getElem _ _ hl1, List.getD_eq_getElem _ _ hl2, write16]
  cases ow
  · simp [bumped]
  · simp

/-! ## Frames -/

theorem crcOf_lt (bs : List Nat) : crcOf bs < 0x10000 :=
  foldl_Update_lt bs 0xffff (by decide)

theorem le16_roundtrip (c : Nat) (h : c < 0x10000) :
    (((c &&& 0xff) &&& 0xff) ||| ((((c >>> 8) &&& 0xff) &&& 0xff) <<< 8)) % 0x10000 = c := by
  apply Nat.eq_of_testBit_eq
  intro i
  have e : (0x10000 : Nat) = 2 ^ 16 := by norm_num
  have e8 : (0xff : Nat) = 2 ^ 8 - 1 := by norm_num
  simp only [e, e8, Nat.testBit_mod_two_pow, Nat.testBit_or, Nat.testBit_and,
    Nat.testBit_shiftLeft, Nat.testBit_shiftRight, Nat.testBit_two_pow_sub_one]
  by_cases h16 : i < 16
  · by_cases h8 : i < 8
    · have : ¬ (i ≥ 8) := by omega
      simp [h16, h8, this]
    · have h8' : i ≥ 8 := by omega
      have : i - 8 < 8 := by omega
      have e2 : 8 + (i - 8) = i := by omega
      simp [h16, h8, h8', this, e2]
  · have hc : c.testBit i = false := by
      apply Nat.testBit_lt_two_pow
      calc c < 2 ^ 16 := by simpa using h
        _ ≤ 2 ^ i := Nat.pow_le_pow_right (by decide) (by omega)
    simp [h16, hc]

theorem getElem?_write16 (b : List Nat) (loc c i : Nat) (h1 : i ≠ loc) (h2 : i ≠ loc + 1) :
    (write16 b loc c)[i]? = b[i]? := by
  unfold write16
  rw [List.getElem?_set_ne (Ne.symm h2), List.getElem?_set_ne (Ne.symm h1)]

theorem getElem?_bumpByte (b : List Nat) (k i : Nat) (h : i ≠ k) :
    (bumpByte b k)[i]? = b[i]? := by
  unfold bumpByte
  rw [List.getElem?_set_ne (Ne.symm h)]

theorem stored16_write16 (b : List Nat) (loc c : Nat) (hc : c < 0x10000)
    (hl : loc + 1 < b.length) : stored16 (write16 b loc c) loc = c := by
  unfold stored16 write16
  have h0 : ((b.set loc (c &&& 0xff)).set (loc + 1) ((c >>> 8) &&& 0xff))[loc]?
      = some (c &&& 0xff) := by
    rw [List.getElem?_set_ne (by omega), List.getElem?_set_self (by omega)]
  have h1 : ((b.set loc (c &&& 0xff)).set (loc + 1) ((c >>> 8) &&& 0xff))[loc + 1]?
      = some ((c >>> 8) &&& 0xff) := by
    rw [List.getElem?_set_self (by simp; omega)]
  simp only [List.getD_eq_getElem?_getD, h0, h1, Option.getD_some]
  exact le16_roundtrip c hc

theorem stored16_congr (b b' : List Nat) (loc : Nat) (h0 : b'[loc]? = b[loc]?)
    (h1 : b'[loc + 1]? = b[loc + 1]?) : stored16 b' loc = stored16 b loc := by
  simp only [stored16, List.getD_eq_getElem?_getD, h0, h1]

theorem slice_congr (b b' : List Nat) (x n : Nat)
    (h : ∀ i, x ≤ i → i < x + n → b'[i]? = b[i]?) :
    (b'.drop x).take n = (b.drop x).take n := by
  apply List.ext_getElem?
  intro j
  simp only [List.getElem?_take, List.getElem?_drop]
  split
  · exact h _ (by omega) (by omega)
  · rfl

theorem blockAt_drop (b : List Nat) (x k : Nat) :
    blockAt (b.drop x) k = (b.drop (x + 0x10 * k)).take 0x10 := by
  simp [blockAt, List.drop_drop]

theorem keptBlocks_congr (p : Nat → Bool) (s s' : List Nat) (ks : List Nat)
    (h : ∀ k ∈ ks, blockAt s' k = blockAt s k) : keptBlocks p s' ks = keptBlocks p s ks := by
  unfold keptBlocks
  apply List.flatMap_congr
  intro k hk
  exact h k (List.mem_of_mem_filter hk)

theorem header_congr (s s' : List Nat) (i0 i1 v0 v1 : Nat) (hs : 0x10 ≤ s.length)
    (hs' : 0x10 ≤ s'.length) (h : ∀ j, j < 0x10 → j ≠ i0 → j ≠ i1 → s'[j]? = s[j]?) :
    ((s'.take 0x10).set i0 v0).set i1 v1 = ((s.take 0x10).set i0 v0).set i1 v1 := by
  apply List.ext_getElem?
  intro j
  have l1 : (s.take 0x10).length = 0x10 := by simp; omega
  have l2 : (s'.take 0x10).length = 0x10 := by simp; omega
  simp only [List.getElem?_set, List.length_set, l1, l2, List.getElem?_take]
  by_cases h1 : i1 = j
  · simp [h1]
  · by_cases h0 : i0 = j
    · simp [h1, h0]
    · simp only [h1, h0, if_false]
      split
      · exact h j (by omega) (Ne.symm h0) (Ne.symm h1)
      · rfl

theorem span_le (t a : Int) (h0 : 0 ≤ t) (h4 : t ≤ 4) : areaBase t a + sliceSpan t ≤ 0x320 := by
  rcases type_cases t h0 h4 with rfl | rfl | rfl | rfl | rfl <;>
    by_cases ha : a = 0 <;> simp [areaBase, sliceSpan, ha]

theorem checksumInput_congr (acb : Nat → Bool) (t a : Int) (b b' : List Nat)
    (h0 : 0 ≤ t) (h4 : t ≤ 4)
    (hb : areaBase t a + sliceSpan t ≤ b.length) (hb' : areaBase t a + sliceSpan t ≤ b'.length)
    (h : ∀ i, inInput t a i → b'[i]? = b[i]?) :
    checksumInput acb t (b'.drop (areaBase t a)) = checksumInput acb t (b.drop (areaBase t a)) := by
  rcases type_cases t h0 h4 with rfl | rfl | rfl | rfl | rfl
  · simp only [checksumInput, if_true]
    have e := slice_congr (b.drop (areaBase 0 a)) (b'.drop (areaBase 0 a)) 0 0x1E (by
      intro i _ hi
      rw [List.getElem?_drop, List.getElem?_drop]
      apply h
      simp [inInput, inputLo, inputHi]; omega)
    simpa using e
  · simp [checksumInput]
    simp [sliceSpan] at hb hb'
    apply header_congr _ _ 14 15 5 0 (by simp; omega) (by simp; omega)
    intro j hj h14 h15
    rw [List.getElem?_drop, List.getElem?_drop]
    apply h
    simp [inInput, inputLo, inputHi]; omega
  · simp [checksumInput]
    apply keptBlocks_congr
    intro k hk
    rw [blockAt_drop, blockAt_drop]
    apply slice_congr
    intro i hi1 hi2
    apply h
    simp [inInput, inputLo, inputHi]
    simp at hk
    omega
  · simp [checksumInput]
    apply keptBlocks_congr
    intro k hk
    rw [blockAt_drop, blockAt_drop]
    apply slice_congr
    intro i hi1 hi2
    apply h
    simp [inInput, inputLo, inputHi]
    simp at hk
    omega
  · simp [checksumInput]
    simp [sliceSpan] at hb hb'
    congr 1
    · apply header_congr _ _ 0 1 6 1 (by simp; omega) (by simp; omega)
      intro j hj h14 h15
      simp only [List.getElem?_drop]
      apply h
      simp [inInput, inputLo, inputHi]; omega
    · apply keptBlocks_congr
      intro k hk
      rw [blockAt_drop, blockAt_drop]
      apply slice_congr
      intro i hi1 hi2
      apply h
      simp [inInput, inputLo, inputHi]
      simp at hk
      omega

theorem bumped_false (b : List Nat) (t a : Int) : bumped b t a false = b := by
  simp [bumped]

theorem validateChecksum_true (acb : Nat → Bool) (b : List Nat) (t a : Int)
    (h0 : 0 ≤ t) (h4 : t ≤ 4) (h : areaBase t a + sliceSpan t ≤ b.length) :
    validateChecksum acb b t a true
      = some (decide (stored16 (bumped b t a true) (fieldLoc t a)
                = crcOf (checksumInput acb t ((bumped b t a true).drop (areaBase t a)))),
          stepBuf acb b t a) := by
  rw [validateChecksum_eq acb b t a true h0 h4 h]
  rfl

theorem validateChecksum_false (acb : Nat → Bool) (b : List Nat) (t a : Int)
    (h0 : 0 ≤ t) (h4 : t ≤ 4) (h : areaBase t a + sliceSpan t ≤ b.length) :
    validateChecksum acb b t a false
      = some (decide (stored16 b (fieldLoc t a)
                = crcOf (checksumInput acb t (b.drop (areaBase t a)))), b) := by
  rw [validateChecksum_eq acb b t a false h0 h4 h, bumped_false]
  rfl

theorem valid_iff (acb : Nat → Bool) (b : List Nat) (t a : Int)
    (h0 : 0 ≤ t) (h4 : t ≤ 4) (h : areaBase t a + sliceSpan t ≤ b.length) :
    Valid acb t a b ↔
      stored16 b (fieldLoc t a) = crcOf (checksumInput acb t (b.drop (areaBase t a))) := by
  unfold Valid
  rw [validateChecksum_false acb b t a h0 h4 h]
  simp

theorem length_stepBuf (acb : Nat → Bool) (b : List Nat) (t a : Int) :
    (stepBuf acb b t a).length = b.length := by
  unfold stepBuf
  rw [length_write16, length_bumped]

theorem length_sweepBuf (acb : Nat → Bool) (b : List Nat) (ps : List (Int × Int)) :
    (sweepBuf acb b ps).length = b.length := by
  induction ps generalizing b with
  | nil => rfl
  | cons p ps ih => rw [sweepBuf, ih, length_stepBuf]

theorem input_ne_field (t a : Int) (i : Nat) (h0 : 0 ≤ t) (h4 : t ≤ 4) (h : inInput t a i) :
    i ≠ fieldLoc t a ∧ i ≠ fieldLoc t a + 1 := by
  rcases type_cases t h0 h4 with rfl | rfl | rfl | rfl | rfl <;>
    simp [inInput, inputLo, inputHi, fieldLoc, checksumOffsetOf, getChecksumParameters] at h ⊢ <;>
    omega

theorem getElem?_stepBuf (acb : Nat → Bool) (b : List Nat) (t a : Int) (i : Nat)
    (h : ¬ inFootprint t a i) : (stepBuf acb b t a)[i]? = b[i]? := by
  unfold inFootprint at h
  unfold stepBuf
  rw [getElem?_write16 _ _ _ _ (by tauto) (by tauto)]
  unfold bumped
  split
  · rename_i hc
    exact getElem?_bumpByte _ _ _ (by have := hc.2; tauto)
  · rfl

theorem valid_stepBuf (acb : Nat → Bool) (b : List Nat) (t a : Int)
    (h0 : 0 ≤ t) (h4 : t ≤ 4) (h : areaBase t a + sliceSpan t ≤ b.length) :
    Valid acb t a (stepBuf acb b t a) := by
  have hloc := fieldLoc_lt t a h0 h4
  rw [valid_iff acb _ t a h0 h4 (by rw [length_stepBuf]; exact h)]
  have hc : checksumInput acb t ((stepBuf acb b t a).drop (areaBase t a))
      = checksumInput acb t ((bumped b t a true).drop (areaBase t a)) := by
    apply checksumInput_congr acb t a _ _ h0 h4 (by rw [length_bumped]; exact h)
      (by rw [length_stepBuf]; exact h)
    intro i hi
    have := input_ne_field t a i h0 h4 hi
    exact getElem?_write16 _ _ _ _ this.1 this.2
  rw [hc]
  exact stored16_write16 _ _ _ (crcOf_lt _) (by rw [length_bumped]; omega)

theorem valid_frame (acb : Nat → Bool) (b b' : List Nat) (t a : Int)
    (h0 : 0 ≤ t) (h4 : t ≤ 4) (h : areaBase t a + sliceSpan t ≤ b.length)
    (hl : b'.length = b.length) (hs : ∀ i, inSupport t a i → b'[i]? = b[i]?)
    (hv : Valid acb t a b) : Valid acb t a b' := by
  rw [valid_iff acb _ t a h0 h4 (by rw [hl]; exact h)]
  rw [valid_iff acb _ t a h0 h4 h] at hv
  rw [checksumInput_congr acb t a b b' h0 h4 h (by rw [hl]; exact h)
    (fun i hi => hs i (Or.inr (Or.inr hi)))]
  rw [stored16_congr b b' _ (hs _ (Or.inl rfl)) (hs _ (Or.inr (Or.inl rfl)))]
  exact hv

theorem valid_step (acb : Nat → Bool) (b : List Nat) (t a t' a' : Int)
    (h0 : 0 ≤ t) (h4 : t ≤ 4) (h : areaBase t a + sliceSpan t ≤ b.length)
    (hd : ∀ i, inSupport t a i → ¬ inFootprint t' a' i)
    (hv : Valid acb t a b) : Valid acb t a (stepBuf acb b t' a') :=
  valid_frame acb b _ t a h0 h4 h (length_stepBuf acb b t' a')
    (fun i hi => getElem?_stepBuf acb b t' a' i (hd i hi)) hv

theorem valid_sweep (acb : Nat → Bool) (b : List Nat) (t a : Int) (ps : List (Int × Int))
    (h0 : 0 ≤ t) (h4 : t ≤ 4) (h : areaBase t a + sliceSpan t ≤ b.length)
    (hd : ∀ p ∈ ps, ∀ i, inSupport t a i → ¬ inFootprint p.1 p.2 i)
    (hv : Valid acb t a b) : Valid acb t a (sweepBuf acb b ps) := by
  induction ps generalizing b with
  | nil => exact hv
  | cons p ps ih =>
    rw [sweepBuf]
    apply ih _ (by rw [length_stepBuf]; exact h)
      (fun q hq => hd q (List.mem_cons_of_mem _ hq))
    exact valid_step acb b t a p.1 p.2 h0 h4 h (hd p (List.mem_cons_self _ _)) hv
theorem separated (t a t' a' : Int) (h0 : 0 ≤ t) (h4 : t ≤ 4) (h0' : 0 ≤ t') (h4' : t' ≤ 4)
    (hc : clash t a t' a' = false) (i : Nat) (hs : inSupport t a i) : ¬ inFootprint t' a' i := by
  intro hf
  rcases type_cases t h0 h4 with rfl | rfl | rfl | rfl | rfl <;>
    rcases type_cases t' h0' h4' with rfl | rfl | rfl | rfl | rfl <;>
    by_cases ha : a = 0 <;> by_cases ha' : a' = 0 <;>
    simp [clash, inSupport, inFootprint, inInput, inputLo, inputHi, fieldLoc, areaBase,
      checksumOffsetOf, getChecksumParameters, ha, ha'] at hc hs hf <;>
    omega

theorem valid_sweep_framed (acb : Nat → Bool) (b : List Nat) (t a : Int) (ps : List (Int × Int))
    (h0 : 0 ≤ t) (h4 : t ≤ 4) (h : areaBase t a + sliceSpan t ≤ b.length)
    (hd : framed t a ps = true)
    (hv : Valid acb t a b) : Valid acb t a (sweepBuf acb b ps) := by
  apply valid_sweep acb b t a ps h0 h4 h _ hv
  intro p hp i hs
  unfold framed at hd
  rw [List.all_eq_true] at hd
  have := hd p hp
  simp only [Bool.and_eq_true, decide_eq_true_eq, Bool.not_eq_true'] at this
  exact separated t a p.1 p.2 h0 h4 this.1.1 this.1.2 this.2 i hs


/-! ## The sweep -/

theorem typeLoop_steps (acb : Nat → Bool) (a : Int) (ow : Bool) (OK : Bool)
    (b b1 b2 b3 b4 b5 : List Nat) (r1 r2 r3 r4 r5 : Bool)
    (h1 : validateChecksum acb b 4 a ow = some (r1, b1))
    (h2 : validateChecksum acb b1 3 a ow = some (r2, b2))
    (h3 : validateChecksum acb b2 2 a ow = some (r3, b3))
    (h4 : validateChecksum acb b3 1 a ow = some (r4, b4))
    (h5 : validateChecksum acb b4 0 a ow = some (r5, b5)) :
    ValidateAllChecksums.typeLoop acb a ow 5 OK b
      = some (((((OK && r1) && r2) && r3) && r4) && r5, b5) := by
  simp [ValidateAllChecksums.typeLoop, h1, h2, h3, h4, h5]

theorem ValidateAllChecksums_steps (acb : Nat → Bool) (ow : Bool)
    (b b1 b2 b3 b4 b5 b6 b7 b8 b9 b10 : List Nat) (r1 r2 r3 r4 r5 r6 r7 r8 r9 r10 : Bool)
    (h1 : validateChecksum acb b 4 0 ow = some (r1, b1))
    (h2 : validateChecksum acb b1 3 0 ow = some (r2, b2))
    (h3 : validateChecksum acb b2 2 0 ow = some (r3, b3))
    (h4 : validateChecksum acb b3 1 0 ow = some (r4, b4))
    (h5 : validateChecksum acb b4 0 0 ow = some (r5, b5))
    (h6 : validateChecksum acb b5 4 1 ow = some (r6, b6))
    (h7 : validateChecksum acb b6 3 1 ow = some (r7, b7))
    (h8 : validateChecksum acb b7 2 1 ow = some (r8, b8))
    (h9 : validateChecksum acb b8 1 1 ow = some (r9, b9))
    (h10 : validateChecksum acb b9 0 1 ow = some (r10, b10)) :
    ValidateAllChecksums acb b ow
      = some (r1 && r2 && r3 && r4 && r5 && r6 && r7 && r8 && r9 && r10, b10) := by
  have e0 : (2 : Int) - ((1 + 1 : Nat) : Int) = 0 := by norm_num
  have e1 : (2 : Int) - ((0 + 1 : Nat) : Int) = 1 := by norm_num
  unfold ValidateAllChecksums
  rw [ValidateAllChecksums.areaLoop, e0, typeLoop_steps acb 0 ow true b b1 b2 b3 b4 b5 r1 r2 r3 r4 r5 h1 h2 h3 h4 h5]
  simp only
  rw [ValidateAllChecksums.areaLoop, e1, typeLoop_steps acb 1 ow _ b5 b6 b7 b8 b9 b10 r6 r7 r8 r9 r10 h6 h7 h8 h9 h10]
  simp [ValidateAllChecksums.areaLoop, Bool.and_assoc]

theorem validateChecksum_true_long (acb : Nat → Bool) (b : List Nat) (t a : Int)
    (h0 : 0 ≤ t) (h4 : t ≤ 4) (h : 0x320 ≤ b.length) :
    validateChecksum acb b t a true
      = some (decide (stored16 (bumped b t a true) (fieldLoc t a)
                = crcOf (checksumInput acb t ((bumped b t a true).drop (areaBase t a)))),
          stepBuf acb b t a) :=
  validateChecksum_true acb b t a h0 h4 (Nat.le_trans (span_le t a h0 h4) h)

theorem validateChecksum_type_zero (acb : Nat → Bool) (b : List Nat) (a : Int) (ow : Bool) :
    validateChecksum acb b 0 a ow = validateChecksum acb b 0 0 ow := by
  simp [validateChecksum]

theorem ValidateAllChecksums_true (acb : Nat → Bool) (b : List Nat) (h : 0x320 ≤ b.length) :
    ∃ r, ValidateAllChecksums acb b true = some (r, sweepBuf acb b sweepOrder) := by
  have l1 : 0x320 ≤ (stepBuf acb b 4 0).length := by rw [length_stepBuf]; exact h
  have l2 := (length_stepBuf acb (stepBuf acb b 4 0) 3 0).symm ▸ l1
  have l3 := (length_stepBuf acb (stepBuf acb (stepBuf acb b 4 0) 3 0) 2 0).symm ▸ l2
  have l4 := (length_stepBuf acb _ 1 0).symm ▸ l3
  have l5 := (length_stepBuf acb _ 0 0).symm ▸ l4
  have l6 := (length_stepBuf acb _ 4 1).symm ▸ l5
  have l7 := (length_stepBuf acb _ 3 1).symm ▸ l6
  have l8 := (length_stepBuf acb _ 2 1).symm ▸ l7
  have l9 := (length_stepBuf acb _ 1 1).symm ▸ l8
  exact ⟨_, ValidateAllChecksums_steps acb true _ _ _ _ _ _ _ _ _ _ _ _ _ _ _ _ _ _ _ _ _
    (validateChecksum_true_long acb b 4 0 (by decide) (by decide) h)
    (validateChecksum_true_long acb _ 3 0 (by decide) (by decide) l1)
    (validateChecksum_true_long acb _ 2 0 (by decide) (by decide) l2)
    (validateChecksum_true_long acb _ 1 0 (by decide) (by decide) l3)
    (validateChecksum_true_long acb _ 0 0 (by decide) (by decide) l4)
    (validateChecksum_true_long acb _ 4 1 (by decide) (by decide) l5)
    (validateChecksum_true_long acb _ 3 1 (by decide) (by decide) l6)
    (validateChecksum_true_long acb _ 2 1 (by decide) (by decide) l7)
    (validateChecksum_true_long acb _ 1 1 (by decide) (by decide) l8)
    (validateChecksum_true_long acb _ 0 1 (by decide) (by decide) l9)⟩

theorem ValidateAllChecksums_false_of_valid (acb : Nat → Bool) (b : List Nat)
    (hv : ∀ p ∈ sweepOrder, Valid acb p.1 p.2 b) :
    ValidateAllChecksums acb b false = some (true, b) := by
  have v := fun (t a : Int) (hm : (t, a) ∈ sweepOrder) => hv (t, a) hm
  unfold Valid at v
  exact ValidateAllChecksums_steps acb false b b b b b b b b b b b
    true true true true true true true true true true
    (v 4 0 (by decide)) (v 3 0 (by decide)) (v 2 0 (by decide)) (v 1 0 (by decide))
    (v 0 0 (by decide)) (v 4 1 (by decide)) (v 3 1 (by decide)) (v 2 1 (by decide))
    (v 1 1 (by decide)) (v 0 1 (by decide))

theorem sweepBuf_append (acb : Nat → Bool) (b : List Nat) (xs ys : List (Int × Int)) :
    sweepBuf acb b (xs ++ ys) = sweepBuf acb (sweepBuf acb b xs) ys := by
  induction xs generalizing b with
  | nil => rfl
  | cons x xs ih => exact ih _

theorem valid_after_sweep (acb : Nat → Bool) (b : List Nat) (h : 0x320 ≤ b.length)
    (pre post : List (Int × Int)) (t a : Int) (h0 : 0 ≤ t) (h4 : t ≤ 4)
    (hf : framed t a post = true) :
    Valid acb t a (sweepBuf acb b (pre ++ (t, a) :: post)) := by
  have hl : areaBase t a + sliceSpan t ≤ (sweepBuf acb b pre).length := by
    rw [length_sweepBuf]; exact Nat.le_trans (span_le t a h0 h4) h
  rw [sweepBuf_append, sweepBuf]
  exact valid_sweep_framed acb _ t a post h0 h4 (by rw [length_stepBuf]; exact hl) hf
    (valid_stepBuf acb _ t a h0 h4 hl)

theorem regenerated_valid (acb : Nat → Bool) (b : List Nat) (h : 0x320 ≤ b.length) :
    ∀ p ∈ sweepOrder, Valid acb p.1 p.2 (sweepBuf acb b sweepOrder) := by
  have v40 : Valid acb 4 0 (sweepBuf acb b sweepOrder) :=
    valid_after_sweep acb b h []
      [(3, 0), (2, 0), (1, 0), (0, 0), (4, 1), (3, 1), (2, 1), (1, 1), (0, 1)] 4 0
      (by decide) (by decide) (by decide)
  have v30 : Valid acb 3 0 (sweepBuf acb b sweepOrder) :=
    valid_after_sweep acb b h [(4, 0)]
      [(2, 0), (1, 0), (0, 0), (4, 1), (3, 1), (2, 1), (1, 1), (0, 1)] 3 0
      (by decide) (by decide) (by decide)
  have v20 : Valid acb 2 0 (sweepBuf acb b sweepOrder) :=
    valid_after_sweep acb b h [(4, 0), (3, 0)]
      [(1, 0), (0, 0), (4, 1), (3, 1), (2, 1), (1, 1), (0, 1)] 2 0
      (by decide) (by decide) (by decide)
  have v10 : Valid acb 1 0 (sweepBuf acb b sweepOrder) :=
    valid_after_sweep acb b h [(4, 0), (3, 0), (2, 0)]
      [(0, 0), (4, 1), (3, 1), (2, 1), (1, 1), (0, 1)] 1 0
      (by decide) (by decide) (by decide)
  have v41 : Valid acb 4 1 (sweepBuf acb b sweepOrder) :=
    valid_after_sweep acb b h [(4, 0), (3, 0), (2, 0), (1, 0), (0, 0)]
      [(3, 1), (2, 1), (1, 1), (0, 1)] 4 1 (by decide) (by decide) (by decide)
  have v31 : Valid acb 3 1 (sweepBuf acb b sweepOrder) :=
    valid_after_sweep acb b h [(4, 0), (3, 0), (2, 0), (1, 0), (0, 0), (4, 1)]
      [(2, 1), (1, 1), (0, 1)] 3 1 (by decide) (by decide) (by decide)
  have v21 : Valid acb 2 1 (sweepBuf acb b sweepOrder) :=
    valid_after_sweep acb b h [(4, 0), (3, 0), (2, 0), (1, 0), (0, 0), (4, 1), (3, 1)]
      [(1, 1), (0, 1)] 2 1 (by decide) (by decide) (by decide)
  have v11 : Valid acb 1 1 (sweepBuf acb b sweepOrder) :=
    valid_after_sweep acb b h [(4, 0), (3, 0), (2, 0), (1, 0), (0, 0), (4, 1), (3, 1), (2, 1)]
      [(0, 1)] 1 1 (by decide) (by decide) (by decide)
  have v01 : Valid acb 0 1 (sweepBuf acb b sweepOrder) :=
    valid_after_sweep acb b h
      [(4, 0), (3, 0), (2, 0), (1, 0), (0, 0), (4, 1), (3, 1), (2, 1), (1, 1)]
      [] 0 1 (by decide) (by decide) (by decide)
  have v00 : Valid acb 0 0 (sweepBuf acb b sweepOrder) := by
    unfold Valid at v01 ⊢
    rw [← validateChecksum_type_zero acb _ 1 false]
    exact v01
  intro p hp
  simp only [sweepOrder, List.mem_cons, List.mem_singleton, List.not_mem_nil, or_false] at hp
  rcases hp with rfl | rfl | rfl | rfl | rfl | rfl | rfl | rfl | rfl | rfl
  · exact v40
  · exact v30
  · exact v20
  · exact v10
  · exact v00
  · exact v41
  · exact v31
  · exact v21
  · exact v11
  · exact v01

/-! ## Byte values -/

theorem le16_value (x y : Nat) (hx : x < 0x100) (hy : y < 0x100) :
    ((x &&& 0xff) ||| ((y &&& 0xff) <<< 8)) % 0x10000 = x + 256 * y := by
  have e8 : (0xff : Nat) = 2 ^ 8 - 1 := by norm_num
  have ex : x % 2 ^ 8 = x := Nat.mod_eq_of_lt (by simpa using hx)
  have ey : y % 2 ^ 8 = y := Nat.mod_eq_of_lt (by simpa using hy)
  have hor : 2 ^ 8 * y + x = 2 ^ 8 * y ||| x := Nat.mul_add_lt_is_or (by simpa using hx) y
  rw [e8, Nat.and_pow_two_sub_one_eq_mod, Nat.and_pow_two_sub_one_eq_mod, ex, ey,
    Nat.shiftLeft_eq, Nat.lor_comm, Nat.mul_comm y, ← hor]
  omega

theorem low_byte (c : Nat) : c &&& 0xff = c % 256 := by
  have e8 : (0xff : Nat) = 2 ^ 8 - 1 := by norm_num
  rw [e8, Nat.and_pow_two_sub_one_eq_mod]

theorem high_byte (c : Nat) (h : c < 0x10000) : (c >>> 8) &&& 0xff = c / 256 := by
  rw [low_byte, Nat.shiftRight_eq_div_pow]
  omega

theorem getD_lt (b : List Nat) (hb : ∀ x ∈ b, x < 0x100) (i : Nat) : b.getD i 0 < 0x100 := by
  by_cases h : i < b.length
  · rw [List.getD_eq_getElem _ _ h]
    exact hb _ (List.getElem_mem h)
  · rw [List.getD_eq_default _ _ (by omega)]
    decide

theorem getD_bumped_field (b : List Nat) (t a : Int) (ow : Bool) (h0 : 0 ≤ t) (h4 : t ≤ 4)
    (k : Nat) (hk : k = fieldLoc t a ∨ k = fieldLoc t a + 1) :
    (bumped b t a ow).getD k 0 = b.getD k 0 := by
  unfold bumped
  split
  · rename_i hc
    obtain ⟨-, rfl⟩ := hc
    simp only [List.getD_eq_getElem?_getD]
    rw [getElem?_bumpByte]
    simp [fieldLoc, checksumOffsetOf, getChecksumParameters] at hk
    omega
  · rfl

theorem validateChecksum_stored_vs_computed (acb : Nat → Bool) (b : List Nat) (t a : Int) (ow : Bool)
    (h0 : 0 ≤ t) (h4 : t ≤ 4) (hlen : areaBase t a + sliceSpan t ≤ b.length)
    (hb : ∀ x ∈ b, x < 0x100) :
    ∃ c, computeChecksum acb t ((bumped b t a ow).drop (areaBase t a)) = some (some c) ∧
      validateChecksum acb b t a ow
        = some (decide (b.getD (fieldLoc t a) 0 + 256 * b.getD (fieldLoc t a + 1) 0 = c),
            if ow = true then
              ((bumped b t a ow).set (fieldLoc t a) (c % 256)).set (fieldLoc t a + 1) (c / 256)
            else b) := by
  refine ⟨crcOf (checksumInput acb t ((bumped b t a ow).drop (areaBase t a))), ?_, ?_⟩
  · exact computeChecksum_eq acb t _ h0 h4 (by rw [List.length_drop, length_bumped]; omega)
  · rw [validateChecksum_eq acb b t a ow h0 h4 hlen]
    have hs : stored16 (bumped b t a ow) (fieldLoc t a)
        = b.getD (fieldLoc t a) 0 + 256 * b.getD (fieldLoc t a + 1) 0 := by
      unfold stored16
      rw [getD_bumped_field b t a ow h0 h4 _ (Or.inl rfl),
        getD_bumped_field b t a ow h0 h4 _ (Or.inr rfl)]
      exact le16_value _ _ (getD_lt b hb _) (getD_lt b hb _)
    rw [hs]
    unfold write16
    rw [low_byte, high_byte _ (crcOf_lt _)]

/-! ## Support for the claims -/

theorem validate_some (acb : Nat → Bool) (b : List Nat) (t a : Int) (ow : Bool)
    (h0 : 0 ≤ t) (h4 : t ≤ 4) (h : 0x320 ≤ b.length) :
    ∃ r b', validateChecksum acb b t a ow = some (r, b') ∧ 0x320 ≤ b'.length := by
  rw [validateChecksum_eq acb b t a ow h0 h4 (Nat.le_trans (span_le t a h0 h4) h)]
  refine ⟨_, _, rfl, ?_⟩
  cases ow
  · simpa using h
  · simp only [if_true, length_write16, length_bumped]
    exact h

theorem sweep_chain (acb : Nat → Bool) (b : List Nat) (ow : Bool) (h : 0x320 ≤ b.length) :
    ∃ r1 b1 r2 b2 r3 b3 r4 b4 r5 b5 r6 b6 r7 b7 r8 b8 r9 b9 r10 b10,
      validateChecksum acb b 4 0 ow = some (r1, b1) ∧
      validateChecksum acb b1 3 0 ow = some (r2, b2) ∧
      validateChecksum acb b2 2 0 ow = some (r3, b3) ∧
      validateChecksum acb b3 1 0 ow = some (r4, b4) ∧
      validateChecksum acb b4 0 0 ow = some (r5, b5) ∧
      validateChecksum acb b5 4 1 ow = some (r6, b6) ∧
      validateChecksum acb b6 3 1 ow = some (r7, b7) ∧
      validateChecksum acb b7 2 1 ow = some (r8, b8) ∧
      validateChecksum acb b8 1 1 ow = some (r9, b9) ∧
      validateChecksum acb b9 0 1 ow = some (r10, b10) ∧
      ValidateAllChecksums acb b ow
        = some (r1 && r2 && r3 && r4 && r5 && r6 && r7 && r8 && r9 && r10, b10) := by
  obtain ⟨r1, b1, e1, l1⟩ := validate_some acb b 4 0 ow (by decide) (by decide) h
  obtain ⟨r2, b2, e2, l2⟩ := validate_some acb b1 3 0 ow (by decide) (by decide) l1
  obtain ⟨r3, b3, e3, l3⟩ := validate_some acb b2 2 0 ow (by decide) (by decide) l2
  obtain ⟨r4, b4, e4, l4⟩ := validate_some acb b3 1 0 ow (by decide) (by decide) l3
  obtain ⟨r5, b5, e5, l5⟩ := validate_some acb b4 0 0 ow (by decide) (by decide) l4
  obtain ⟨r6, b6, e6, l6⟩ := validate_some acb b5 4 1 ow (by decide) (by decide) l5
  obtain ⟨r7, b7, e7, l7⟩ := validate_some acb b6 3 1 ow (by decide) (by decide) l6
  obtain ⟨r8, b8, e8, l8⟩ := validate_some acb b7 2 1 ow (by decide) (by decide) l7
  obtain ⟨r9, b9, e9, l9⟩ := validate_some acb b8 1 1 ow (by decide) (by decide) l8
  obtain ⟨r10, b10, e10, -⟩ := validate_some acb b9 0 1 ow (by decide) (by decide) l9
  exact ⟨r1, b1, r2, b2, r3, b3, r4, b4, r5, b5, r6, b6, r7, b7, r8, b8, r9, b9, r10, b10,
    e1, e2, e3, e4, e5, e6, e7, e8, e9, e10,
    ValidateAllChecksums_steps acb ow b b1 b2 b3 b4 b5 b6 b7 b8 b9 b10
      r1 r2 r3 r4 r5 r6 r7 r8 r9 r10 e1 e2 e3 e4 e5 e6 e7 e8 e9 e10⟩

theorem crc_map_some (bs : List Nat) :
    (ComputeCcittCrc16 bs bs.length).map some = some (some (crcOf bs)) := by
  rw [ComputeCcittCrc16_self]
  rfl

theorem computeChecksum_four_congr (acb : Nat → Bool) (s s' : List Nat) (h : 0xE0 ≤ s.length)
    (h' : 0xE0 ≤ s'.length) (he : ∀ i, 0x92 ≤ i → i < 0xE0 → s'[i]? = s[i]?) :
    computeChecksum acb 4 s' = computeChecksum acb 4 s := by
  rw [computeChecksum_four acb s h, computeChecksum_four acb s' h']
  have e1 := header_congr (s.drop 0x90) (s'.drop 0x90) 0 1 6 1 (by simp; omega) (by simp; omega)
    (by
      intro j hj h14 h15
      simp only [List.getElem?_drop]
      exact he _ (by omega) (by omega))
  have e2 : keptBlocks acb s' [10, 11, 12, 13] = keptBlocks acb s [10, 11, 12, 13] := by
    apply keptBlocks_congr
    intro k hk
    apply slice_congr
    intro i hi1 hi2
    simp at hk
    exact he i (by omega) (by omega)
  rw [e1, e2]

theorem computeChecksum_one_congr (acb acb' : Nat → Bool) (s s' : List Nat) (h : 0x10 ≤ s.length)
    (h' : 0x10 ≤ s'.length) (he : ∀ i, i < 14 → s'[i]? = s[i]?) :
    computeChecksum acb' 1 s' = computeChecksum acb 1 s := by
  rw [computeChecksum_one acb s h, computeChecksum_one acb' s' h']
  rw [header_congr s s' 14 15 5 0 h h' (by
      intro j hj h14 h15
      exact he _ (by omega))]

theorem computeChecksum_invalid (acb : Nat → Bool) (t : Int) (ht : t < 0 ∨ 4 < t)
    (s : List Nat) : computeChecksum acb t s = some none := by
  have h0 : ¬ t = 0 := by omega
  have h1 : ¬ t = 1 := by omega
  have h2 : ¬ t = 2 := by omega
  have h3 : ¬ t = 3 := by omega
  have h4 : ¬ t = 4 := by omega
  simp [computeChecksum, computeChecksum.walk, h0, h1, h2, h3, h4]

theorem getChecksumParameters_invalid (t : Int) (ht : t < 0 ∨ 4 < t) :
    getChecksumParameters t = none := by
  have h0 : ¬ t = 0 := by omega
  have h1 : ¬ t = 1 := by omega
  have h2 : ¬ t = 2 := by omega
  have h3 : ¬ t = 3 := by omega
  have h4 : ¬ t = 4 := by omega
  simp [getChecksumParameters, h0, h1, h2, h3, h4]

theorem validateChecksum_invalid (acb : Nat → Bool) (t : Int) (ht : t < 0 ∨ 4 < t)
    (b : List Nat) (a : Int) (ow : Bool) : validateChecksum acb b t a ow = some (false, b) := by
  unfold validateChecksum
  rw [getChecksumParameters_invalid t ht]

theorem getChecksumParameters_isSome (t : Int) :
    (getChecksumParameters t).isSome = true ↔ (0 ≤ t ∧ t ≤ 4) := by
  constructor
  · intro h
    by_contra hc
    rw [getChecksumParameters_invalid t (by omega)] at h
    simp at h
  · rintro ⟨h0, h4⟩
    rcases type_cases t h0 h4 with rfl | rfl | rfl | rfl | rfl <;> rfl

theorem validTypeOneRecord_bytes : ∀ x ∈ validTypeOneRecord, x < 0x100 := by
  intro x hx
  simp only [validTypeOneRecord, List.mem_append, List.mem_replicate, List.mem_cons,
    List.mem_singleton, List.not_mem_nil, or_false] at hx
  omega


/-! ## Injectivity of the CRC step -/

theorem xor_mod_64k (a b : Nat) : (a ^^^ b) % 0x10000 = (a % 0x10000) ^^^ (b % 0x10000) := by
  apply Nat.eq_of_testBit_eq
  intro i
  have e : (0x10000 : Nat) = 2 ^ 16 := by norm_num
  simp only [e, Nat.testBit_xor, Nat.testBit_mod_two_pow]
  cases decide (i < 16) <;> simp

theorem ccittBitStep_lt (c : Nat) : ccittBitStep c < 0x10000 := by
  unfold ccittBitStep
  split <;> exact Nat.mod_lt _ (by decide)

theorem ccittBitStep_parity (c : Nat) :
    ccittBitStep c % 2 = if c.testBit 15 then 1 else 0 := by
  unfold ccittBitStep
  split
  · have h := @Nat.xor_mod_two_eq (c <<< 1) 0x1021
    rw [Nat.shiftLeft_eq] at h ⊢
    omega
  · rw [Nat.shiftLeft_eq]
    omega

theorem ccittBitStep_inj (c c' : Nat) (hc : c < 0x10000) (hc' : c' < 0x10000)
    (h : ccittBitStep c = ccittBitStep c') : c = c' := by
  have hp := ccittBitStep_parity c
  have hp' := ccittBitStep_parity c'
  rw [h] at hp
  rw [hp'] at hp
  have hb : c'.testBit 15 = c.testBit 15 := by
    cases h1 : c.testBit 15 <;> cases h2 : c'.testBit 15 <;> simp [h1, h2] at hp ⊢
  have t := testBit15_iff c hc
  have t' := testBit15_iff c' hc'
  unfold ccittBitStep at h
  rw [hb] at h
  have key : (c <<< 1) % 0x10000 = (c' <<< 1) % 0x10000 := by
    cases h1 : c.testBit 15
    · simpa [h1] using h
    · simp only [h1, if_true] at h
      rw [xor_mod_64k, xor_mod_64k (c' <<< 1)] at h
      exact Nat.xor_left_injective h
  rw [hb] at t'
  rw [Nat.shiftLeft_eq, Nat.shiftLeft_eq] at key
  cases h1 : c.testBit 15
  · rw [h1] at t t'
    have := of_decide_eq_false t.symm
    have := of_decide_eq_false t'.symm
    omega
  · rw [h1] at t t'
    have := of_decide_eq_true t.symm
    have := of_decide_eq_true t'.symm
    omega

theorem ccittBitStep_eq (c : Nat) :
    ccittBitStep c = ((c <<< 1) ^^^ (if c.testBit 15 then 0x1021 else 0)) % 0x10000 := by
  unfold ccittBitStep
  split <;> simp

theorem shift_xor_xor_mod (x y kx ky : Nat) :
    (((x ^^^ y) <<< 1) ^^^ (kx ^^^ ky)) % 0x10000
      = (((x <<< 1) ^^^ kx) % 0x10000) ^^^ (((y <<< 1) ^^^ ky) % 0x10000) := by
  apply Nat.eq_of_testBit_eq
  intro i
  have e : (0x10000 : Nat) = 2 ^ 16 := by norm_num
  simp only [e, Nat.testBit_xor, Nat.testBit_mod_two_pow, Nat.testBit_shiftLeft]
  cases decide (i < 16) <;> cases decide (i ≥ 1) <;> cases x.testBit (i - 1) <;>
    cases y.testBit (i - 1) <;> cases kx.testBit i <;> cases ky.testBit i <;> rfl

theorem ccittBitStep_xor (x y : Nat) :
    ccittBitStep (x ^^^ y) = ccittBitStep x ^^^ ccittBitStep y := by
  rw [ccittBitStep_eq, ccittBitStep_eq x, ccittBitStep_eq y, ← shift_xor_xor_mod,
    Nat.testBit_xor]
  cases x.testBit 15 <;> cases y.testBit 15 <;> rfl

theorem iterate_bitStep_lt (n c : Nat) (hc : c < 0x10000) : ccittBitStep^[n] c < 0x10000 := by
  cases n with
  | zero => exact hc
  | succ n =>
    rw [Function.iterate_succ_apply']
    exact ccittBitStep_lt _

theorem iterate_bitStep_inj (n c c' : Nat) (hc : c < 0x10000) (hc' : c' < 0x10000)
    (h : ccittBitStep^[n] c = ccittBitStep^[n] c') : c = c' := by
  induction n generalizing c c' with
  | zero => exact h
  | succ n ih =>
    rw [Function.iterate_succ_apply, Function.iterate_succ_apply] at h
    exact ccittBitStep_inj c c' hc hc' (ih _ _ (ccittBitStep_lt c) (ccittBitStep_lt c') h)

theorem iterate_bitStep_xor (n x y : Nat) :
    ccittBitStep^[n] (x ^^^ y) = ccittBitStep^[n] x ^^^ ccittBitStep^[n] y := by
  induction n generalizing x y with
  | zero => rfl
  | succ n ih =>
    rw [Function.iterate_succ_apply, Function.iterate_succ_apply, Function.iterate_succ_apply,
      ccittBitStep_xor, ih]

theorem shift8_lt (d : Nat) (hd : d < 0x100) : d <<< 8 < 0x10000 := by
  rw [Nat.shiftLeft_eq]; omega

theorem UpdateCcittCrc16_mod (crc d : Nat) :
    UpdateCcittCrc16 crc d = UpdateCcittCrc16 crc (d % 0x100) := by
  unfold UpdateCcittCrc16
  have : (d <<< 8) % 0x10000 = ((d % 0x100) <<< 8) % 0x10000 := by
    rw [Nat.shiftLeft_eq, Nat.shiftLeft_eq]; omega
  rw [this]

theorem Update_eq_step (crc d : Nat) (hc : crc < 0x10000) :
    UpdateCcittCrc16 crc d = ccittByteStep crc (d % 0x100) := by
  rw [UpdateCcittCrc16_mod, UpdateCcittCrc16_eq_ccittByteStep crc _ hc (Nat.mod_lt _ (by decide))]

theorem Update_state_inj (d c c' : Nat) (hc : c < 0x10000) (hc' : c' < 0x10000)
    (h : UpdateCcittCrc16 c d = UpdateCcittCrc16 c' d) : c = c' := by
  rw [Update_eq_step c d hc, Update_eq_step c' d hc'] at h
  unfold ccittByteStep at h
  have hd := shift8_lt (d % 0x100) (Nat.mod_lt _ (by decide))
  have := iterate_bitStep_inj 8 _ _ (Nat.xor_lt_two_pow (n := 16) hc hd)
    (Nat.xor_lt_two_pow (n := 16) hc' hd) h
  exact Nat.xor_left_injective this

theorem Update_byte_inj (c d d' : Nat) (hc : c < 0x10000) (hd : d < 0x100) (hd' : d' < 0x100)
    (h : UpdateCcittCrc16 c d = UpdateCcittCrc16 c d') : d = d' := by
  rw [UpdateCcittCrc16_eq_ccittByteStep c d hc hd,
    UpdateCcittCrc16_eq_ccittByteStep c d' hc hd'] at h
  unfold ccittByteStep at h
  have := iterate_bitStep_inj 8 _ _ (Nat.xor_lt_two_pow (n := 16) hc (shift8_lt d hd))
    (Nat.xor_lt_two_pow (n := 16) hc (shift8_lt d' hd')) h
  have := Nat.xor_right_injective this
  rw [Nat.shiftLeft_eq, Nat.shiftLeft_eq] at this
  omega

set_option maxRecDepth 100000 in
theorem low_byte_zero (e : Nat) (he : e < 0x100)
    (h : ccittBitStep^[8] (e <<< 8) % 0x100 = 0) : e = 0 := by
  have key : ∀ e < 0x100, ccittBitStep^[8] (e <<< 8) % 0x100 = 0 → e = 0 := by decide
  exact key e he h

theorem xor_mod_256 (a b : Nat) : (a ^^^ b) % 0x100 = (a % 0x100) ^^^ (b % 0x100) := by
  apply Nat.eq_of_testBit_eq
  intro i
  have e : (0x100 : Nat) = 2 ^ 8 := by norm_num
  simp only [e, Nat.testBit_xor, Nat.testBit_mod_two_pow]
  cases decide (i < 8) <;> simp

theorem Update_two_inj (c d1 d2 e1 e2 : Nat) (hc : c < 0x10000)
    (hd1 : d1 < 0x100) (hd2 : d2 < 0x100) (he1 : e1 < 0x100) (he2 : e2 < 0x100)
    (h : UpdateCcittCrc16 (UpdateCcittCrc16 c d1) d2
      = UpdateCcittCrc16 (UpdateCcittCrc16 c e1) e2) : d1 = e1 ∧ d2 = e2 := by
  have hs := UpdateCcittCrc16_lt c d1
  have hs' := UpdateCcittCrc16_lt c e1
  rw [UpdateCcittCrc16_eq_ccittByteStep _ d2 hs hd2,
    UpdateCcittCrc16_eq_ccittByteStep _ e2 hs' he2] at h
  unfold ccittByteStep at h
  have h1 := iterate_bitStep_inj 8 _ _ (Nat.xor_lt_two_pow (n := 16) hs (shift8_lt d2 hd2))
    (Nat.xor_lt_two_pow (n := 16) hs' (shift8_lt e2 he2)) h
  rw [UpdateCcittCrc16_eq_ccittByteStep c d1 hc hd1,
    UpdateCcittCrc16_eq_ccittByteStep c e1 hc he1] at h1
  unfold ccittByteStep at h1
  rw [iterate_bitStep_xor, iterate_bitStep_xor 8 c, Nat.xor_assoc, Nat.xor_assoc] at h1
  have h2 := Nat.xor_right_injective h1
  -- low bytes
  have h3 := congrArg (fun v => v % 0x100) h2
  simp only [xor_mod_256] at h3
  have z1 : (d2 <<< 8) % 0x100 = 0 := by rw [Nat.shiftLeft_eq]; omega
  have z2 : (e2 <<< 8) % 0x100 = 0 := by rw [Nat.shiftLeft_eq]; omega
  rw [z1, z2, Nat.xor_zero, Nat.xor_zero] at h3
  have h4 : (ccittBitStep^[8] (d1 <<< 8) ^^^ ccittBitStep^[8] (e1 <<< 8)) % 0x100 = 0 := by
    rw [xor_mod_256, h3, Nat.xor_self]
  rw [← iterate_bitStep_xor] at h4
  have hx : (d1 <<< 8) ^^^ (e1 <<< 8) = (d1 ^^^ e1) <<< 8 := by
    apply Nat.eq_of_testBit_eq
    intro i
    simp only [Nat.testBit_xor, Nat.testBit_shiftLeft]
    cases decide (i ≥ 8) <;> simp
  rw [hx] at h4
  have h5 := low_byte_zero _ (Nat.xor_lt_two_pow (n := 8) hd1 he1) h4
  have h6 : d1 = e1 := Nat.xor_eq_zero.mp h5
  subst h6
  refine ⟨rfl, ?_⟩
  have h7 := Nat.xor_right_injective h2
  rw [Nat.shiftLeft_eq, Nat.shiftLeft_eq] at h7
  omega

theorem foldl_Update_inj (suf : List Nat) (c c' : Nat) (hc : c < 0x10000) (hc' : c' < 0x10000)
    (h : suf.foldl UpdateCcittCrc16 c = suf.foldl UpdateCcittCrc16 c') : c = c' := by
  induction suf generalizing c c' with
  | nil => exact h
  | cons d suf ih =>
    rw [List.foldl_cons, List.foldl_cons] at h
    exact Update_state_inj d c c' hc hc'
      (ih _ _ (UpdateCcittCrc16_lt _ _) (UpdateCcittCrc16_lt _ _) h)

theorem Update_state_surj (d s : Nat) (hs : s < 0x10000) :
    ∃ c, c < 0x10000 ∧ UpdateCcittCrc16 c d = s := by
  let f : Fin 0x10000 → Fin 0x10000 := fun c => ⟨UpdateCcittCrc16 c.1 d, UpdateCcittCrc16_lt _ _⟩
  have hf : Function.Injective f := by
    intro a b hab
    have := congrArg Fin.val hab
    exact Fin.ext (Update_state_inj d a.1 b.1 a.2 b.2 this)
  obtain ⟨c, hc⟩ := Finite.surjective_of_injective hf ⟨s, hs⟩
  exact ⟨c.1, c.2, congrArg Fin.val hc⟩

theorem burst_detected (i : Nat) (m m' : List Nat) (c : Nat) (hc : c < 0x10000)
    (hl : m.length = m'.length) (hne : m ≠ m')
    (hb : ∀ x ∈ m, x < 0x100) (hb' : ∀ x ∈ m', x < 0x100)
    (ha : ∀ j, j ≠ i → j ≠ i + 1 → m[j]? = m'[j]?) :
    m.foldl UpdateCcittCrc16 c ≠ m'.foldl UpdateCcittCrc16 c := by
  induction i generalizing m m' c with
  | zero =>
    match m, m' with
    | [], [] => exact absurd rfl hne
    | [], _ :: _ => simp at hl
    | _ :: _, [] => simp at hl
    | [a], [a'] =>
      intro h
      have := Update_byte_inj c a a' hc (hb a (by simp)) (hb' a' (by simp)) h
      exact hne (by rw [this])
    | [_], _ :: _ :: _ => simp at hl
    | _ :: _ :: _, [_] => simp at hl
    | a :: b :: rest, a' :: b' :: rest' =>
      have hr : rest = rest' := by
        apply List.ext_getElem?
        intro j
        have := ha (j + 2) (by omega) (by omega)
        simpa using this
      subst hr
      intro h
      simp only [List.foldl_cons] at h
      have h2 := foldl_Update_inj rest _ _ (UpdateCcittCrc16_lt _ _) (UpdateCcittCrc16_lt _ _) h
      have := Update_two_inj c a b a' b' hc (hb a (by simp)) (hb b (by simp))
        (hb' a' (by simp)) (hb' b' (by simp)) h2
      exact hne (by rw [this.1, this.2])
  | succ i ih =>
    match m, m' with
    | [], [] => exact absurd rfl hne
    | [], _ :: _ => simp at hl
    | _ :: _, [] => simp at hl
    | a :: t, a' :: t' =>
      have h0 := ha 0 (by omega) (by omega)
      simp at h0
      subst h0
      simp only [List.foldl_cons]
      apply ih t t' _ (UpdateCcittCrc16_lt _ _) (by simpa using hl)
        (fun e => hne (by rw [e]))
        (fun x hx => hb x (List.mem_cons_of_mem _ hx))
        (fun x hx => hb' x (List.mem_cons_of_mem _ hx))
      intro j h1 h2
      have := ha (j + 1) (by omega) (by omega)
      simpa using this

/-! ## Read-only calls and the footprint of a pass -/

theorem validateChecksum_readonly (acb : Nat → Bool) (b : List Nat) (t a : Int)
    (r : Bool) (b' : List Nat) (h : validateChecksum acb b t a false = some (r, b')) :
    b' = b := by
  unfold validateChecksum at h
  simp only [Bool.false_eq_true, false_and, if_false] at h
  split at h
  · simp at h; exact h.2.symm
  · split at h
    · simp at h
    · simp at h; exact h.2.symm
    · split at h
      · simp at h; exact h.2.symm
      · simp at h

theorem typeLoop_readonly (acb : Nat → Bool) (a : Int) (n : Nat) (OK : Bool) (b : List Nat)
    (r : Bool) (b' : List Nat)
    (h : ValidateAllChecksums.typeLoop acb a false n OK b = some (r, b')) : b' = b := by
  induction n generalizing OK b with
  | zero =>
    simp [ValidateAllChecksums.typeLoop] at h
    exact h.2.symm
  | succ n ih =>
    rw [ValidateAllChecksums.typeLoop] at h
    split at h
    · simp at h
    · rename_i res buf hv
      have e := validateChecksum_readonly acb b _ a res buf hv
      subst e
      exact ih _ _ h

theorem areaLoop_readonly (acb : Nat → Bool) (n : Nat) (OK : Bool) (b : List Nat)
    (r : Bool) (b' : List Nat)
    (h : ValidateAllChecksums.areaLoop acb false n OK b = some (r, b')) : b' = b := by
  induction n generalizing OK b with
  | zero =>
    simp [ValidateAllChecksums.areaLoop] at h
    exact h.2.symm
  | succ n ih =>
    rw [ValidateAllChecksums.areaLoop] at h
    split at h
    · simp at h
    · rename_i res buf hv
      have e := typeLoop_readonly acb _ 5 _ b res buf hv
      subst e
      exact ih _ _ h

theorem validateChecksum_total (acb : Nat → Bool) (b : List Nat) (t a : Int) (ow : Bool)
    (h : 0x320 ≤ b.length) :
    ∃ r b', validateChecksum acb b t a ow = some (r, b') ∧ b'.length = b.length := by
  by_cases ht : 0 ≤ t ∧ t ≤ 4
  · rw [validateChecksum_eq acb b t a ow ht.1 ht.2 (Nat.le_trans (span_le t a ht.1 ht.2) h)]
    refine ⟨_, _, rfl, ?_⟩
    cases ow
    · simp
    · simp only [if_true, length_write16, length_bumped]
  · exact ⟨false, b, validateChecksum_invalid acb t (by omega) b a ow, rfl⟩

theorem readonly_results (acb : Nat → Bool) (b : List Nat) (h : 0x320 ≤ b.length) :
    (∀ t a : Int, ∃ r, validateChecksum acb b t a false = some (r, b)) ∧
    ∃ r, ValidateAllChecksums acb b false = some (r, b) := by
  constructor
  · intro t a
    obtain ⟨r, b', e, -⟩ := validateChecksum_total acb b t a false h
    have := validateChecksum_readonly acb b t a r b' e
    subst this
    exact ⟨r, e⟩
  · obtain ⟨r1, b1, r2, b2, r3, b3, r4, b4, r5, b5, r6, b6, r7, b7, r8, b8, r9, b9, r10, b10,
      -, -, -, -, -, -, -, -, -, -, e⟩ := sweep_chain acb b false h
    have := areaLoop_readonly acb 2 true b _ b10 e
    subst this
    exact ⟨_, e⟩

theorem getElem?_sweepBuf (acb : Nat → Bool) (b : List Nat) (ps : List (Int × Int)) (i : Nat)
    (h : ∀ p ∈ ps, ¬ inFootprint p.1 p.2 i) : (sweepBuf acb b ps)[i]? = b[i]? := by
  induction ps generalizing b with
  | nil => rfl
  | cons p ps ih =>
    rw [sweepBuf, ih _ (fun q hq => h q (List.mem_cons_of_mem _ hq)),
      getElem?_stepBuf acb b p.1 p.2 i (h p (List.mem_cons_self _ _))]

theorem sweepOrder_footprint (i : Nat)
    (hi : ¬ (i = 0x1E ∨ i = 0x1F ∨ (0x89 ≤ i ∧ i ≤ 0x8F) ∨ i = 0x110 ∨ i = 0x111 ∨
      (0x249 ≤ i ∧ i ≤ 0x24F) ∨ i = 0x2D0 ∨ i = 0x2D1)) :
    ∀ p ∈ sweepOrder, ¬ inFootprint p.1 p.2 i := by
  intro p hp
  simp only [sweepOrder, List.mem_cons, List.mem_singleton, List.not_mem_nil, or_false] at hp
  rcases hp with rfl | rfl | rfl | rfl | rfl | rfl | rfl | rfl | rfl | rfl <;>
    simp [inFootprint, fieldLoc, areaBase, checksumOffsetOf, getChecksumParameters] <;>
    omega

theorem getD_stepBuf_sequence (acb : Nat → Bool) (b : List Nat) (a : Int)
    (h : areaBase 1 a + 0x09 < b.length) :
    (stepBuf acb b 1 a).getD (areaBase 1 a + 0x09) 0
      = (b.getD (areaBase 1 a + 0x09) 0 + 1) % 0x100 := by
  simp only [List.getD_eq_getElem?_getD]
  unfold stepBuf
  rw [getElem?_write16 _ _ _ _
    (by simp [fieldLoc, checksumOffsetOf, getChecksumParameters])
    (by simp [fieldLoc, checksumOffsetOf, getChecksumParameters])]
  simp only [bumped, bumpByte, and_self, if_true, List.getD_eq_getElem?_getD]
  rw [List.getElem?_set_self h]
  rfl

theorem sweep_sequence (acb : Nat → Bool) (b : List Nat) (h : 0x320 ≤ b.length)
    (pre post : List (Int × Int)) (a : Int)
    (hpre : ∀ p ∈ pre, ¬ inFootprint p.1 p.2 (areaBase 1 a + 0x09))
    (hpost : ∀ p ∈ post, ¬ inFootprint p.1 p.2 (areaBase 1 a + 0x09)) :
    (sweepBuf acb b (pre ++ (1, a) :: post)).getD (areaBase 1 a + 0x09) 0
      = (b.getD (areaBase 1 a + 0x09) 0 + 1) % 0x100 := by
  have hB : areaBase 1 a + 0x09 < 0x320 := by
    have := span_le 1 a (by decide) (by decide)
    simp [sliceSpan] at this
    omega
  rw [sweepBuf_append, sweepBuf]
  simp only [List.getD_eq_getElem?_getD]
  rw [getElem?_sweepBuf acb _ post _ hpost]
  have := getD_stepBuf_sequence acb (sweepBuf acb b pre) a (by rw [length_sweepBuf]; omega)
  simp only [List.getD_eq_getElem?_getD] at this
  rw [this, getElem?_sweepBuf acb b pre _ hpre]

theorem regeneration_sequence (acb : Nat → Bool) (b : List Nat) (h : 0x320 ≤ b.length) :
    (sweepBuf acb b sweepOrder).getD 0x89 0 = (b.getD 0x89 0 + 1) % 0x100 ∧
    (sweepBuf acb b sweepOrder).getD 0x249 0 = (b.getD 0x249 0 + 1) % 0x100 := by
  constructor
  · exact sweep_sequence acb b h [(4, 0), (3, 0), (2, 0)]
      [(0, 0), (4, 1), (3, 1), (2, 1), (1, 1), (0, 1)] 0
      (by simp [inFootprint, fieldLoc, areaBase, checksumOffsetOf, getChecksumParameters])
      (by simp [inFootprint, fieldLoc, areaBase, checksumOffsetOf, getChecksumParameters])
  · exact sweep_sequence acb b h [(4, 0), (3, 0), (2, 0), (1, 0), (0, 0), (4, 1), (3, 1), (2, 1)]
      [(0, 1)] 1
      (by simp [inFootprint, fieldLoc, areaBase, checksumOffsetOf, getChecksumParameters])
      (by simp [inFootprint, fieldLoc, areaBase, checksumOffsetOf, getChecksumParameters])

/-! ## The sequence byte and the type-1 field -/

theorem getElem?_write16_lo (b : List Nat) (loc c : Nat) (hl : loc + 1 < b.length) :
    (write16 b loc c)[loc]? = some (c % 256) := by
  unfold write16
  rw [List.getElem?_set_ne (by omega), List.getElem?_set_self (by omega), low_byte]

theorem getElem?_write16_hi (b : List Nat) (loc c : Nat) (hl : loc + 1 < b.length)
    (hc : c < 0x10000) : (write16 b loc c)[loc + 1]? = some (c / 256) := by
  unfold write16
  rw [List.getElem?_set_self (by simp; omega), high_byte c hc]

theorem fieldLoc_one (a : Int) : fieldLoc 1 a = areaBase 1 a + 0x0E := by
  simp [fieldLoc, checksumOffsetOf, getChecksumParameters]

theorem checksumInput_one (acb : Nat → Bool) (s : List Nat) :
    checksumInput acb 1 s = ((s.take 0x10).set 14 5).set 15 0 := by
  simp [checksumInput]

theorem field_value_write16 (b : List Nat) (loc c : Nat) (hl : loc + 1 < b.length)
    (hc : c < 0x10000) :
    (write16 b loc c).getD loc 0 + 256 * (write16 b loc c).getD (loc + 1) 0 = c := by
  simp only [List.getD_eq_getElem?_getD, getElem?_write16_lo b loc c hl,
    getElem?_write16_hi b loc c hl hc, Option.getD_some]
  omega

theorem field_value_stepBuf (acb : Nat → Bool) (b : List Nat) (t a : Int)
    (h0 : 0 ≤ t) (h4 : t ≤ 4) (h : areaBase t a + sliceSpan t ≤ b.length) :
    (stepBuf acb b t a).getD (fieldLoc t a) 0 + 256 * (stepBuf acb b t a).getD (fieldLoc t a + 1) 0
      = crcOf (checksumInput acb t ((stepBuf acb b t a).drop (areaBase t a))) := by
  have hloc := fieldLoc_lt t a h0 h4
  have hv := valid_stepBuf acb b t a h0 h4 h
  rw [valid_iff acb _ t a h0 h4 (by rw [length_stepBuf]; exact h)] at hv
  rw [← hv]
  have hl : fieldLoc t a + 1 < (bumped b t a true).length := by rw [length_bumped]; omega
  have e := field_value_write16 (bumped b t a true) (fieldLoc t a)
    (crcOf (checksumInput acb t ((bumped b t a true).drop (areaBase t a)))) hl (crcOf_lt _)
  have e' := stored16_write16 (bumped b t a true) (fieldLoc t a)
    (crcOf (checksumInput acb t ((bumped b t a true).drop (areaBase t a)))) (crcOf_lt _) hl
  exact e.trans e'.symm

theorem type_one_overwrite (acb : Nat → Bool) (b : List Nat) (a : Int)
    (h : areaBase 1 a + 0x10 ≤ b.length) :
    ∃ r b', validateChecksum acb b 1 a true = some (r, b') ∧
      b'.getD (areaBase 1 a + 0x09) 0 = (b.getD (areaBase 1 a + 0x09) 0 + 1) % 0x100 ∧
      ∃ c, ComputeCcittCrc16 ((((b'.drop (areaBase 1 a)).take 0x10).set 14 0x05).set 15 0x00) 0x10
          = some c ∧
        b'.getD (areaBase 1 a + 0x0E) 0 + 256 * b'.getD (areaBase 1 a + 0x0F) 0 = c := by
  have hs : areaBase 1 a + sliceSpan 1 ≤ b.length := by simpa [sliceSpan] using h
  refine ⟨_, _, validateChecksum_true acb b 1 a (by decide) (by decide) hs,
    getD_stepBuf_sequence acb b a (by omega),
    crcOf ((((stepBuf acb b 1 a).drop (areaBase 1 a)).take 0x10).set 14 0x05 |>.set 15 0x00),
    ?_, ?_⟩
  · exact ComputeCcittCrc16_of_length _ _ (by simp [length_stepBuf]; omega)
  · have := field_value_stepBuf acb b 1 a (by decide) (by decide) hs
    rw [fieldLoc_one, checksumInput_one] at this
    exact this

theorem sequence_untouched (t a a' : Int) (h0 : 0 ≤ t) (h4 : t ≤ 4) (h1 : t ≠ 1) :
    ¬ inFootprint t a (areaBase 1 a' + 0x09) := by
  rcases type_cases t h0 h4 with rfl | rfl | rfl | rfl | rfl <;>
    by_cases ha : a = 0 <;> by_cases ha' : a' = 0 <;>
    simp [inFootprint, fieldLoc, areaBase, checksumOffsetOf, getChecksumParameters, ha, ha'] at h1 ⊢

theorem sequence_kept (acb : Nat → Bool) (b : List Nat) (t a a' : Int) (ow : Bool)
    (h : 0x320 ≤ b.length) (hc : t ≠ 1 ∨ ow = false) :
    ∃ r b', validateChecksum acb b t a ow = some (r, b') ∧
      b'.getD (areaBase 1 a' + 0x09) 0 = b.getD (areaBase 1 a' + 0x09) 0 := by
  cases ow with
  | false =>
    obtain ⟨r, e⟩ := (readonly_results acb b h).1 t a
    exact ⟨r, b, e, rfl⟩
  | true =>
    have h1 : t ≠ 1 := by simpa using hc
    by_cases ht : 0 ≤ t ∧ t ≤ 4
    · refine ⟨_, _, validateChecksum_true_long acb b t a ht.1 ht.2 h, ?_⟩
      simp only [List.getD_eq_getElem?_getD]
      rw [getElem?_stepBuf acb b t a _ (sequence_untouched t a a' ht.1 ht.2 h1)]
    · exact ⟨false, b, validateChecksum_invalid acb t (by omega) b a true, rfl⟩

/-! ## A changed header changes the type-1 checksum -/

theorem bytes_set (l : List Nat) (i v : Nat) (hl : ∀ x ∈ l, x < 0x100) (hv : v < 0x100) :
    ∀ x ∈ l.set i v, x < 0x100 := by
  intro x hx
  rcases List.mem_or_eq_of_mem_set hx with h | h
  · exact hl x h
  · rw [h]; exact hv

theorem bytes_write16 (b : List Nat) (loc c : Nat) (hb : ∀ x ∈ b, x < 0x100) :
    ∀ x ∈ write16 b loc c, x < 0x100 := by
  unfold write16
  apply bytes_set _ _ _ (bytes_set _ _ _ hb _)
  · rw [low_byte]; omega
  · rw [low_byte]; omega

theorem bytes_bumped (b : List Nat) (t a : Int) (ow : Bool) (hb : ∀ x ∈ b, x < 0x100) :
    ∀ x ∈ bumped b t a ow, x < 0x100 := by
  unfold bumped bumpByte
  split
  · exact bytes_set _ _ _ hb (Nat.mod_lt _ (by decide))
  · exact hb

theorem bytes_stepBuf (acb : Nat → Bool) (b : List Nat) (t a : Int)
    (hb : ∀ x ∈ b, x < 0x100) : ∀ x ∈ stepBuf acb b t a, x < 0x100 :=
  bytes_write16 _ _ _ (bytes_bumped b t a true hb)

theorem bytes_input_one (acb : Nat → Bool) (b : List Nat) (B : Nat)
    (hb : ∀ x ∈ b, x < 0x100) : ∀ x ∈ checksumInput acb 1 (b.drop B), x < 0x100 := by
  rw [checksumInput_one]
  apply bytes_set _ _ _ (bytes_set _ _ _ _ (by decide)) (by decide)
  intro x hx
  exact hb x (List.mem_of_mem_drop (List.mem_of_mem_take hx))

theorem getElem?_input_one (acb : Nat → Bool) (x : List Nat) (B j : Nat)
    (h : B + 0x10 ≤ x.length) :
    (checksumInput acb 1 (x.drop B))[j]?
      = if j = 15 then some 0 else if j = 14 then some 5
        else if j < 0x10 then x[B + j]? else none := by
  rw [checksumInput_one]
  have l1 : ((x.drop B).take 0x10).length = 0x10 := by simp; omega
  simp only [List.getElem?_set, List.length_set, l1, List.getElem?_take, List.getElem?_drop]
  by_cases h15 : j = 15
  · subst h15; simp
  · by_cases h14 : j = 14
    · subst h14; simp
    · have e1 : ¬ (15 = j) := fun e => h15 e.symm
      have e2 : ¬ (14 = j) := fun e => h14 e.symm
      simp [h15, h14, e1, e2]

theorem type_one_header_differs (acb : Nat → Bool) (x y : List Nat) (B i : Nat)
    (hx : B + 0x10 ≤ x.length) (hy : B + 0x10 ≤ y.length)
    (bx : ∀ v ∈ x, v < 0x100) (yb : ∀ v ∈ y, v < 0x100)
    (hag : ∀ j, j < 14 → j ≠ i → j ≠ i + 1 → y[B + j]? = x[B + j]?)
    (hdiff : ∃ j, j < 14 ∧ y[B + j]? ≠ x[B + j]?) :
    crcOf (checksumInput acb 1 (y.drop B)) ≠ crcOf (checksumInput acb 1 (x.drop B)) := by
  unfold crcOf
  apply burst_detected i _ _ 0xffff (by decide)
  · rw [checksumInput_one, checksumInput_one]; simp; omega
  · intro e
    obtain ⟨j, hj, hne⟩ := hdiff
    have := congrArg (fun l => l[j]?) e
    simp only [getElem?_input_one acb x B j hx, getElem?_input_one acb y B j hy] at this
    have h15 : ¬ j = 15 := by omega
    have h14 : ¬ j = 14 := by omega
    have h16 : j < 0x10 := by omega
    simp only [h15, h14, h16, if_false, if_true] at this
    exact hne this
  · exact bytes_input_one acb y B yb
  · exact bytes_input_one acb x B bx
  · intro j h1 h2
    rw [getElem?_input_one acb x B j hx, getElem?_input_one acb y B j hy]
    by_cases h15 : j = 15
    · simp [h15]
    · by_cases h14 : j = 14
      · simp [h14]
      · by_cases h16 : j < 0x10
        · simp only [h15, h14, h16, if_false, if_true]
          exact hag j (by omega) h1 h2
        · simp [h15, h14, h16]

theorem type_one_mismatch (acb : Nat → Bool) (x y : List Nat) (a : Int) (i : Nat)
    (hx : areaBase 1 a + 0x10 ≤ x.length) (hy : areaBase 1 a + 0x10 ≤ y.length)
    (bx : ∀ v ∈ x, v < 0x100) (yb : ∀ v ∈ y, v < 0x100)
    (hv : Valid acb 1 a x)
    (hf0 : y[areaBase 1 a + 0x0E]? = x[areaBase 1 a + 0x0E]?)
    (hf1 : y[areaBase 1 a + 0x0E + 1]? = x[areaBase 1 a + 0x0E + 1]?)
    (hag : ∀ j, j < 14 → j ≠ i → j ≠ i + 1 → y[areaBase 1 a + j]? = x[areaBase 1 a + j]?)
    (hdiff : ∃ j, j < 14 ∧ y[areaBase 1 a + j]? ≠ x[areaBase 1 a + j]?) :
    stored16 y (fieldLoc 1 a) ≠ crcOf (checksumInput acb 1 (y.drop (areaBase 1 a))) := by
  rw [valid_iff acb x 1 a (by decide) (by decide) (by simpa [sliceSpan] using hx)] at hv
  rw [fieldLoc_one] at hv ⊢
  rw [stored16_congr x y _ hf0 hf1, hv]
  exact fun e => type_one_header_differs acb x y _ i hx hy bx yb hag hdiff e.symm

theorem header_kept_stepBuf_one (acb : Nat → Bool) (b : List Nat) (a : Int) (j : Nat)
    (hj : j < 14) (h9 : j ≠ 9) :
    (stepBuf acb b 1 a)[areaBase 1 a + j]? = b[areaBase 1 a + j]? := by
  apply getElem?_stepBuf
  simp [inFootprint, fieldLoc, checksumOffsetOf, getChecksumParameters]
  omega

theorem getElem?_ne_of_getD_ne (x y : List Nat) (k : Nat) (h : y.getD k 0 ≠ x.getD k 0) :
    y[k]? ≠ x[k]? := by
  intro e
  apply h
  simp only [List.getD_eq_getElem?_getD, e]

theorem type_one_twice (acb : Nat → Bool) (b : List Nat) (a : Int)
    (h : areaBase 1 a + 0x10 ≤ b.length) (hb : ∀ x ∈ b, x < 0x100) :
    ∃ r1 b1 b2, validateChecksum acb b 1 a true = some (r1, b1) ∧
      validateChecksum acb b1 1 a true = some (false, b2) ∧
      b2.getD (areaBase 1 a + 0x09) 0 = (b.getD (areaBase 1 a + 0x09) 0 + 2) % 0x100 ∧
      b2.getD (areaBase 1 a + 0x09) 0 ≠ b1.getD (areaBase 1 a + 0x09) 0 ∧
      b2.getD (areaBase 1 a + 0x0E) 0 + 256 * b2.getD (areaBase 1 a + 0x0F) 0
        ≠ b1.getD (areaBase 1 a + 0x0E) 0 + 256 * b1.getD (areaBase 1 a + 0x0F) 0 := by
  have hs : areaBase 1 a + sliceSpan 1 ≤ b.length := by simpa [sliceSpan] using h
  have hl1 : areaBase 1 a + 0x10 ≤ (stepBuf acb b 1 a).length := by rw [length_stepBuf]; exact h
  have hs1 : areaBase 1 a + sliceSpan 1 ≤ (stepBuf acb b 1 a).length := by
    rw [length_stepBuf]; exact hs
  have hl2 : areaBase 1 a + 0x10 ≤ (stepBuf acb (stepBuf acb b 1 a) 1 a).length := by
    rw [length_stepBuf]; exact hl1
  have hb1 := bytes_stepBuf acb b 1 a hb
  have hb2 := bytes_stepBuf acb _ 1 a hb1
  have q1 := getD_stepBuf_sequence acb b a (by omega)
  have q2 := getD_stepBuf_sequence acb (stepBuf acb b 1 a) a (by omega)
  have hseq : (stepBuf acb (stepBuf acb b 1 a) 1 a).getD (areaBase 1 a + 0x09) 0
      ≠ (stepBuf acb b 1 a).getD (areaBase 1 a + 0x09) 0 := by
    rw [q2, q1]; omega
  have hcrc : crcOf (checksumInput acb 1
        ((stepBuf acb (stepBuf acb b 1 a) 1 a).drop (areaBase 1 a)))
      ≠ crcOf (checksumInput acb 1 ((stepBuf acb b 1 a).drop (areaBase 1 a))) :=
    type_one_header_differs acb _ _ _ 9 hl1 hl2 hb1 hb2
      (fun j hj h9 _ => header_kept_stepBuf_one acb _ a j hj h9)
      ⟨9, by decide, getElem?_ne_of_getD_ne _ _ _ hseq⟩
  refine ⟨_, _, _, validateChecksum_true acb b 1 a (by decide) (by decide) hs, ?_, ?_, hseq, ?_⟩
  · rw [validateChecksum_true acb _ 1 a (by decide) (by decide) hs1]
    have hm := type_one_mismatch acb (stepBuf acb b 1 a) (bumped (stepBuf acb b 1 a) 1 a true)
      a 9 hl1 (by rw [length_bumped]; exact hl1) hb1 (bytes_bumped _ 1 a true hb1)
      (valid_stepBuf acb b 1 a (by decide) (by decide) hs)
      (by simp only [bumped, and_self, if_true]; exact getElem?_bumpByte _ _ _ (by omega))
      (by simp only [bumped, and_self, if_true]; exact getElem?_bumpByte _ _ _ (by omega))
      (by
        intro j hj h9 _
        simp only [bumped, and_self, if_true]
        exact getElem?_bumpByte _ _ _ (by omega))
      ⟨9, by decide, by
        apply getElem?_ne_of_getD_ne
        simp only [bumped, bumpByte, and_self, if_true, List.getD_eq_getElem?_getD]
        rw [List.getElem?_set_self (by omega)]
        simp only [Option.getD_some]
        have := q1
        simp only [List.getD_eq_getElem?_getD] at this
        rw [this]
        omega⟩
    simp [hm]
  · rw [q2, q1]; omega
  · have f1 := field_value_stepBuf acb b 1 a (by decide) (by decide) hs
    have f2 := field_value_stepBuf acb (stepBuf acb b 1 a) 1 a (by decide) (by decide) hs1
    rw [fieldLoc_one] at f1 f2
    rw [f1, f2]
    exact hcrc

/-! ## Regeneration out of order -/

theorem bumped_ne_one (b : List Nat) (t a : Int) (ow : Bool) (h1 : t ≠ 1) :
    bumped b t a ow = b := by
  simp [bumped, h1]

theorem set_getD_self (l : List Nat) (i : Nat) (hi : i < l.length) : l.set i (l.getD i 0) = l := by
  apply List.ext_getElem?
  intro j
  rw [List.getElem?_set]
  by_cases h : i = j
  · subst h
    simp [hi, List.getD_eq_getElem?_getD, List.getElem?_eq_getElem hi]
  · simp [h]

theorem stepBuf_of_valid (acb : Nat → Bool) (x : List Nat) (t a : Int)
    (h0 : 0 ≤ t) (h4 : t ≤ 4) (h1 : t ≠ 1) (h : areaBase t a + sliceSpan t ≤ x.length)
    (hx : ∀ v ∈ x, v < 0x100) (hv : Valid acb t a x) : stepBuf acb x t a = x := by
  have hloc := fieldLoc_lt t a h0 h4
  rw [valid_iff acb x t a h0 h4 h] at hv
  unfold stepBuf
  rw [bumped_ne_one x t a true h1, ← hv]
  unfold stored16
  rw [le16_value _ _ (getD_lt x hx _) (getD_lt x hx _)]
  unfold write16
  have e0 : (x.getD (fieldLoc t a) 0 + 256 * x.getD (fieldLoc t a + 1) 0) &&& 0xff
      = x.getD (fieldLoc t a) 0 := by
    rw [low_byte]
    have := getD_lt x hx (fieldLoc t a)
    omega
  have e1 : ((x.getD (fieldLoc t a) 0 + 256 * x.getD (fieldLoc t a + 1) 0) >>> 8) &&& 0xff
      = x.getD (fieldLoc t a + 1) 0 := by
    have := getD_lt x hx (fieldLoc t a)
    have := getD_lt x hx (fieldLoc t a + 1)
    rw [high_byte _ (by omega)]
    omega
  rw [e0, e1, set_getD_self x _ (by omega), set_getD_self x _ (by omega)]

theorem stale_step_changes (acb : Nat → Bool) (x : List Nat) (t a : Int)
    (h0 : 0 ≤ t) (h4 : t ≤ 4) (h : areaBase t a + sliceSpan t ≤ x.length)
    (hv : ¬ Valid acb t a x) :
    (stepBuf acb x t a)[fieldLoc t a]? ≠ x[fieldLoc t a]? ∨
      (stepBuf acb x t a)[fieldLoc t a + 1]? ≠ x[fieldLoc t a + 1]? ∨
      (t = 1 ∧ (stepBuf acb x t a)[areaBase t a + 0x09]? ≠ x[areaBase t a + 0x09]?) := by
  by_contra hc
  push_neg at hc
  apply hv
  have e : stepBuf acb x t a = x := by
    apply List.ext_getElem?
    intro k
    by_cases hk : inFootprint t a k
    · rcases hk with rfl | rfl | ⟨h1, rfl⟩
      · exact hc.1
      · exact hc.2.1
      · exact hc.2.2 h1
    · exact getElem?_stepBuf acb x t a k hk
  have := valid_stepBuf acb x t a h0 h4 h
  rw [e] at this
  exact this

theorem not_valid_of_stale (acb : Nat → Bool) (b : List Nat) (t a : Int)
    (h : validateChecksum acb b t a false = some (false, b)) : ¬ Valid acb t a b := by
  intro hv
  unfold Valid at hv
  rw [h] at hv
  simp at hv

theorem areaBase_eq (t a : Int) (h : t ≠ 0) : areaBase t a = areaBase 1 a := by
  simp [areaBase, h]

theorem span_area (t a : Int) (n : Nat) (h0 : 1 ≤ t) (h4 : t ≤ 4)
    (h : areaBase 1 a + 0xE0 ≤ n) : areaBase t a + sliceSpan t ≤ n := by
  have : t = 1 ∨ t = 2 ∨ t = 3 ∨ t = 4 := by omega
  rcases this with rfl | rfl | rfl | rfl <;>
    by_cases ha : a = 0 <;> simp [areaBase, sliceSpan, ha] at h ⊢ <;> omega

theorem header_free_four (a : Int) (j : Nat) (hj : j < 0x10) :
    ¬ inFootprint 4 a (areaBase 1 a + j) := by
  by_cases ha : a = 0 <;>
    simp [inFootprint, fieldLoc, areaBase, checksumOffsetOf, getChecksumParameters, ha] <;> omega

theorem header_free_two (a : Int) (j : Nat) (h1 : j ≠ 12) (h2 : j ≠ 13) :
    ¬ inFootprint 2 a (areaBase 1 a + j) := by
  by_cases ha : a = 0 <;>
    simp [inFootprint, fieldLoc, areaBase, checksumOffsetOf, getChecksumParameters, ha] <;> omega

theorem header_free_three (a : Int) (j : Nat) (h1 : j ≠ 10) (h2 : j ≠ 11) :
    ¬ inFootprint 3 a (areaBase 1 a + j) := by
  by_cases ha : a = 0 <;>
    simp [inFootprint, fieldLoc, areaBase, checksumOffsetOf, getChecksumParameters, ha] <;> omega

theorem fieldLoc_two (a : Int) : fieldLoc 2 a = areaBase 1 a + 12 := by
  by_cases ha : a = 0 <;>
    simp [fieldLoc, areaBase, checksumOffsetOf, getChecksumParameters, ha]

theorem fieldLoc_three (a : Int) : fieldLoc 3 a = areaBase 1 a + 10 := by
  by_cases ha : a = 0 <;>
    simp [fieldLoc, areaBase, checksumOffsetOf, getChecksumParameters, ha]

theorem valid_step_iff (acb : Nat → Bool) (b : List Nat) (t a t' a' : Int)
    (h0 : 0 ≤ t) (h4 : t ≤ 4) (h0' : 0 ≤ t') (h4' : t' ≤ 4)
    (h : areaBase t a + sliceSpan t ≤ b.length) (hc : clash t a t' a' = false) :
    Valid acb t a (stepBuf acb b t' a') ↔ Valid acb t a b := by
  constructor
  · intro hv
    exact valid_frame acb _ b t a h0 h4 (by rw [length_stepBuf]; exact h)
      (length_stepBuf acb b t' a').symm
      (fun i hi => (getElem?_stepBuf acb b t' a' i
        (separated t a t' a' h0 h4 h0' h4' hc i hi)).symm) hv
  · exact valid_step acb b t a t' a' h0 h4 h (separated t a t' a' h0 h4 h0' h4' hc)

theorem clash_area (a : Int) :
    clash 2 a 1 a = false ∧ clash 3 a 1 a = false ∧ clash 3 a 2 a = false ∧
      clash 2 a 3 a = false := by
  by_cases ha : a = 0 <;> simp [clash, areaBase, ha]

theorem stale_after_two (acb : Nat → Bool) (b : List Nat) (a : Int)
    (hlen : areaBase 1 a + 0xE0 ≤ b.length) (hb : ∀ x ∈ b, x < 0x100)
    (h2 : ¬ Valid acb 2 a b) (h3 : Valid acb 3 a b) :
    ¬ Valid acb 1 a
      (stepBuf acb (stepBuf acb (stepBuf acb (stepBuf acb b 1 a) 2 a) 3 a) 4 a) := by
  have cl := clash_area a
  have L1 : areaBase 1 a + 0xE0 ≤ (stepBuf acb b 1 a).length := by
    rw [length_stepBuf]; exact hlen
  have L2 : areaBase 1 a + 0xE0 ≤ (stepBuf acb (stepBuf acb b 1 a) 2 a).length := by
    rw [length_stepBuf]; exact L1
  have B1 := bytes_stepBuf acb b 1 a hb
  have B2 := bytes_stepBuf acb _ 2 a B1
  have v1 := valid_stepBuf acb b 1 a (by decide) (by decide)
    (span_area 1 a _ (by decide) (by decide) hlen)
  have n2 : ¬ Valid acb 2 a (stepBuf acb b 1 a) := fun hv =>
    h2 ((valid_step_iff acb b 2 a 1 a (by decide) (by decide) (by decide) (by decide)
      (span_area 2 a _ (by decide) (by decide) hlen) cl.1).mp hv)
  have v3 : Valid acb 3 a (stepBuf acb (stepBuf acb b 1 a) 2 a) :=
    (valid_step_iff acb _ 3 a 2 a (by decide) (by decide) (by decide) (by decide)
      (span_area 3 a _ (by decide) (by decide) L1) cl.2.2.1).mpr
    ((valid_step_iff acb b 3 a 1 a (by decide) (by decide) (by decide) (by decide)
      (span_area 3 a _ (by decide) (by decide) hlen) cl.2.1).mpr h3)
  rw [stepBuf_of_valid acb _ 3 a (by decide) (by decide) (by decide)
    (span_area 3 a _ (by decide) (by decide) L2) B2 v3]
  have hch := stale_step_changes acb (stepBuf acb b 1 a) 2 a (by decide) (by decide)
    (span_area 2 a _ (by decide) (by decide) L1) n2
  rw [fieldLoc_two] at hch
  have four : ∀ j, j < 0x10 →
      (stepBuf acb (stepBuf acb (stepBuf acb b 1 a) 2 a) 4 a)[areaBase 1 a + j]?
        = (stepBuf acb (stepBuf acb b 1 a) 2 a)[areaBase 1 a + j]? :=
    fun j hj => getElem?_stepBuf acb _ 4 a _ (header_free_four a j hj)
  intro hv
  rw [valid_iff acb _ 1 a (by decide) (by decide)
    (by rw [length_stepBuf]; exact span_area 1 a _ (by decide) (by decide) L2)] at hv
  refine type_one_mismatch acb (stepBuf acb b 1 a) _ a 12
    (by omega) (by rw [length_stepBuf]; omega) B1 (bytes_stepBuf acb _ 4 a B2) v1
    ?_ ?_ ?_ ?_ hv
  · rw [four 14 (by decide)]
    exact getElem?_stepBuf acb _ 2 a _ (header_free_two a 14 (by decide) (by decide))
  · rw [show areaBase 1 a + 0x0E + 1 = areaBase 1 a + 15 from rfl, four 15 (by decide)]
    exact getElem?_stepBuf acb _ 2 a _ (header_free_two a 15 (by decide) (by decide))
  · intro j hj h12 h13
    rw [four j (by omega)]
    exact getElem?_stepBuf acb _ 2 a _ (header_free_two a j h12 h13)
  · rcases hch with h | h | h
    · exact ⟨12, by decide, by rw [four 12 (by decide)]; exact h⟩
    · exact ⟨13, by decide, by rw [four 13 (by decide)]; exact h⟩
    · exact absurd h.1 (by decide)

theorem stale_after_three (acb : Nat → Bool) (b : List Nat) (a : Int)
    (hlen : areaBase 1 a + 0xE0 ≤ b.length) (hb : ∀ x ∈ b, x < 0x100)
    (h2 : Valid acb 2 a b) (h3 : ¬ Valid acb 3 a b) :
    ¬ Valid acb 1 a
      (stepBuf acb (stepBuf acb (stepBuf acb (stepBuf acb b 1 a) 2 a) 3 a) 4 a) := by
  have cl := clash_area a
  have L1 : areaBase 1 a + 0xE0 ≤ (stepBuf acb b 1 a).length := by
    rw [length_stepBuf]; exact hlen
  have B1 := bytes_stepBuf acb b 1 a hb
  have v1 := valid_stepBuf acb b 1 a (by decide) (by decide)
    (span_area 1 a _ (by decide) (by decide) hlen)
  have v2 : Valid acb 2 a (stepBuf acb b 1 a) :=
    (valid_step_iff acb b 2 a 1 a (by decide) (by decide) (by decide) (by decide)
      (span_area 2 a _ (by decide) (by decide) hlen) cl.1).mpr h2
  have n3 : ¬ Valid acb 3 a (stepBuf acb b 1 a) := fun hv =>
    h3 ((valid_step_iff acb b 3 a 1 a (by decide) (by decide) (by decide) (by decide)
      (span_area 3 a _ (by decide) (by decide) hlen) cl.2.1).mp hv)
  rw [stepBuf_of_valid acb _ 2 a (by decide) (by decide) (by decide)
    (span_area 2 a _ (by decide) (by decide) L1) B1 v2]
  have L3 : areaBase 1 a + 0xE0 ≤ (stepBuf acb (stepBuf acb b 1 a) 3 a).length := by
    rw [length_stepBuf]; exact L1
  have B3 := bytes_stepBuf acb _ 3 a B1
  have hch := stale_step_changes acb (stepBuf acb b 1 a) 3 a (by decide) (by decide)
    (span_area 3 a _ (by decide) (by decide) L1) n3
  rw [fieldLoc_three] at hch
  have four : ∀ j, j < 0x10 →
      (stepBuf acb (stepBuf acb (stepBuf acb b 1 a) 3 a) 4 a)[areaBase 1 a + j]?
        = (stepBuf acb (stepBuf acb b 1 a) 3 a)[areaBase 1 a + j]? :=
    fun j hj => getElem?_stepBuf acb _ 4 a _ (header_free_four a j hj)
  intro hv
  rw [valid_iff acb _ 1 a (by decide) (by decide)
    (by rw [length_stepBuf]; exact span_area 1 a _ (by decide) (by decide) L3)] at hv
  refine type_one_mismatch acb (stepBuf acb b 1 a) _ a 10
    (by omega) (by rw [length_stepBuf]; omega) B1 (bytes_stepBuf acb _ 4 a B3) v1
    ?_ ?_ ?_ ?_ hv
  · rw [four 14 (by decide)]
    exact getElem?_stepBuf acb _ 3 a _ (header_free_three a 14 (by decide) (by decide))
  · rw [show areaBase 1 a + 0x0E + 1 = areaBase 1 a + 15 from rfl, four 15 (by decide)]
    exact getElem?_stepBuf acb _ 3 a _ (header_free_three a 15 (by decide) (by decide))
  · intro j hj h10 h11
    rw [four j (by omega)]
    exact getElem?_stepBuf acb _ 3 a _ (header_free_three a j h10 h11)
  · rcases hch with h | h | h
    · exact ⟨10, by decide, by rw [four 10 (by decide)]; exact h⟩
    · exact ⟨11, by decide, by rw [four 11 (by decide)]; exact h⟩
    · exact absurd h.1 (by decide)

/-! ## Loops, predicates and bounds -/

theorem blockWhile_eq (acb : Nat → Bool) (startBlock cntBlock : Nat) (n fuel : Nat)
    (numPtr : List Nat) (block checksum : Nat)
    (hn : block + n = startBlock + cntBlock) (hf : n < fuel) :
    computeChecksum.blockWhile acb startBlock cntBlock fuel numPtr block checksum
      = some (computeChecksum.blockLoop acb n numPtr block checksum) := by
  induction n generalizing fuel numPtr block checksum with
  | zero =>
    obtain ⟨f, rfl⟩ : ∃ f, fuel = f + 1 := ⟨fuel - 1, by omega⟩
    rw [computeChecksum.blockWhile, computeChecksum.blockLoop, if_pos (by omega)]
  | succ n ih =>
    obtain ⟨f, rfl⟩ : ∃ f, fuel = f + 1 := ⟨fuel - 1, by omega⟩
    rw [computeChecksum.blockWhile, computeChecksum.blockLoop, if_neg (by omega)]
    by_cases hp : acb block = true
    · rw [if_pos hp, if_pos hp]
      exact ih f _ _ _ (by omega) (by omega)
    · rw [if_neg hp, if_neg hp]
      cases crcBytes numPtr 0x10 0 checksum with
      | none => rfl
      | some c => exact ih f _ _ _ (by omega) (by omega)

theorem padWhile_eq (acb : Nat → Bool) (n fuel block checksum : Nat)
    (hn : block + n = 0x1c) (hf : n < fuel) :
    computeChecksum.padWhile acb fuel block checksum
      = some (computeChecksum.padLoop acb n block checksum) := by
  induction n generalizing fuel block checksum with
  | zero =>
    obtain ⟨f, rfl⟩ : ∃ f, fuel = f + 1 := ⟨fuel - 1, by omega⟩
    rw [computeChecksum.padWhile, computeChecksum.padLoop, if_neg (by omega)]
  | succ n ih =>
    obtain ⟨f, rfl⟩ : ∃ f, fuel = f + 1 := ⟨fuel - 1, by omega⟩
    rw [computeChecksum.padWhile, computeChecksum.padLoop, if_pos (by omega)]
    by_cases hp : acb block = true
    · rw [if_pos hp, if_pos hp]
      exact ih f _ _ (by omega) (by omega)
    · rw [if_neg hp, if_neg hp]
      exact ih f _ _ (by omega) (by omega)

theorem blockLoop_congr (p p' : Nat → Bool) (n : Nat) (numPtr : List Nat) (block checksum : Nat)
    (h : ∀ k, block ≤ k → k < block + n → p k = p' k) :
    computeChecksum.blockLoop p n numPtr block checksum
      = computeChecksum.blockLoop p' n numPtr block checksum := by
  induction n generalizing numPtr block checksum with
  | zero => rfl
  | succ n ih =>
    rw [computeChecksum.blockLoop, computeChecksum.blockLoop, h block (by omega) (by omega)]
    by_cases hp : p' block = true
    · rw [if_pos hp, if_pos hp]
      exact ih _ _ _ (fun k h1 h2 => h k (by omega) (by omega))
    · rw [if_neg hp, if_neg hp]
      cases crcBytes numPtr 0x10 0 checksum with
      | none => rfl
      | some c => exact ih _ _ _ (fun k h1 h2 => h k (by omega) (by omega))

theorem computeChecksum_two_congr (p p' : Nat → Bool) (s : List Nat)
    (h : ∀ k, 1 ≤ k → k ≤ 4 → p k = p' k) :
    computeChecksum p 2 s = computeChecksum p' 2 s := by
  have e := blockLoop_congr p p' 4 (s.drop (1 * 0x10)) 1 0xffff
    (fun k h1 h2 => h k h1 (by omega))
  simp only [computeChecksum, computeChecksum.walk]
  simp
  simp at e
  rw [e]

theorem validateChecksum_two_congr (p p' : Nat → Bool) (b : List Nat) (a : Int) (ow : Bool)
    (h : ∀ k, 1 ≤ k → k ≤ 4 → p k = p' k) :
    validateChecksum p b 2 a ow = validateChecksum p' b 2 a ow := by
  unfold validateChecksum
  simp only [computeChecksum_two_congr p p' _ h]

theorem length_blockAt (s : List Nat) (k : Nat) (h : 0x10 * k + 0x10 ≤ s.length) :
    (blockAt s k).length = 0x10 := by
  simp [blockAt]; omega

theorem computeChecksum_three_trailer (slice : List Nat) (h : 0x90 ≤ slice.length) :
    computeChecksum (fun k => decide (k % 4 = 3)) 3 slice
      = some (some (crcOf (blockAt slice 5 ++ blockAt slice 6 ++ blockAt slice 8
          ++ List.replicate (0x0E * 0x10) 0))) := by
  rw [computeChecksum_three _ slice h]
  have e1 : keptBlocks (fun k => decide (k % 4 = 3)) slice [5, 6, 7, 8]
      = blockAt slice 5 ++ blockAt slice 6 ++ blockAt slice 8 := by
    simp [keptBlocks]
  have e2 : zeroBlocks (fun k => decide (k % 4 = 3)) (List.range' 9 19)
      = List.replicate (0x0E * 0x10) 0 := by
    decide
  rw [e1, e2]

theorem computeChecksum_four_running (acb : Nat → Bool) (slice : List Nat)
    (h : 0xE0 ≤ slice.length) :
    computeChecksum acb 4 slice
      = some (some ((keptBlocks acb slice [10, 11, 12, 13]).foldl UpdateCcittCrc16
          (crcOf ((((slice.drop 0x90).take 0x10).set 0 6).set 1 1)))) := by
  rw [computeChecksum_four acb slice h]
  simp [crcOf, List.foldl_append]

theorem computeChecksum_total (acb : Nat → Bool) (b : List Nat) (t a : Int)
    (h : 0x320 ≤ b.length) :
    ∃ r, computeChecksum acb t (b.drop (areaBase t a)) = some r := by
  by_cases ht : 0 ≤ t ∧ t ≤ 4
  · exact ⟨_, computeChecksum_eq acb t _ ht.1 ht.2 (by
      have := span_le t a ht.1 ht.2
      rw [List.length_drop]; omega)⟩
  · exact ⟨none, computeChecksum_invalid acb t (by omega) _⟩

theorem stale_of_not_valid (acb : Nat → Bool) (x : List Nat) (t a : Int)
    (h0 : 0 ≤ t) (h4 : t ≤ 4) (h : areaBase t a + sliceSpan t ≤ x.length)
    (hv : ¬ Valid acb t a x) : validateChecksum acb x t a false = some (false, x) := by
  rw [valid_iff acb x t a h0 h4 h] at hv
  rw [validateChecksum_false acb x t a h0 h4 h]
  simp [hv]

theorem zeros_bytes (n : Nat) : ∀ x ∈ List.replicate n 0, x < 0x100 := by
  intro x hx
  rw [List.mem_replicate] at hx
  omega

theorem bothStaleRecord_bytes : ∀ x ∈ bothStaleRecord, x < 0x100 := by
  intro x hx
  simp only [bothStaleRecord, List.mem_append, List.mem_replicate, List.mem_cons,
    List.mem_singleton, List.not_mem_nil, or_false] at hx
  omega

theorem typeThreeValidRecord_bytes : ∀ x ∈ typeThreeValidRecord, x < 0x100 := by
  intro x hx
  simp only [typeThreeValidRecord, List.mem_append, List.mem_replicate, List.mem_cons,
    List.mem_singleton, List.not_mem_nil, or_false] at hx
  omega

theorem stale_iff_not_valid (acb : Nat → Bool) (b : List Nat) (t a : Int)
    (h0 : 0 ≤ t) (h4 : t ≤ 4) (h : areaBase t a + sliceSpan t ≤ b.length) :
    (validateChecksum acb b t a false).map Prod.fst = some false ↔ ¬ Valid acb t a b := by
  rw [valid_iff acb b t a h0 h4 h, validateChecksum_false acb b t a h0 h4 h]
  simp

theorem passes_iff_valid (acb : Nat → Bool) (b : List Nat) (t a : Int)
    (h0 : 0 ≤ t) (h4 : t ≤ 4) (h : areaBase t a + sliceSpan t ≤ b.length) :
    (validateChecksum acb b t a false).map Prod.fst = some true ↔ Valid acb t a b := by
  rw [valid_iff acb b t a h0 h4 h, validateChecksum_false acb b t a h0 h4 h]
  simp

theorem type_one_first (acb : Nat → Bool) (b : List Nat) (a : Int)
    (hlen : areaBase 1 a + 0xE0 ≤ b.length) (hb : ∀ x ∈ b, x < 0x100)
    (hs : (¬ Valid acb 2 a b ∧ Valid acb 3 a b) ∨ (Valid acb 2 a b ∧ ¬ Valid acb 3 a b)) :
    ∃ r1 b1 r2 b2 r3 b3 r4 b4,
      validateChecksum acb b 1 a true = some (r1, b1) ∧
      validateChecksum acb b1 2 a true = some (r2, b2) ∧
      validateChecksum acb b2 3 a true = some (r3, b3) ∧
      validateChecksum acb b3 4 a true = some (r4, b4) ∧
      validateChecksum acb b4 1 a false = some (false, b4) := by
  have L1 : areaBase 1 a + 0xE0 ≤ (stepBuf acb b 1 a).length := by
    rw [length_stepBuf]; exact hlen
  have L2 : areaBase 1 a + 0xE0 ≤ (stepBuf acb (stepBuf acb b 1 a) 2 a).length := by
    rw [length_stepBuf]; exact L1
  have L3 : areaBase 1 a + 0xE0
      ≤ (stepBuf acb (stepBuf acb (stepBuf acb b 1 a) 2 a) 3 a).length := by
    rw [length_stepBuf]; exact L2
  have L4 : areaBase 1 a + 0xE0
      ≤ (stepBuf acb (stepBuf acb (stepBuf acb (stepBuf acb b 1 a) 2 a) 3 a) 4 a).length := by
    rw [length_stepBuf]; exact L3
  refine ⟨_, _, _, _, _, _, _, _,
    validateChecksum_true acb b 1 a (by decide) (by decide)
      (span_area 1 a _ (by decide) (by decide) hlen),
    validateChecksum_true acb _ 2 a (by decide) (by decide)
      (span_area 2 a _ (by decide) (by decide) L1),
    validateChecksum_true acb _ 3 a (by decide) (by decide)
      (span_area 3 a _ (by decide) (by decide) L2),
    validateChecksum_true acb _ 4 a (by decide) (by decide)
      (span_area 4 a _ (by decide) (by decide) L3),
    stale_of_not_valid acb _ 1 a (by decide) (by decide)
      (span_area 1 a _ (by decide) (by decide) L4) ?_⟩
  rcases hs with ⟨h2, h3⟩ | ⟨h2, h3⟩
  · exact stale_after_two acb b a hlen hb h2 h3
  · exact stale_after_three acb b a hlen hb h2 h3

theorem validateChecksum_length (acb : Nat → Bool) (b : List Nat) (t a : Int) (ow : Bool)
    (r : Bool) (b' : List Nat) (h : validateChecksum acb b t a ow = some (r, b')) :
    b'.length = b.length := by
  unfold validateChecksum at h
  split at h
  · simp at h; rw [← h.2]
  · simp only at h
    split at h
    · simp at h
    · rename_i buf hbuf
      have hl : buf.length = b.length := by
        split at hbuf
        · cases hq : b[(if t ≠ 0 then (if a = 0 then 0x08 else 0x24) * 0x10 else 0) + 0x09]? with
          | none => rw [hq] at hbuf; simp at hbuf
          | some v =>
            rw [hq] at hbuf
            simp at hbuf
            rw [← hbuf]; simp
        · simp at hbuf; rw [hbuf]
      split at h
      · simp at h
      · simp at h; rw [← h.2]; exact hl
      · split at h
        · split at h
          · simp at h; rw [← h.2]; simpa using hl
          · simp at h; rw [← h.2]; exact hl
        · simp at h

/-! ## The sweep with the failure lines it writes to stderr -/

theorem typeLoopReport_erase (acb : Nat → Bool) (a : Int) (ow : Bool) :
    ∀ (n : Nat) (OK : Bool) (b : List Nat) (err : List (Int × Int)),
      (ValidateAllChecksums.typeLoopReport acb a ow n OK b err).map (fun x => (x.1, x.2.1))
        = ValidateAllChecksums.typeLoop acb a ow n OK b
  | 0, OK, b, err => rfl
  | n + 1, OK, b, err => by
    rw [ValidateAllChecksums.typeLoopReport, ValidateAllChecksums.typeLoop]
    cases h : validateChecksum acb b (n : Int) a ow with
    | none => rfl
    | some p => exact typeLoopReport_erase acb a ow n _ _ _

theorem areaLoopReport_erase (acb : Nat → Bool) (ow : Bool) :
    ∀ (n : Nat) (OK : Bool) (b : List Nat) (err : List (Int × Int)),
      (ValidateAllChecksums.areaLoopReport acb ow n OK b err).map (fun x => (x.1, x.2.1))
        = ValidateAllChecksums.areaLoop acb ow n OK b
  | 0, OK, b, err => rfl
  | n + 1, OK, b, err => by
    rw [ValidateAllChecksums.areaLoopReport, ValidateAllChecksums.areaLoop,
      ← typeLoopReport_erase acb _ ow 5 OK b err]
    cases h : ValidateAllChecksums.typeLoopReport acb ((2 : Int) - ((n + 1 : Nat) : Int))
        ow 5 OK b err with
    | none => rfl
    | some p => exact areaLoopReport_erase acb ow n _ _ _

theorem report_erase (acb : Nat → Bool) (b : List Nat) (ow : Bool) :
    (ValidateAllChecksums.report acb b ow).map (fun x => (x.1, x.2.1))
      = ValidateAllChecksums acb b ow :=
  areaLoopReport_erase acb ow 2 true b []

theorem failureReports_cons (ow : Bool) (p : Int × Int) (r : Bool)
    (l : List ((Int × Int) × Bool)) :
    failureReports ow ((p, r) :: l)
      = (if (!r && !ow) = true then [p] else []) ++ failureReports ow l := by
  unfold failureReports
  cases r <;> cases ow <;> simp [List.filter_cons]

theorem failureReports_nil (ow : Bool) : failureReports ow [] = [] := rfl

theorem typeLoopReport_steps (acb : Nat → Bool) (a : Int) (ow : Bool) (OK : Bool)
    (err : List (Int × Int))
    (b b1 b2 b3 b4 b5 : List Nat) (r1 r2 r3 r4 r5 : Bool)
    (h1 : validateChecksum acb b 4 a ow = some (r1, b1))
    (h2 : validateChecksum acb b1 3 a ow = some (r2, b2))
    (h3 : validateChecksum acb b2 2 a ow = some (r3, b3))
    (h4 : validateChecksum acb b3 1 a ow = some (r4, b4))
    (h5 : validateChecksum acb b4 0 a ow = some (r5, b5)) :
    ValidateAllChecksums.typeLoopReport acb a ow 5 OK b err
      = some (((((OK && r1) && r2) && r3) && r4) && r5, b5,
          err ++ failureReports ow [((4, a), r1), ((3, a), r2), ((2, a), r3), ((1, a), r4),
            ((0, a), r5)]) := by
  simp only [failureReports_cons]
  simp [ValidateAllChecksums.typeLoopReport, h1, h2, h3, h4, h5, failureReports]
  cases r1 <;> cases r2 <;> cases r3 <;> cases r4 <;> cases r5 <;> cases ow <;> simp

theorem report_steps (acb : Nat → Bool) (ow : Bool)
    (b b1 b2 b3 b4 b5 b6 b7 b8 b9 b10 : List Nat) (r1 r2 r3 r4 r5 r6 r7 r8 r9 r10 : Bool)
    (h1 : validateChecksum acb b 4 0 ow = some (r1, b1))
    (h2 : validateChecksum acb b1 3 0 ow = some (r2, b2))
    (h3 : validateChecksum acb b2 2 0 ow = some (r3, b3))
    (h4 : validateChecksum acb b3 1 0 ow = some (r4, b4))
    (h5 : validateChecksum acb b4 0 0 ow = some (r5, b5))
    (h6 : validateChecksum acb b5 4 1 ow = some (r6, b6))
    (h7 : validateChecksum acb b6 3 1 ow = some (r7, b7))
    (h8 : validateChecksum acb b7 2 1 ow = some (r8, b8))
    (h9 : validateChecksum acb b8 1 1 ow = some (r9, b9))
    (h10 : validateChecksum acb b9 0 1 ow = some (r10, b10)) :
    ValidateAllChecksums.report acb b ow
      = some (r1 && r2 && r3 && r4 && r5 && r6 && r7 && r8 && r9 && r10, b10,
          failureReports ow [((4, 0), r1), ((3, 0), r2), ((2, 0), r3), ((1, 0), r4),
            ((0, 0), r5), ((4, 1), r6), ((3, 1), r7), ((2, 1), r8), ((1, 1), r9),
            ((0, 1), r10)]) := by
  have e0 : (2 : Int) - ((1 + 1 : Nat) : Int) = 0 := by norm_num
  have e1 : (2 : Int) - ((0 + 1 : Nat) : Int) = 1 := by norm_num
  unfold ValidateAllChecksums.report
  rw [ValidateAllChecksums.areaLoopReport, e0,
    typeLoopReport_steps acb 0 ow true [] b b1 b2 b3 b4 b5 r1 r2 r3 r4 r5 h1 h2 h3 h4 h5]
  simp only
  rw [ValidateAllChecksums.areaLoopReport, e1,
    typeLoopReport_steps acb 1 ow _ _ b5 b6 b7 b8 b9 b10 r6 r7 r8 r9 r10 h6 h7 h8 h9 h10]
  simp only [ValidateAllChecksums.areaLoopReport, failureReports_cons, failureReports_nil,
    List.nil_append, List.append_assoc, Bool.and_assoc, Bool.true_and]

/-! ## The type-1 check after a regeneration in the wrong order -/

theorem shift8_xor (d e : Nat) : (d <<< 8) ^^^ (e <<< 8) = (d ^^^ e) <<< 8 := by
  apply Nat.eq_of_testBit_eq
  intro i
  simp only [Nat.testBit_xor, Nat.testBit_shiftLeft]
  cases decide (i ≥ 8) <;> simp

theorem Update_xor (c c' d d' : Nat) (hc : c < 0x10000) (hc' : c' < 0x10000)
    (hd : d < 0x100) (hd' : d' < 0x100) :
    UpdateCcittCrc16 c d ^^^ UpdateCcittCrc16 c' d'
      = UpdateCcittCrc16 (c ^^^ c') (d ^^^ d') := by
  rw [UpdateCcittCrc16_eq_ccittByteStep c d hc hd,
    UpdateCcittCrc16_eq_ccittByteStep c' d' hc' hd',
    UpdateCcittCrc16_eq_ccittByteStep _ _ (Nat.xor_lt_two_pow (n := 16) hc hc')
      (Nat.xor_lt_two_pow (n := 8) hd hd')]
  unfold ccittByteStep
  rw [← iterate_bitStep_xor, ← shift8_xor]
  congr 1
  rw [Nat.xor_assoc, Nat.xor_assoc, ← Nat.xor_assoc (d <<< 8), Nat.xor_comm (d <<< 8) c',
    Nat.xor_assoc]

theorem foldl_Update_xor (m m' : List Nat) (c c' : Nat) (hc : c < 0x10000) (hc' : c' < 0x10000)
    (hl : m.length = m'.length) (hb : ∀ x ∈ m, x < 0x100) (hb' : ∀ x ∈ m', x < 0x100) :
    m.foldl UpdateCcittCrc16 c ^^^ m'.foldl UpdateCcittCrc16 c'
      = (List.zipWith (fun x y => x ^^^ y) m m').foldl UpdateCcittCrc16 (c ^^^ c') := by
  induction m generalizing m' c c' with
  | nil =>
    cases m' with
    | nil => rfl
    | cons _ _ => simp at hl
  | cons d m ih =>
    cases m' with
    | nil => simp at hl
    | cons d' m' =>
      simp only [List.foldl_cons, List.zipWith_cons_cons]
      rw [ih m' _ _ (UpdateCcittCrc16_lt _ _) (UpdateCcittCrc16_lt _ _) (by simpa using hl)
        (fun x hx => hb x (List.mem_cons_of_mem _ hx))
        (fun x hx => hb' x (List.mem_cons_of_mem _ hx)),
        Update_xor c c' d d' hc hc' (hb d (List.mem_cons_self _ _))
          (hb' d' (List.mem_cons_self _ _))]

theorem foldl_Update_eq_iff (m m' : List Nat) (c : Nat) (hc : c < 0x10000)
    (hl : m.length = m'.length) (hb : ∀ x ∈ m, x < 0x100) (hb' : ∀ x ∈ m', x < 0x100) :
    m.foldl UpdateCcittCrc16 c = m'.foldl UpdateCcittCrc16 c ↔
      (List.zipWith (fun x y => x ^^^ y) m m').foldl UpdateCcittCrc16 0 = 0 := by
  have e := foldl_Update_xor m m' c c hc hc hl hb hb'
  rw [Nat.xor_self] at e
  rw [← e]
  exact Nat.xor_eq_zero.symm

theorem getElem?_eq_some_getD (x : List Nat) (k : Nat) (h : k < x.length) :
    x[k]? = some (x.getD k 0) := by
  rw [List.getD_eq_getElem?_getD, List.getElem?_eq_getElem h]
  rfl

theorem header_split (acb : Nat → Bool) (x : List Nat) (B : Nat) (h : B + 0x10 ≤ x.length) :
    checksumInput acb 1 (x.drop B)
      = (x.drop B).take 10
        ++ ([x.getD (B + 10) 0, x.getD (B + 11) 0, x.getD (B + 12) 0, x.getD (B + 13) 0]
          ++ [5, 0]) := by
  apply List.ext_getElem?
  intro j
  rw [getElem?_input_one acb x B j h]
  have l1 : ((x.drop B).take 10).length = 10 := by simp; omega
  by_cases h10 : j < 10
  · rw [List.getElem?_append_left (by omega), List.getElem?_take, if_pos h10, List.getElem?_drop]
    simp only [show ¬ j = 15 by omega, show ¬ j = 14 by omega, show j < 0x10 by omega,
      if_false, if_true]
  · rw [List.getElem?_append_right (by omega), l1]
    by_cases h16 : j < 16
    · have : j = 10 ∨ j = 11 ∨ j = 12 ∨ j = 13 ∨ j = 14 ∨ j = 15 := by omega
      rcases this with rfl | rfl | rfl | rfl | rfl | rfl
      · simpa using getElem?_eq_some_getD x (B + 10) (by omega)
      · simpa using getElem?_eq_some_getD x (B + 11) (by omega)
      · simpa using getElem?_eq_some_getD x (B + 12) (by omega)
      · simpa using getElem?_eq_some_getD x (B + 13) (by omega)
      · simp
      · simp
    · simp only [show ¬ j = 15 by omega, show ¬ j = 14 by omega, show ¬ j < 0x10 by omega,
        if_false]
      symm
      apply List.getElem?_eq_none
      simp
      omega

theorem getD_congr (x y : List Nat) (k : Nat) (h : y[k]? = x[k]?) : y.getD k 0 = x.getD k 0 := by
  simp only [List.getD_eq_getElem?_getD, h]

theorem header_after_steps (acb : Nat → Bool) (x : List Nat) (a : Int) (j : Nat)
    (hj : j < 0x10) (h10 : j < 10 ∨ 14 ≤ j) :
    (stepBuf acb (stepBuf acb (stepBuf acb x 2 a) 3 a) 4 a)[areaBase 1 a + j]?
      = x[areaBase 1 a + j]? := by
  rw [getElem?_stepBuf acb _ 4 a _ (header_free_four a j hj),
    getElem?_stepBuf acb _ 3 a _ (header_free_three a j (by omega) (by omega)),
    getElem?_stepBuf acb _ 2 a _ (header_free_two a j (by omega) (by omega))]

theorem type_one_after_regeneration (acb : Nat → Bool) (b : List Nat) (a : Int)
    (hlen : areaBase 1 a + 0xE0 ≤ b.length) (hb : ∀ x ∈ b, x < 0x100) :
    Valid acb 1 a (stepBuf acb (stepBuf acb (stepBuf acb (stepBuf acb b 1 a) 2 a) 3 a) 4 a)
      ↔ (fieldChange a b
          (stepBuf acb (stepBuf acb (stepBuf acb (stepBuf acb b 1 a) 2 a) 3 a) 4 a)).foldl
            UpdateCcittCrc16 0 = 0 := by
  have L1 : areaBase 1 a + 0xE0 ≤ (stepBuf acb b 1 a).length := by
    rw [length_stepBuf]; exact hlen
  have L4 : areaBase 1 a + 0xE0
      ≤ (stepBuf acb (stepBuf acb (stepBuf acb (stepBuf acb b 1 a) 2 a) 3 a) 4 a).length := by
    simp only [length_stepBuf]; exact hlen
  have B1 := bytes_stepBuf acb b 1 a hb
  have B4 := bytes_stepBuf acb _ 4 a (bytes_stepBuf acb _ 3 a (bytes_stepBuf acb _ 2 a B1))
  have v1 := valid_stepBuf acb b 1 a (by decide) (by decide)
    (span_area 1 a _ (by decide) (by decide) hlen)
  rw [valid_iff acb _ 1 a (by decide) (by decide)
    (span_area 1 a _ (by decide) (by decide) L1)] at v1
  rw [valid_iff acb _ 1 a (by decide) (by decide)
    (span_area 1 a _ (by decide) (by decide) L4), fieldLoc_one,
    stored16_congr (stepBuf acb b 1 a) _ _
      (header_after_steps acb _ a 14 (by decide) (by omega))
      (header_after_steps acb _ a 15 (by decide) (by omega)),
    ← fieldLoc_one, v1,
    header_split acb _ _ (by omega : areaBase 1 a + 0x10 ≤ (stepBuf acb b 1 a).length),
    header_split acb _ _ (by omega : areaBase 1 a + 0x10 ≤ (stepBuf acb (stepBuf acb
      (stepBuf acb (stepBuf acb b 1 a) 2 a) 3 a) 4 a).length)]
  have pre : ((stepBuf acb (stepBuf acb (stepBuf acb (stepBuf acb b 1 a) 2 a) 3 a) 4 a).drop
        (areaBase 1 a)).take 10 = ((stepBuf acb b 1 a).drop (areaBase 1 a)).take 10 := by
    apply slice_congr
    intro i h1 h2
    obtain ⟨j, rfl⟩ : ∃ j, i = areaBase 1 a + j := ⟨i - areaBase 1 a, by omega⟩
    exact header_after_steps acb _ a j (by omega) (by omega)
  have mid : ∀ j, 10 ≤ j → j < 14 →
      (stepBuf acb b 1 a).getD (areaBase 1 a + j) 0 = b.getD (areaBase 1 a + j) 0 :=
    fun j h1 h2 => getD_congr _ _ _ (header_kept_stepBuf_one acb b a j h2 (by omega))
  rw [pre, mid 10 (by decide) (by decide), mid 11 (by decide) (by decide),
    mid 12 (by decide) (by decide), mid 13 (by decide) (by decide)]
  unfold crcOf
  simp only [List.foldl_append]
  have hc := foldl_Update_lt (((stepBuf acb b 1 a).drop (areaBase 1 a)).take 10) 0xffff
    (by decide)
  have key := foldl_Update_eq_iff
    [b.getD (areaBase 1 a + 10) 0, b.getD (areaBase 1 a + 11) 0, b.getD (areaBase 1 a + 12) 0,
      b.getD (areaBase 1 a + 13) 0]
    [(stepBuf acb (stepBuf acb (stepBuf acb (stepBuf acb b 1 a) 2 a) 3 a) 4 a).getD
        (areaBase 1 a + 10) 0,
      (stepBuf acb (stepBuf acb (stepBuf acb (stepBuf acb b 1 a) 2 a) 3 a) 4 a).getD
        (areaBase 1 a + 11) 0,
      (stepBuf acb (stepBuf acb (stepBuf acb (stepBuf acb b 1 a) 2 a) 3 a) 4 a).getD
        (areaBase 1 a + 12) 0,
      (stepBuf acb (stepBuf acb (stepBuf acb (stepBuf acb b 1 a) 2 a) 3 a) 4 a).getD
        (areaBase 1 a + 13) 0]
    _ hc rfl
    (by
      intro x hx
      simp only [List.mem_cons, List.mem_singleton, List.not_mem_nil, or_false] at hx
      rcases hx with rfl | rfl | rfl | rfl <;> exact getD_lt b hb _)
    (by
      intro x hx
      simp only [List.mem_cons, List.mem_singleton, List.not_mem_nil, or_false] at hx
      rcases hx with rfl | rfl | rfl | rfl <;> exact getD_lt _ B4 _)
  constructor
  · intro h
    exact key.mp (foldl_Update_inj [5, 0] _ _ (foldl_Update_lt _ _ hc)
      (foldl_Update_lt _ _ hc) h)
  · intro h
    rw [key.mpr h]

theorem xor_ne_zero_of_getElem?_ne (x y : List Nat) (k : Nat) (hx : k < x.length)
    (hy : k < y.length) (h : y[k]? ≠ x[k]?) : x.getD k 0 ^^^ y.getD k 0 ≠ 0 := by
  intro e
  apply h
  rw [getElem?_eq_some_getD x k hx, getElem?_eq_some_getD y k hy, Nat.xor_eq_zero.mp e]

theorem fieldChange_ne_zero (acb : Nat → Bool) (b : List Nat) (a : Int)
    (hlen : areaBase 1 a + 0xE0 ≤ b.length)
    (hs : ¬ Valid acb 2 a b ∨ ¬ Valid acb 3 a b) :
    fieldChange a b
      (stepBuf acb (stepBuf acb (stepBuf acb (stepBuf acb b 1 a) 2 a) 3 a) 4 a)
      ≠ [0, 0, 0, 0] := by
  have cl := clash_area a
  have L1 : areaBase 1 a + 0xE0 ≤ (stepBuf acb b 1 a).length := by
    rw [length_stepBuf]; exact hlen
  have L2 : areaBase 1 a + 0xE0 ≤ (stepBuf acb (stepBuf acb b 1 a) 2 a).length := by
    rw [length_stepBuf]; exact L1
  have L4 : areaBase 1 a + 0xE0
      ≤ (stepBuf acb (stepBuf acb (stepBuf acb (stepBuf acb b 1 a) 2 a) 3 a) 4 a).length := by
    simp only [length_stepBuf]; exact hlen
  have four : ∀ j, j < 0x10 →
      (stepBuf acb (stepBuf acb (stepBuf acb (stepBuf acb b 1 a) 2 a) 3 a) 4 a)[areaBase 1 a + j]?
        = (stepBuf acb (stepBuf acb (stepBuf acb b 1 a) 2 a) 3 a)[areaBase 1 a + j]? :=
    fun j hj => getElem?_stepBuf acb _ 4 a _ (header_free_four a j hj)
  have three : ∀ j, j ≠ 10 → j ≠ 11 →
      (stepBuf acb (stepBuf acb (stepBuf acb b 1 a) 2 a) 3 a)[areaBase 1 a + j]?
        = (stepBuf acb (stepBuf acb b 1 a) 2 a)[areaBase 1 a + j]? :=
    fun j h1 h2 => getElem?_stepBuf acb _ 3 a _ (header_free_three a j h1 h2)
  have two : ∀ j, j ≠ 12 → j ≠ 13 →
      (stepBuf acb (stepBuf acb b 1 a) 2 a)[areaBase 1 a + j]?
        = (stepBuf acb b 1 a)[areaBase 1 a + j]? :=
    fun j h1 h2 => getElem?_stepBuf acb _ 2 a _ (header_free_two a j h1 h2)
  have one : ∀ j, j < 14 → j ≠ 9 →
      (stepBuf acb b 1 a)[areaBase 1 a + j]? = b[areaBase 1 a + j]? :=
    fun j h1 h2 => header_kept_stepBuf_one acb b a j h1 h2
  intro e
  unfold fieldChange at e
  simp only [List.cons.injEq, and_true] at e
  obtain ⟨e10, e11, e12, e13⟩ := e
  rcases hs with h2 | h3
  · have n2 : ¬ Valid acb 2 a (stepBuf acb b 1 a) := fun hv =>
      h2 ((valid_step_iff acb b 2 a 1 a (by decide) (by decide) (by decide) (by decide)
        (span_area 2 a _ (by decide) (by decide) hlen) cl.1).mp hv)
    have hch := stale_step_changes acb (stepBuf acb b 1 a) 2 a (by decide) (by decide)
      (span_area 2 a _ (by decide) (by decide) L1) n2
    rw [fieldLoc_two] at hch
    rcases hch with h | h | h
    · refine xor_ne_zero_of_getElem?_ne b _ (areaBase 1 a + 12) (by omega) (by omega) ?_ e12
      rw [four 12 (by decide), three 12 (by decide) (by decide), ← one 12 (by decide) (by decide)]
      exact h
    · refine xor_ne_zero_of_getElem?_ne b _ (areaBase 1 a + 13) (by omega) (by omega) ?_ e13
      rw [four 13 (by decide), three 13 (by decide) (by decide), ← one 13 (by decide) (by decide)]
      exact h
    · exact absurd h.1 (by decide)
  · have n3 : ¬ Valid acb 3 a (stepBuf acb (stepBuf acb b 1 a) 2 a) := fun hv =>
      h3 ((valid_step_iff acb b 3 a 1 a (by decide) (by decide) (by decide) (by decide)
        (span_area 3 a _ (by decide) (by decide) hlen) cl.2.1).mp
        ((valid_step_iff acb _ 3 a 2 a (by decide) (by decide) (by decide) (by decide)
          (span_area 3 a _ (by decide) (by decide) L1) cl.2.2.1).mp hv))
    have hch := stale_step_changes acb (stepBuf acb (stepBuf acb b 1 a) 2 a) 3 a
      (by decide) (by decide) (span_area 3 a _ (by decide) (by decide) L2) n3
    rw [fieldLoc_three] at hch
    rcases hch with h | h | h
    · refine xor_ne_zero_of_getElem?_ne b _ (areaBase 1 a + 10) (by omega) (by omega) ?_ e10
      rw [four 10 (by decide), ← one 10 (by decide) (by decide),
        ← two 10 (by decide) (by decide)]
      exact h
    · refine xor_ne_zero_of_getElem?_ne b _ (areaBase 1 a + 11) (by omega) (by omega) ?_ e11
      rw [four 11 (by decide), ← one 11 (by decide) (by decide),
        ← two 11 (by decide) (by decide)]
      exact h
    · exact absurd h.1 (by decide)

theorem type_one_first_exact (acb : Nat → Bool) (b : List Nat) (a : Int)
    (hlen : areaBase 1 a + 0xE0 ≤ b.length) (hb : ∀ x ∈ b, x < 0x100) :
    ∃ r1 b1 r2 b2 r3 b3 r4 b4 r5,
      validateChecksum acb b 1 a true = some (r1, b1) ∧
      validateChecksum acb b1 2 a true = some (r2, b2) ∧
      validateChecksum acb b2 3 a true = some (r3, b3) ∧
      validateChecksum acb b3 4 a true = some (r4, b4) ∧
      validateChecksum acb b4 1 a false = some (r5, b4) ∧
      (r5 = false ↔ (fieldChange a b b4).foldl UpdateCcittCrc16 0 ≠ 0) ∧
      ((¬ Valid acb 2 a b ∨ ¬ Valid acb 3 a b) → fieldChange a b b4 ≠ [0, 0, 0, 0]) ∧
      ((¬ Valid acb 2 a b ∧ Valid acb 3 a b) ∨ (Valid acb 2 a b ∧ ¬ Valid acb 3 a b) →
        r5 = false) := by
  have L1 : areaBase 1 a + 0xE0 ≤ (stepBuf acb b 1 a).length := by
    rw [length_stepBuf]; exact hlen
  have L2 : areaBase 1 a + 0xE0 ≤ (stepBuf acb (stepBuf acb b 1 a) 2 a).length := by
    rw [length_stepBuf]; exact L1
  have L3 : areaBase 1 a + 0xE0
      ≤ (stepBuf acb (stepBuf acb (stepBuf acb b 1 a) 2 a) 3 a).length := by
    rw [length_stepBuf]; exact L2
  have L4 : areaBase 1 a + 0xE0
      ≤ (stepBuf acb (stepBuf acb (stepBuf acb (stepBuf acb b 1 a) 2 a) 3 a) 4 a).length := by
    rw [length_stepBuf]; exact L3
  have s4 := span_area 1 a _ (by decide) (by decide) L4
  have ex := type_one_after_regeneration acb b a hlen hb
  rw [valid_iff acb _ 1 a (by decide) (by decide) s4] at ex
  refine ⟨_, _, _, _, _, _, _, _, _,
    validateChecksum_true acb b 1 a (by decide) (by decide)
      (span_area 1 a _ (by decide) (by decide) hlen),
    validateChecksum_true acb _ 2 a (by decide) (by decide)
      (span_area 2 a _ (by decide) (by decide) L1),
    validateChecksum_true acb _ 3 a (by decide) (by decide)
      (span_area 3 a _ (by decide) (by decide) L2),
    validateChecksum_true acb _ 4 a (by decide) (by decide)
      (span_area 4 a _ (by decide) (by decide) L3),
    validateChecksum_false acb _ 1 a (by decide) (by decide) s4, ?_, ?_, ?_⟩
  · rw [decide_eq_false_iff_not, ex]
  · exact fieldChange_ne_zero acb b a hlen
  · intro hs
    rw [decide_eq_false_iff_not, ← valid_iff acb _ 1 a (by decide) (by decide) s4]
    rcases hs with ⟨h2, h3⟩ | ⟨h2, h3⟩
    · exact stale_after_two acb b a hlen hb h2 h3
    · exact stale_after_three acb b a hlen hb h2 h3

/-! ## The claims -/

/-- C3: `UpdateCcittCrc16` is the conventional MSB-first CCITT step on every
16-bit register and every byte, so `ComputeCcittCrc16` is CRC-16/CCITT-FALSE on
every byte sequence; the empty sequence gives `0xFFFF` and the ASCII bytes of
"123456789" give `0x29B1`. -/
theorem UpdateCcittCrc16_is_ccitt_false :
    (∀ crc b : Nat, crc < 0x10000 → b < 0x100 → UpdateCcittCrc16 crc b = ccittByteStep crc b) ∧
    (∀ bs : List Nat, (∀ x ∈ bs, x < 0x100) →
      ComputeCcittCrc16 bs bs.length = some (crc16CcittFalse bs)) ∧
    ComputeCcittCrc16 [] 0 = some 0xFFFF ∧
    ComputeCcittCrc16 [0x31, 0x32, 0x33, 0x34, 0x35, 0x36, 0x37, 0x38, 0x39] 9 = some 0x29B1 := by
  refine ⟨UpdateCcittCrc16_eq_ccittByteStep, ?_, rfl, by decide⟩
  intro bs hb
  rw [ComputeCcittCrc16_self]
  exact congrArg some (foldl_Update_eq_ccitt bs _ (by decide) hb)

/-- C3 at the register `0xFFFF` and the byte `0x31`, and on the bytes of "12". -/
theorem UpdateCcittCrc16_is_ccitt_false_witness :
    UpdateCcittCrc16 0xFFFF 0x31 = ccittByteStep 0xFFFF 0x31 ∧
    ComputeCcittCrc16 [0x31, 0x32] 2 = some (crc16CcittFalse [0x31, 0x32]) :=
  ⟨UpdateCcittCrc16_is_ccitt_false.1 0xFFFF 0x31 (by decide) (by decide),
   UpdateCcittCrc16_is_ccitt_false.2.1 [0x31, 0x32] (by decide)⟩

/-- C1: regeneration yields a valid record. For every record of at least 0x320
bytes and every access-control predicate, the buffer that `ValidateAllChecksums`
leaves in overwrite mode passes `ValidateAllChecksums` in read-only mode, and
each of the ten read-only checks passes on it. -/
theorem regeneration_yields_valid_record (acb : Nat → Bool) (b : List Nat)
    (h : 0x320 ≤ b.length) :
    ∃ r b', ValidateAllChecksums acb b true = some (r, b') ∧
      ValidateAllChecksums acb b' false = some (true, b') ∧
      ∀ p ∈ sweepOrder, validateChecksum acb b' p.1 p.2 false = some (true, b') := by
  obtain ⟨r, hr⟩ := ValidateAllChecksums_true acb b h
  exact ⟨r, _, hr, ValidateAllChecksums_false_of_valid acb _ (regenerated_valid acb b h),
    regenerated_valid acb b h⟩

/-- C1 on the all-zero record of 0x320 bytes with no access-control block. -/
theorem regeneration_yields_valid_record_witness :
    0x320 ≤ (List.replicate 0x320 (0 : Nat)).length ∧
    ∃ r b', ValidateAllChecksums (fun _ => false) (List.replicate 0x320 0) true = some (r, b') ∧
      ValidateAllChecksums (fun _ => false) b' false = some (true, b') ∧
      ∀ p ∈ sweepOrder, validateChecksum (fun _ => false) b' p.1 p.2 false = some (true, b') :=
  ⟨by decide,
   regeneration_yields_valid_record (fun _ => false) (List.replicate 0x320 0) (by decide)⟩

/-- C2: per-type self-consistency. For every type 0..4, every data area and every
record that holds the bytes the call reaches, an overwriting `validateChecksum`
followed by a read-only one on the buffer it left returns true. -/
theorem overwrite_then_readonly_matches (acb : Nat → Bool) (b : List Nat) (t a : Int)
    (h0 : 0 ≤ t) (h4 : t ≤ 4) (hlen : areaBase t a + sliceSpan t ≤ b.length) :
    ∃ r b', validateChecksum acb b t a true = some (r, b') ∧
      validateChecksum acb b' t a false = some (true, b') :=
  ⟨_, _, validateChecksum_true acb b t a h0 h4 hlen, valid_stepBuf acb b t a h0 h4 hlen⟩

/-- C2 for type 1 in data area 0 of the all-zero record. -/
theorem overwrite_then_readonly_matches_witness :
    (0 : Int) ≤ 1 ∧ (1 : Int) ≤ 4 ∧
    areaBase 1 0 + sliceSpan 1 ≤ (List.replicate 0x320 (0 : Nat)).length ∧
    ∃ r b', validateChecksum (fun _ => false) (List.replicate 0x320 0) 1 0 true = some (r, b') ∧
      validateChecksum (fun _ => false) b' 1 0 false = some (true, b') :=
  ⟨by decide, by decide, by decide,
   overwrite_then_readonly_matches (fun _ => false) (List.replicate 0x320 0) 1 0
     (by decide) (by decide) (by decide)⟩

/-- C4, as stated, fails for an overwriting type-1 call: on `validTypeOneRecord`
the stored value equals `computeChecksum(1, record from 0x80)`, yet the call
returns false and leaves `0x9E, 0x2D` in the field, not the bytes `0xFF, 0x95`
of that value, because the sequence byte is bumped before the computation. -/
theorem validateChecksum_overwrite_type_one_counterexample :
    computeChecksum (fun _ => false) 1 (validTypeOneRecord.drop 0x80)
      = some (some (validTypeOneRecord.getD 0x8E 0 + 256 * validTypeOneRecord.getD 0x8F 0)) ∧
    (validateChecksum (fun _ => false) validTypeOneRecord 1 0 true).map Prod.fst = some false ∧
    (validateChecksum (fun _ => false) validTypeOneRecord 1 0 true).map
        (fun r => (r.2.getD 0x8E 0, r.2.getD 0x8F 0)) = some (0x9E, 0x2D) := by
  decide

/-- C4, amended: for every type 0..4, data area, mode and record of bytes that
holds the bytes the call reaches, with `base = areaBase t a` and
`loc = fieldLoc t a`, the call returns true exactly when the value stored at
`loc` before any write equals `computeChecksum` of the record from `base` as it
stands after the sequence bump of an overwriting type-1 call; an overwriting
call leaves that computed value little-endian at `loc`, `loc + 1`. -/
theorem validateChecksum_locates_and_compares (acb : Nat → Bool) (b : List Nat) (t a : Int)
    (ow : Bool) (h0 : 0 ≤ t) (h4 : t ≤ 4) (hlen : areaBase t a + sliceSpan t ≤ b.length)
    (hb : ∀ x ∈ b, x < 0x100) :
    ∃ c, computeChecksum acb t ((bumped b t a ow).drop (areaBase t a)) = some (some c) ∧
      validateChecksum acb b t a ow
        = some (decide (b.getD (fieldLoc t a) 0 + 256 * b.getD (fieldLoc t a + 1) 0 = c),
            if ow = true then
              ((bumped b t a ow).set (fieldLoc t a) (c % 256)).set (fieldLoc t a + 1) (c / 256)
            else b) :=
  validateChecksum_stored_vs_computed acb b t a ow h0 h4 hlen hb

/-- C4, amended, for an overwriting type-1 call on `validTypeOneRecord`. -/
theorem validateChecksum_locates_and_compares_witness :
    (0 : Int) ≤ 1 ∧ (1 : Int) ≤ 4 ∧ areaBase 1 0 + sliceSpan 1 ≤ validTypeOneRecord.length ∧
    (∀ x ∈ validTypeOneRecord, x < 0x100) ∧
    ∃ c, computeChecksum (fun _ => false) 1
          ((bumped validTypeOneRecord 1 0 true).drop (areaBase 1 0)) = some (some c) ∧
      validateChecksum (fun _ => false) validTypeOneRecord 1 0 true
        = some (decide (validTypeOneRecord.getD (fieldLoc 1 0) 0
                  + 256 * validTypeOneRecord.getD (fieldLoc 1 0 + 1) 0 = c),
            if true = true then
              ((bumped validTypeOneRecord 1 0 true).set (fieldLoc 1 0) (c % 256)).set
                (fieldLoc 1 0 + 1) (c / 256)
            else validTypeOneRecord) :=
  ⟨by decide, by decide, by decide, validTypeOneRecord_bytes,
   validateChecksum_locates_and_compares (fun _ => false) validTypeOneRecord 1 0 true
     (by decide) (by decide) (by decide) validTypeOneRecord_bytes⟩

/-- C5: on a record of at least 0x320 bytes, in either mode,
`ValidateAllChecksums` performs the ten checks in the order area 0: types 4, 3,
2, 1, 0, then area 1: types 4, 3, 2, 1, 0, each on the buffer the previous one
left, whatever the earlier results were, and returns the conjunction of the ten
results with the buffer the last call left. The run with its stderr output
returns the same value and buffer, and the failure lines it writes are, in that
order, those of every one of the ten checks that returned false when overwrite
is off (so a mismatch does not keep a later check from being made and
reported), and none when overwrite is on. -/
theorem ValidateAllChecksums_runs_ten_checks (acb : Nat → Bool) (b : List Nat) (ow : Bool)
    (h : 0x320 ≤ b.length) :
    ∃ r1 b1 r2 b2 r3 b3 r4 b4 r5 b5 r6 b6 r7 b7 r8 b8 r9 b9 r10 b10,
      validateChecksum acb b 4 0 ow = some (r1, b1) ∧
      validateChecksum acb b1 3 0 ow = some (r2, b2) ∧
      validateChecksum acb b2 2 0 ow = some (r3, b3) ∧
      validateChecksum acb b3 1 0 ow = some (r4, b4) ∧
      validateChecksum acb b4 0 0 ow = some (r5, b5) ∧
      validateChecksum acb b5 4 1 ow = some (r6, b6) ∧
      validateChecksum acb b6 3 1 ow = some (r7, b7) ∧
      validateChecksum acb b7 2 1 ow = some (r8, b8) ∧
      validateChecksum acb b8 1 1 ow = some (r9, b9) ∧
      validateChecksum acb b9 0 1 ow = some (r10, b10) ∧
      ValidateAllChecksums acb b ow
        = some (r1 && r2 && r3 && r4 && r5 && r6 && r7 && r8 && r9 && r10, b10) ∧
      ValidateAllChecksums.report acb b ow
        = some (r1 && r2 && r3 && r4 && r5 && r6 && r7 && r8 && r9 && r10, b10,
            failureReports ow [((4, 0), r1), ((3, 0), r2), ((2, 0), r3), ((1, 0), r4),
              ((0, 0), r5), ((4, 1), r6), ((3, 1), r7), ((2, 1), r8), ((1, 1), r9),
              ((0, 1), r10)]) := by
  obtain ⟨r1, b1, r2, b2, r3, b3, r4, b4, r5, b5, r6, b6, r7, b7, r8, b8, r9, b9, r10, b10,
    e1, e2, e3, e4, e5, e6, e7, e8, e9, e10, e⟩ := sweep_chain acb b ow h
  exact ⟨r1, b1, r2, b2, r3, b3, r4, b4, r5, b5, r6, b6, r7, b7, r8, b8, r9, b9, r10, b10,
    e1, e2, e3, e4, e5, e6, e7, e8, e9, e10, e,
    report_steps acb ow b b1 b2 b3 b4 b5 b6 b7 b8 b9 b10
      r1 r2 r3 r4 r5 r6 r7 r8 r9 r10 e1 e2 e3 e4 e5 e6 e7 e8 e9 e10⟩

/-- C5 on the all-zero record with overwrite off: every one of the ten checks
fails there, and all ten failure lines are written, the first mismatch stopping
nothing. -/
theorem ValidateAllChecksums_runs_ten_checks_witness :
    0x320 ≤ (List.replicate 0x320 (0 : Nat)).length ∧
    ValidateAllChecksums.report (fun _ => true) (List.replicate 0x320 0) false
      = some (false, List.replicate 0x320 0,
          [(4, 0), (3, 0), (2, 0), (1, 0), (0, 0), (4, 1), (3, 1), (2, 1), (1, 1), (0, 1)]) ∧
    ∃ r1 b1 r2 b2 r3 b3 r4 b4 r5 b5 r6 b6 r7 b7 r8 b8 r9 b9 r10 b10,
      validateChecksum (fun _ => true) (List.replicate 0x320 0) 4 0 false = some (r1, b1) ∧
      validateChecksum (fun _ => true) b1 3 0 false = some (r2, b2) ∧
      validateChecksum (fun _ => true) b2 2 0 false = some (r3, b3) ∧
      validateChecksum (fun _ => true) b3 1 0 false = some (r4, b4) ∧
      validateChecksum (fun _ => true) b4 0 0 false = some (r5, b5) ∧
      validateChecksum (fun _ => true) b5 4 1 false = some (r6, b6) ∧
      validateChecksum (fun _ => true) b6 3 1 false = some (r7, b7) ∧
      validateChecksum (fun _ => true) b7 2 1 false = some (r8, b8) ∧
      validateChecksum (fun _ => true) b8 1 1 false = some (r9, b9) ∧
      validateChecksum (fun _ => true) b9 0 1 false = some (r10, b10) ∧
      ValidateAllChecksums (fun _ => true) (List.replicate 0x320 0) false
        = some (r1 && r2 && r3 && r4 && r5 && r6 && r7 && r8 && r9 && r10, b10) ∧
      ValidateAllChecksums.report (fun _ => true) (List.replicate 0x320 0) false
        = some (r1 && r2 && r3 && r4 && r5 && r6 && r7 && r8 && r9 && r10, b10,
            failureReports false [((4, 0), r1), ((3, 0), r2), ((2, 0), r3), ((1, 0), r4),
              ((0, 0), r5), ((4, 1), r6), ((3, 1), r7), ((2, 1), r8), ((1, 1), r9),
              ((0, 1), r10)]) :=
  ⟨by decide, by decide!,
   ValidateAllChecksums_runs_ten_checks (fun _ => true) (List.replicate 0x320 0) false
     (by decide)⟩

/-- C6, as stated, fails: on the all-zero slice of 0xE0 bytes with no
access-control block, `computeChecksum(4, slice)` is not the CRC of the header
block `slice[0..0x10]` with bytes 0 and 1 replaced by `0x06, 0x01`, and it changes
when byte `0xA0`, inside the four-block data range, changes. -/
theorem computeChecksum_type_four_counterexample :
    computeChecksum (fun _ => false) 4 (List.replicate 0xE0 0)
      ≠ (ComputeCcittCrc16
          ((((List.replicate 0xE0 0).take 0x10).set 0 0x06).set 1 0x01) 0x10).map some ∧
    computeChecksum (fun _ => false) 4 ((List.replicate 0xE0 0).set 0xA0 1)
      ≠ computeChecksum (fun _ => false) 4 (List.replicate 0xE0 0) := by
  decide

/-- C6, amended: for every slice of at least 0xE0 bytes and every predicate,
`computeChecksum(4, slice)` is the CRC of the sixteen bytes `slice[0x90..0xA0]`
with bytes 0 and 1 replaced by `0x06, 0x01`, followed by the blocks 10..13 that
the predicate does not exclude; the bytes of `slice` before offset `0x92`, the
header block `slice[0..0x10]` among them, do not influence the value. -/
theorem computeChecksum_type_four (acb : Nat → Bool) (slice : List Nat)
    (h : 0xE0 ≤ slice.length) :
    computeChecksum acb 4 slice
      = (ComputeCcittCrc16
          (((((slice.drop 0x90).take 0x10).set 0 0x06).set 1 0x01)
            ++ keptBlocks acb slice [10, 11, 12, 13])
          (((((slice.drop 0x90).take 0x10).set 0 0x06).set 1 0x01)
            ++ keptBlocks acb slice [10, 11, 12, 13]).length).map some ∧
    ∀ slice' : List Nat, 0xE0 ≤ slice'.length →
      (∀ i, 0x92 ≤ i → i < 0xE0 → slice'[i]? = slice[i]?) →
      computeChecksum acb 4 slice' = computeChecksum acb 4 slice := by
  refine ⟨?_, fun s' h' he => computeChecksum_four_congr acb slice s' h h' he⟩
  rw [crc_map_some]
  exact computeChecksum_four acb slice h

/-- C6, amended, on the all-zero slice of 0xE0 bytes. -/
theorem computeChecksum_type_four_witness :
    0xE0 ≤ (List.replicate 0xE0 (0 : Nat)).length ∧
    computeChecksum (fun _ => false) 4 (List.replicate 0xE0 0)
      = (ComputeCcittCrc16
          ((((((List.replicate 0xE0 0).drop 0x90).take 0x10).set 0 0x06).set 1 0x01)
            ++ keptBlocks (fun _ => false) (List.replicate 0xE0 0) [10, 11, 12, 13])
          ((((((List.replicate 0xE0 0).drop 0x90).take 0x10).set 0 0x06).set 1 0x01)
            ++ keptBlocks (fun _ => false) (List.replicate 0xE0 0)
              [10, 11, 12, 13]).length).map some :=
  ⟨by decide,
   (computeChecksum_type_four (fun _ => false) (List.replicate 0xE0 0) (by decide)).1⟩

/-- C7: types 2 and 3 are the CRC of the blocks the predicate does not exclude.
On a slice that holds blocks 1..4, `computeChecksum(2, slice)` is the CRC of the
kept blocks among 1..4 in increasing order; on a slice that holds blocks 5..8,
`computeChecksum(3, slice)` is the CRC of the kept blocks among 5..8 followed by
sixteen zero bytes for every `k` with `9 ≤ k < 0x1C` that is not excluded. -/
theorem computeChecksum_types_two_three (p : Nat → Bool) (slice : List Nat) :
    (0x50 ≤ slice.length →
      computeChecksum p 2 slice
        = (ComputeCcittCrc16 (keptBlocks p slice [1, 2, 3, 4])
            (keptBlocks p slice [1, 2, 3, 4]).length).map some) ∧
    (0x90 ≤ slice.length →
      computeChecksum p 3 slice
        = (ComputeCcittCrc16
            (keptBlocks p slice [5, 6, 7, 8] ++ zeroBlocks p (List.range' 9 (0x1C - 9)))
            (keptBlocks p slice [5, 6, 7, 8]
              ++ zeroBlocks p (List.range' 9 (0x1C - 9))).length).map some) := by
  constructor
  · intro h
    rw [crc_map_some]
    exact computeChecksum_two p slice h
  · intro h
    rw [crc_map_some]
    exact computeChecksum_three p slice h

/-- C7 on the all-zero slice of 0x90 bytes under the rule `k % 4 = 3`. -/
theorem computeChecksum_types_two_three_witness :
    computeChecksum (fun k => k % 4 == 3) 2 (List.replicate 0x90 0)
        = (ComputeCcittCrc16
            (keptBlocks (fun k => k % 4 == 3) (List.replicate 0x90 0) [1, 2, 3, 4])
            (keptBlocks (fun k => k % 4 == 3) (List.replicate 0x90 0)
              [1, 2, 3, 4]).length).map some ∧
    computeChecksum (fun k => k % 4 == 3) 3 (List.replicate 0x90 0)
        = (ComputeCcittCrc16
            (keptBlocks (fun k => k % 4 == 3) (List.replicate 0x90 0) [5, 6, 7, 8]
              ++ zeroBlocks (fun k => k % 4 == 3) (List.range' 9 (0x1C - 9)))
            (keptBlocks (fun k => k % 4 == 3) (List.replicate 0x90 0) [5, 6, 7, 8]
              ++ zeroBlocks (fun k => k % 4 == 3) (List.range' 9 (0x1C - 9))).length).map some :=
  ⟨(computeChecksum_types_two_three (fun k => k % 4 == 3) (List.replicate 0x90 0)).1
     (by decide),
   (computeChecksum_types_two_three (fun k => k % 4 == 3) (List.replicate 0x90 0)).2
     (by decide)⟩

/-- C8: header-type checksums. `computeChecksum(0, slice)` is the CRC of
`slice[0..0x1E]`; `computeChecksum(1, slice)` is the CRC of `slice[0..0x10]` with
byte 14 replaced by `0x05` and byte 15 by `0x00`, so it is the same for any two
slices that agree on bytes 0..13 and for any two predicates. -/
theorem computeChecksum_header_types (acb : Nat → Bool) (slice : List Nat) :
    (0x1E ≤ slice.length →
      computeChecksum acb 0 slice = (ComputeCcittCrc16 (slice.take 0x1E) 0x1E).map some) ∧
    (0x10 ≤ slice.length →
      computeChecksum acb 1 slice
        = (ComputeCcittCrc16 (((slice.take 0x10).set 14 0x05).set 15 0x00) 0x10).map some) ∧
    (0x10 ≤ slice.length → ∀ (acb' : Nat → Bool) (slice' : List Nat), 0x10 ≤ slice'.length →
      (∀ i, i < 14 → slice'[i]? = slice[i]?) →
      computeChecksum acb' 1 slice' = computeChecksum acb 1 slice) := by
  refine ⟨?_, ?_, ?_⟩
  · intro h
    rw [ComputeCcittCrc16_of_length _ _ (by simp; omega)]
    exact computeChecksum_zero acb slice h
  · intro h
    rw [ComputeCcittCrc16_of_length _ _ (by simp; omega)]
    exact computeChecksum_one acb slice h
  · intro h acb' s' h' he
    exact computeChecksum_one_congr acb acb' slice s' h h' he

/-- C8 on the all-zero slice of 0x1E bytes, against a slice that differs in
bytes 14, 15 and beyond. -/
theorem computeChecksum_header_types_witness :
    computeChecksum (fun _ => false) 0 (List.replicate 0x1E 0)
      = (ComputeCcittCrc16 ((List.replicate 0x1E 0).take 0x1E) 0x1E).map some ∧
    computeChecksum (fun _ => false) 1 (List.replicate 0x1E 0)
      = (ComputeCcittCrc16
          ((((List.replicate 0x1E 0).take 0x10).set 14 0x05).set 15 0x00) 0x10).map some ∧
    computeChecksum (fun _ => true) 1 (List.replicate 14 0 ++ List.replicate 6 7)
      = computeChecksum (fun _ => false) 1 (List.replicate 0x1E 0) :=
  ⟨(computeChecksum_header_types (fun _ => false) (List.replicate 0x1E 0)).1 (by decide),
   (computeChecksum_header_types (fun _ => false) (List.replicate 0x1E 0)).2.1 (by decide),
   (computeChecksum_header_types (fun _ => false) (List.replicate 0x1E 0)).2.2 (by decide)
     (fun _ => true) (List.replicate 14 0 ++ List.replicate 6 7) (by decide) (by decide)⟩

/-- C9: the parameter table. `getChecksumParameters` succeeds exactly for the
types 0..4, with the listed (checksumOffset, dataOffset, dataLength), and fails
for every other integer. -/
theorem getChecksumParameters_table :
    getChecksumParameters 0 = some (0x1E, 0, 0x1E) ∧
    getChecksumParameters 1 = some (0x0E, 0, 0x10) ∧
    getChecksumParameters 2 = some (0x0C, 0x10, 0x40) ∧
    getChecksumParameters 3 = some (0x0A, 0x50, 0x40) ∧
    getChecksumParameters 4 = some (0x00, 0x90, 0x40) ∧
    (∀ t : Int, (getChecksumParameters t).isSome = true ↔ (0 ≤ t ∧ t ≤ 4)) ∧
    (∀ t : Int, t < 0 ∨ 4 < t → getChecksumParameters t = none) :=
  ⟨rfl, rfl, rfl, rfl, rfl, getChecksumParameters_isSome, getChecksumParameters_invalid⟩

/-- C9 at the types 5 and -1. -/
theorem getChecksumParameters_table_witness :
    getChecksumParameters 5 = none ∧ getChecksumParameters (-1) = none :=
  ⟨getChecksumParameters_table.2.2.2.2.2.2 5 (by decide),
   getChecksumParameters_table.2.2.2.2.2.2 (-1) (by decide)⟩

/-- C10: invalid types fail without side effects. For every integer type
outside 0..4, `computeChecksum` returns false, and `validateChecksum` returns
false and leaves the record as it was, in both modes and for every data area. -/
theorem invalid_type_fails (acb : Nat → Bool) (t : Int) (ht : t < 0 ∨ 4 < t) :
    (∀ slice : List Nat, computeChecksum acb t slice = some none) ∧
    (∀ (b : List Nat) (a : Int) (ow : Bool), validateChecksum acb b t a ow = some (false, b)) :=
  ⟨computeChecksum_invalid acb t ht, validateChecksum_invalid acb t ht⟩

/-- C10 at the type 5. -/
theorem invalid_type_fails_witness :
    ((5 : Int) < 0 ∨ (4 : Int) < 5) ∧
    (∀ slice : List Nat, computeChecksum (fun _ => false) 5 slice = some none) ∧
    (∀ (b : List Nat) (a : Int) (ow : Bool),
      validateChecksum (fun _ => false) b 5 a ow = some (false, b)) :=
  ⟨by decide, invalid_type_fails (fun _ => false) 5 (by decide)⟩

/-- C11: read-only validation never mutates. Whatever the record, type, data
area and predicate, a result of `validateChecksum` with overwrite off carries
the record unchanged, and so does a result of `ValidateAllChecksums` with
overwrite off; on a record of at least 0x320 bytes both calls do give a result. -/
theorem readonly_never_mutates (acb : Nat → Bool) (b : List Nat) :
    (∀ (t a : Int) (r : Bool) (b' : List Nat),
      validateChecksum acb b t a false = some (r, b') → b' = b) ∧
    (∀ (r : Bool) (b' : List Nat), ValidateAllChecksums acb b false = some (r, b') → b' = b) ∧
    (0x320 ≤ b.length →
      (∀ t a : Int, ∃ r, validateChecksum acb b t a false = some (r, b)) ∧
      ∃ r, ValidateAllChecksums acb b false = some (r, b)) :=
  ⟨fun t a r b' h => validateChecksum_readonly acb b t a r b' h,
   fun r b' h => areaLoop_readonly acb 2 true b r b' h,
   fun h => readonly_results acb b h⟩

/-- C11 on the all-zero record of 0x320 bytes. -/
theorem readonly_never_mutates_witness :
    (List.replicate 0x320 0 = List.replicate 0x320 (0 : Nat)) ∧
    (List.replicate 0x320 0 = List.replicate 0x320 (0 : Nat)) ∧
    0x320 ≤ (List.replicate 0x320 (0 : Nat)).length ∧
    (∀ t a : Int, ∃ r,
      validateChecksum (fun _ => false) (List.replicate 0x320 0) t a false
        = some (r, List.replicate 0x320 0)) ∧
    ∃ r, ValidateAllChecksums (fun _ => false) (List.replicate 0x320 0) false
      = some (r, List.replicate 0x320 0) :=
  ⟨(readonly_never_mutates (fun _ => false) (List.replicate 0x320 0)).1 1 0 false
     (List.replicate 0x320 0) (by decide),
   (readonly_never_mutates (fun _ => false) (List.replicate 0x320 0)).2.1 false
     (List.replicate 0x320 0) (by decide),
   by decide,
   (readonly_never_mutates (fun _ => false) (List.replicate 0x320 0)).2.2 (by decide)⟩

/-- C12: footprint of a regeneration pass. On a record of at least 0x320 bytes
`ValidateAllChecksums` with overwrite on keeps the length and changes no byte
other than offsets 0x1E-0x1F, 0x89-0x8F, 0x110-0x111, 0x249-0x24F and
0x2D0-0x2D1, and each sequence byte, at 0x89 and at 0x249, ends as its old value
plus one modulo 256. -/
theorem regeneration_footprint (acb : Nat → Bool) (b : List Nat) (h : 0x320 ≤ b.length) :
    ∃ r b', ValidateAllChecksums acb b true = some (r, b') ∧ b'.length = b.length ∧
      (∀ i, ¬ (i = 0x1E ∨ i = 0x1F ∨ (0x89 ≤ i ∧ i ≤ 0x8F) ∨ i = 0x110 ∨ i = 0x111 ∨
          (0x249 ≤ i ∧ i ≤ 0x24F) ∨ i = 0x2D0 ∨ i = 0x2D1) → b'[i]? = b[i]?) ∧
      b'.getD 0x89 0 = (b.getD 0x89 0 + 1) % 0x100 ∧
      b'.getD 0x249 0 = (b.getD 0x249 0 + 1) % 0x100 := by
  obtain ⟨r, hr⟩ := ValidateAllChecksums_true acb b h
  exact ⟨r, _, hr, length_sweepBuf acb b sweepOrder,
    fun i hi => getElem?_sweepBuf acb b sweepOrder i (sweepOrder_footprint i hi),
    (regeneration_sequence acb b h).1, (regeneration_sequence acb b h).2⟩

/-- C12 on the record of 0x320 bytes that are all `0xFF`. -/
theorem regeneration_footprint_witness :
    0x320 ≤ (List.replicate 0x320 (0xFF : Nat)).length ∧
    ∃ r b', ValidateAllChecksums (fun _ => false) (List.replicate 0x320 0xFF) true
        = some (r, b') ∧ b'.length = (List.replicate 0x320 (0xFF : Nat)).length ∧
      (∀ i, ¬ (i = 0x1E ∨ i = 0x1F ∨ (0x89 ≤ i ∧ i ≤ 0x8F) ∨ i = 0x110 ∨ i = 0x111 ∨
          (0x249 ≤ i ∧ i ≤ 0x24F) ∨ i = 0x2D0 ∨ i = 0x2D1) →
        b'[i]? = (List.replicate 0x320 (0xFF : Nat))[i]?) ∧
      b'.getD 0x89 0 = ((List.replicate 0x320 (0xFF : Nat)).getD 0x89 0 + 1) % 0x100 ∧
      b'.getD 0x249 0 = ((List.replicate 0x320 (0xFF : Nat)).getD 0x249 0 + 1) % 0x100 :=
  ⟨by decide, regeneration_footprint (fun _ => false) (List.replicate 0x320 0xFF) (by decide)⟩

/-- C13: a type-1 overwrite bumps the sequence number before hashing. With
`B = areaBase 1 a` the base of the data area, after
`validateChecksum(record, 1, a, true)` the byte at `B + 0x09` is its old value
plus one modulo 256 and the little-endian value at `B + 0x0E` is the CRC of the
resulting sixteen-byte header with bytes 14, 15 forced to `0x05, 0x00`; a call
for any other type, or with overwrite off, leaves the sequence byte of either
data area as it was. -/
theorem type_one_overwrite_bumps_sequence (acb : Nat → Bool) (b : List Nat) (a : Int) :
    (areaBase 1 a + 0x10 ≤ b.length →
      ∃ r b', validateChecksum acb b 1 a true = some (r, b') ∧
        b'.getD (areaBase 1 a + 0x09) 0 = (b.getD (areaBase 1 a + 0x09) 0 + 1) % 0x100 ∧
        ∃ c, ComputeCcittCrc16
              ((((b'.drop (areaBase 1 a)).take 0x10).set 14 0x05).set 15 0x00) 0x10 = some c ∧
          b'.getD (areaBase 1 a + 0x0E) 0 + 256 * b'.getD (areaBase 1 a + 0x0F) 0 = c) ∧
    (0x320 ≤ b.length → ∀ (t a' : Int) (ow : Bool), t ≠ 1 ∨ ow = false →
      ∃ r b', validateChecksum acb b t a ow = some (r, b') ∧
        b'.getD (areaBase 1 a' + 0x09) 0 = b.getD (areaBase 1 a' + 0x09) 0) :=
  ⟨fun h => type_one_overwrite acb b a h,
   fun h t a' ow hc => sequence_kept acb b t a a' ow h hc⟩

/-- C13 on the record of 0x320 bytes that are all `0xFF`, where the sequence
byte wraps to `0x00`. -/
theorem type_one_overwrite_bumps_sequence_witness :
    areaBase 1 0 + 0x10 ≤ (List.replicate 0x320 (0xFF : Nat)).length ∧
    (∃ r b', validateChecksum (fun _ => false) (List.replicate 0x320 0xFF) 1 0 true
          = some (r, b') ∧
        b'.getD (areaBase 1 0 + 0x09) 0
          = ((List.replicate 0x320 (0xFF : Nat)).getD (areaBase 1 0 + 0x09) 0 + 1) % 0x100 ∧
        ∃ c, ComputeCcittCrc16
              ((((b'.drop (areaBase 1 0)).take 0x10).set 14 0x05).set 15 0x00) 0x10 = some c ∧
          b'.getD (areaBase 1 0 + 0x0E) 0 + 256 * b'.getD (areaBase 1 0 + 0x0F) 0 = c) ∧
    ((2 : Int) ≠ 1 ∨ true = false) ∧
    ∃ r b', validateChecksum (fun _ => false) (List.replicate 0x320 0xFF) 2 0 true
          = some (r, b') ∧
        b'.getD (areaBase 1 0 + 0x09) 0
          = (List.replicate 0x320 (0xFF : Nat)).getD (areaBase 1 0 + 0x09) 0 :=
  ⟨by decide,
   (type_one_overwrite_bumps_sequence (fun _ => false) (List.replicate 0x320 0xFF) 0).1
     (by decide),
   by decide,
   (type_one_overwrite_bumps_sequence (fun _ => false) (List.replicate 0x320 0xFF) 0).2
     (by decide) 2 0 true (by decide)⟩

/-- C14: a type-1 overwrite is not idempotent. For every record of bytes that
holds the header of the data area, with `B = areaBase 1 a`, when
`validateChecksum(record, 1, a, true)` runs twice in succession the second call
returns false, the sequence byte ends as the original plus two modulo 256,
different from its value after the first call, and the stored type-1 checksum
after the second call differs from the one after the first. -/
theorem type_one_overwrite_twice (acb : Nat → Bool) (b : List Nat) (a : Int)
    (h : areaBase 1 a + 0x10 ≤ b.length) (hb : ∀ x ∈ b, x < 0x100) :
    ∃ r1 b1 b2, validateChecksum acb b 1 a true = some (r1, b1) ∧
      validateChecksum acb b1 1 a true = some (false, b2) ∧
      b2.getD (areaBase 1 a + 0x09) 0 = (b.getD (areaBase 1 a + 0x09) 0 + 2) % 0x100 ∧
      b2.getD (areaBase 1 a + 0x09) 0 ≠ b1.getD (areaBase 1 a + 0x09) 0 ∧
      b2.getD (areaBase 1 a + 0x0E) 0 + 256 * b2.getD (areaBase 1 a + 0x0F) 0
        ≠ b1.getD (areaBase 1 a + 0x0E) 0 + 256 * b1.getD (areaBase 1 a + 0x0F) 0 :=
  type_one_twice acb b a h hb

/-- C14 on the all-zero record of 0x320 bytes, data area 1. -/
theorem type_one_overwrite_twice_witness :
    areaBase 1 1 + 0x10 ≤ (List.replicate 0x320 (0 : Nat)).length ∧
    (∀ x ∈ List.replicate 0x320 (0 : Nat), x < 0x100) ∧
    ∃ r1 b1 b2, validateChecksum (fun _ => false) (List.replicate 0x320 0) 1 1 true
        = some (r1, b1) ∧
      validateChecksum (fun _ => false) b1 1 1 true = some (false, b2) ∧
      b2.getD (areaBase 1 1 + 0x09) 0
        = ((List.replicate 0x320 (0 : Nat)).getD (areaBase 1 1 + 0x09) 0 + 2) % 0x100 ∧
      b2.getD (areaBase 1 1 + 0x09) 0 ≠ b1.getD (areaBase 1 1 + 0x09) 0 ∧
      b2.getD (areaBase 1 1 + 0x0E) 0 + 256 * b2.getD (areaBase 1 1 + 0x0F) 0
        ≠ b1.getD (areaBase 1 1 + 0x0E) 0 + 256 * b1.getD (areaBase 1 1 + 0x0F) 0 :=
  ⟨by decide, zeros_bytes 0x320,
   type_one_overwrite_twice (fun _ => false) (List.replicate 0x320 0) 1 (by decide)
     (zeros_bytes 0x320)⟩

/-- C15, as stated, fails: on `bothStaleRecord` with no access-control block the
stored type-2 and type-3 checksums of data area 0 are both stale, yet after
`validateChecksum` with overwrite on for type 1 and then for types 2, 3 and 4,
the read-only type-1 check returns true. -/
theorem regeneration_order_counterexample :
    (validateChecksum (fun _ => false) bothStaleRecord 2 0 false).map Prod.fst = some false ∧
    (validateChecksum (fun _ => false) bothStaleRecord 3 0 false).map Prod.fst = some false ∧
    ((validateChecksum (fun _ => false) bothStaleRecord 1 0 true).bind fun s1 =>
      (validateChecksum (fun _ => false) s1.2 2 0 true).bind fun s2 =>
      (validateChecksum (fun _ => false) s2.2 3 0 true).bind fun s3 =>
      (validateChecksum (fun _ => false) s3.2 4 0 true).bind fun s4 =>
      (validateChecksum (fun _ => false) s4.2 1 0 false).map Prod.fst) = some true := by
  decide!

/-- C15, amended: for every record of bytes that holds the data area, every
predicate and every data area, running `validateChecksum` with overwrite on for
type 1 first and then for types 2, 3 and 4 leaves the stored type-1 checksum
stale, the read-only type-1 check that follows returning false, exactly when the
change of the four checksum bytes at header offsets 0x0A..0x0D (old XOR new), run
through `UpdateCcittCrc16` from register 0, does not give 0, that is when the
change is not a multiple of the CRC polynomial. When the stored type-2 or the
stored type-3 checksum is stale these four bytes do change, and when exactly one
of the two is stale the check returns false. -/
theorem regeneration_order_matters (acb : Nat → Bool) (b : List Nat) (a : Int)
    (hlen : areaBase 1 a + 0xE0 ≤ b.length) (hb : ∀ x ∈ b, x < 0x100) :
    ∃ r1 b1 r2 b2 r3 b3 r4 b4 r5,
      validateChecksum acb b 1 a true = some (r1, b1) ∧
      validateChecksum acb b1 2 a true = some (r2, b2) ∧
      validateChecksum acb b2 3 a true = some (r3, b3) ∧
      validateChecksum acb b3 4 a true = some (r4, b4) ∧
      validateChecksum acb b4 1 a false = some (r5, b4) ∧
      (r5 = false ↔ (fieldChange a b b4).foldl UpdateCcittCrc16 0 ≠ 0) ∧
      ((validateChecksum acb b 2 a false).map Prod.fst = some false ∨
          (validateChecksum acb b 3 a false).map Prod.fst = some false →
        fieldChange a b b4 ≠ [0, 0, 0, 0]) ∧
      (((validateChecksum acb b 2 a false).map Prod.fst = some false ∧
            (validateChecksum acb b 3 a false).map Prod.fst = some true) ∨
          ((validateChecksum acb b 2 a false).map Prod.fst = some true ∧
            (validateChecksum acb b 3 a false).map Prod.fst = some false) →
        r5 = false) := by
  have s2 := span_area 2 a _ (by decide) (by decide) hlen
  have s3 := span_area 3 a _ (by decide) (by decide) hlen
  rw [stale_iff_not_valid acb b 2 a (by decide) (by decide) s2,
    stale_iff_not_valid acb b 3 a (by decide) (by decide) s3,
    passes_iff_valid acb b 2 a (by decide) (by decide) s2,
    passes_iff_valid acb b 3 a (by decide) (by decide) s3]
  exact type_one_first_exact acb b a hlen hb

/-- C15, amended, on the all-zero record with no access-control block: the
stored type-2 and type-3 checksums of data area 0 are both stale, and the
read-only type-1 check at the end returns false. On `typeThreeValidRecord`, when
every block is an access-control block, exactly one of the two is stale (the
type-2 one), and the check at the end returns false as well. -/
theorem regeneration_order_matters_witness :
    areaBase 1 0 + 0xE0 ≤ (List.replicate 0x320 (0 : Nat)).length ∧
    (∀ x ∈ List.replicate 0x320 (0 : Nat), x < 0x100) ∧
    (validateChecksum (fun _ => false) (List.replicate 0x320 0) 2 0 false).map Prod.fst
      = some false ∧
    (validateChecksum (fun _ => false) (List.replicate 0x320 0) 3 0 false).map Prod.fst
      = some false ∧
    ((validateChecksum (fun _ => false) (List.replicate 0x320 0) 1 0 true).bind fun s1 =>
      (validateChecksum (fun _ => false) s1.2 2 0 true).bind fun s2 =>
      (validateChecksum (fun _ => false) s2.2 3 0 true).bind fun s3 =>
      (validateChecksum (fun _ => false) s3.2 4 0 true).bind fun s4 =>
      (validateChecksum (fun _ => false) s4.2 1 0 false).map Prod.fst) = some false ∧
    (validateChecksum (fun _ => true) typeThreeValidRecord 2 0 false).map Prod.fst
      = some false ∧
    (validateChecksum (fun _ => true) typeThreeValidRecord 3 0 false).map Prod.fst
      = some true ∧
    ((validateChecksum (fun _ => true) typeThreeValidRecord 1 0 true).bind fun s1 =>
      (validateChecksum (fun _ => true) s1.2 2 0 true).bind fun s2 =>
      (validateChecksum (fun _ => true) s2.2 3 0 true).bind fun s3 =>
      (validateChecksum (fun _ => true) s3.2 4 0 true).bind fun s4 =>
      (validateChecksum (fun _ => true) s4.2 1 0 false).map Prod.fst) = some false ∧
    ∃ r1 b1 r2 b2 r3 b3 r4 b4 r5,
      validateChecksum (fun _ => false) (List.replicate 0x320 0) 1 0 true = some (r1, b1) ∧
      validateChecksum (fun _ => false) b1 2 0 true = some (r2, b2) ∧
      validateChecksum (fun _ => false) b2 3 0 true = some (r3, b3) ∧
      validateChecksum (fun _ => false) b3 4 0 true = some (r4, b4) ∧
      validateChecksum (fun _ => false) b4 1 0 false = some (r5, b4) ∧
      (r5 = false ↔
        (fieldChange 0 (List.replicate 0x320 0) b4).foldl UpdateCcittCrc16 0 ≠ 0) ∧
      ((validateChecksum (fun _ => false) (List.replicate 0x320 0) 2 0 false).map Prod.fst
            = some false ∨
          (validateChecksum (fun _ => false) (List.replicate 0x320 0) 3 0 false).map Prod.fst
            = some false →
        fieldChange 0 (List.replicate 0x320 0) b4 ≠ [0, 0, 0, 0]) ∧
      (((validateChecksum (fun _ => false) (List.replicate 0x320 0) 2 0 false).map Prod.fst
              = some false ∧
            (validateChecksum (fun _ => false) (List.replicate 0x320 0) 3 0 false).map Prod.fst
              = some true) ∨
          ((validateChecksum (fun _ => false) (List.replicate 0x320 0) 2 0 false).map Prod.fst
              = some true ∧
            (validateChecksum (fun _ => false) (List.replicate 0x320 0) 3 0 false).map Prod.fst
              = some false) →
        r5 = false) :=
  ⟨by decide, zeros_bytes 0x320, by decide!, by decide!, by decide!,
   by decide!, by decide!, by decide!,
   regeneration_order_matters (fun _ => false) (List.replicate 0x320 0) 0 (by decide)
     (zeros_bytes 0x320)⟩

/-- C16, as stated, fails: on the all-zero record of 0x320 bytes the predicates
"never" and "block 1" give the same answers on the record-relative blocks
0x09..0x0C of data area 0, yet the type-2 checksum that an overwriting
`validateChecksum` stores at `0x8C, 0x8D` differs between them. -/
theorem predicate_index_counterexample :
    ((fun _ : Nat => false) 0x09 = (fun k : Nat => decide (k = 1)) 0x09 ∧
      (fun _ : Nat => false) 0x0A = (fun k : Nat => decide (k = 1)) 0x0A ∧
      (fun _ : Nat => false) 0x0B = (fun k : Nat => decide (k = 1)) 0x0B ∧
      (fun _ : Nat => false) 0x0C = (fun k : Nat => decide (k = 1)) 0x0C) ∧
    (validateChecksum (fun _ => false) (List.replicate 0x320 0) 2 0 true).map
        (fun r => (r.2.getD 0x8C 0, r.2.getD 0x8D 0))
      ≠ (validateChecksum (fun k => decide (k = 1)) (List.replicate 0x320 0) 2 0 true).map
        (fun r => (r.2.getD 0x8C 0, r.2.getD 0x8D 0)) := by
  decide

/-- C16, amended: the access-control predicate is consulted with block indices
relative to the data area. For every record, data area and mode, and any two
predicates that give the same answers on the area-relative blocks 1..4 that
type 2 walks, `computeChecksum` for type 2 on the data area and
`validateChecksum` for type 2 give the same outcome under both predicates. -/
theorem predicate_index_area_relative (p p' : Nat → Bool) (b : List Nat) (a : Int)
    (ow : Bool) (h : ∀ k, 1 ≤ k → k ≤ 4 → p k = p' k) :
    computeChecksum p 2 (b.drop (areaBase 2 a)) = computeChecksum p' 2 (b.drop (areaBase 2 a)) ∧
    validateChecksum p b 2 a ow = validateChecksum p' b 2 a ow :=
  ⟨computeChecksum_two_congr p p' _ h, validateChecksum_two_congr p p' b a ow h⟩

/-- C16, amended, for two predicates that differ on the record-relative block
0x09 of data area 0. -/
theorem predicate_index_area_relative_witness :
    (∀ k, 1 ≤ k → k ≤ 4 → (fun _ : Nat => false) k = (fun k : Nat => decide (k = 0x09)) k) ∧
    computeChecksum (fun _ => false) 2 ((List.replicate 0x320 0).drop (areaBase 2 0))
      = computeChecksum (fun k => decide (k = 0x09)) 2
          ((List.replicate 0x320 0).drop (areaBase 2 0)) ∧
    validateChecksum (fun _ => false) (List.replicate 0x320 0) 2 0 true
      = validateChecksum (fun k => decide (k = 0x09)) (List.replicate 0x320 0) 2 0 true :=
  ⟨fun k _ h4 => (decide_eq_false (by omega)).symm,
   predicate_index_area_relative (fun _ => false) (fun k => decide (k = 0x09))
     (List.replicate 0x320 0) 0 true (fun k _ h4 => (decide_eq_false (by omega)).symm)⟩

/-- C17: type 3 pads with exactly 0x0E zero blocks under the sector-trailer
rule. When the predicate is "block index mod 4 = 3", for every slice that holds
blocks 5..8, `computeChecksum(3, slice)` is the CRC of the blocks 5, 6 and 8
followed by 0x0E * 16 = 224 zero bytes. -/
theorem type_three_trailer_padding (slice : List Nat) (h : 0x90 ≤ slice.length) :
    computeChecksum (fun k => decide (k % 4 = 3)) 3 slice
      = (ComputeCcittCrc16
          (blockAt slice 5 ++ blockAt slice 6 ++ blockAt slice 8 ++ List.replicate 224 0)
          (3 * 0x10 + 224)).map some := by
  rw [ComputeCcittCrc16_of_length _ _ (by
    simp only [List.length_append, List.length_replicate]
    rw [length_blockAt slice 5 (by omega), length_blockAt slice 6 (by omega),
      length_blockAt slice 8 (by omega)])]
  exact computeChecksum_three_trailer slice h

/-- C17 on the all-zero slice of 0x90 bytes. -/
theorem type_three_trailer_padding_witness :
    0x90 ≤ (List.replicate 0x90 (0 : Nat)).length ∧
    computeChecksum (fun k => decide (k % 4 = 3)) 3 (List.replicate 0x90 0)
      = (ComputeCcittCrc16
          (blockAt (List.replicate 0x90 0) 5 ++ blockAt (List.replicate 0x90 0) 6
            ++ blockAt (List.replicate 0x90 0) 8 ++ List.replicate 224 0)
          (3 * 0x10 + 224)).map some :=
  ⟨by decide, type_three_trailer_padding (List.replicate 0x90 0) (by decide)⟩

/-- C18: what the code computes for type 4. For every slice of at least 0xE0
bytes and every predicate, `computeChecksum(4, slice)` is the CRC of the sixteen
bytes `slice[0x90..0xA0]` with bytes 0 and 1 replaced by `0x06, 0x01`, followed
by the blocks 10..13 that the predicate does not exclude; the walk over those
blocks starts from the CRC of the substituted block, not from `0xFFFF`; and the
bytes `slice[0..0x10]` are not read: a slice that differs only below offset
`0x10` gives the same value. -/
theorem type_four_block_and_walk (p : Nat → Bool) (slice : List Nat)
    (h : 0xE0 ≤ slice.length) :
    computeChecksum p 4 slice
      = (ComputeCcittCrc16
          (((((slice.drop 0x90).take 0x10).set 0 0x06).set 1 0x01)
            ++ keptBlocks p slice [10, 11, 12, 13])
          (((((slice.drop 0x90).take 0x10).set 0 0x06).set 1 0x01)
            ++ keptBlocks p slice [10, 11, 12, 13]).length).map some ∧
    (∃ c0, ComputeCcittCrc16 ((((slice.drop 0x90).take 0x10).set 0 0x06).set 1 0x01) 0x10
        = some c0 ∧
      computeChecksum p 4 slice
        = some (some ((keptBlocks p slice [10, 11, 12, 13]).foldl UpdateCcittCrc16 c0))) ∧
    (∀ slice' : List Nat, slice'.length = slice.length →
      (∀ i, 0x10 ≤ i → slice'[i]? = slice[i]?) →
      computeChecksum p 4 slice' = computeChecksum p 4 slice) := by
  refine ⟨?_, ⟨_, ComputeCcittCrc16_of_length _ _ (by simp; omega),
    computeChecksum_four_running p slice h⟩, ?_⟩
  · rw [crc_map_some]
    exact computeChecksum_four p slice h
  · intro s' hl he
    exact computeChecksum_four_congr p slice s' h (by omega) (fun i hi _ => he i (by omega))

/-- C18 on the all-zero slice of 0xE0 bytes against the slice whose first
sixteen bytes are `0x07`. -/
theorem type_four_block_and_walk_witness :
    0xE0 ≤ (List.replicate 0xE0 (0 : Nat)).length ∧
    computeChecksum (fun _ => false) 4 (List.replicate 0x10 7 ++ List.replicate 0xD0 0)
      = computeChecksum (fun _ => false) 4 (List.replicate 0xE0 0) :=
  ⟨by decide,
   (type_four_block_and_walk (fun _ => false) (List.replicate 0xE0 0) (by decide)).2.2
     (List.replicate 0x10 7 ++ List.replicate 0xD0 0) (by decide)
     (fun i hi => by
       rw [List.getElem?_append_right (by simpa using hi)]
       simp only [List.length_replicate, List.getElem?_replicate]
       by_cases h : i < 0xE0
       · rw [if_pos (by omega), if_pos h]
       · rw [if_neg (by omega), if_neg h])⟩

/-- C19: short bursts are always detected. Two byte sequences of the same
length that differ, and differ only at positions `i` and `i + 1`, have
different `ComputeCcittCrc16` values; for a fixed byte `UpdateCcittCrc16` is a
bijection on the 16-bit states; and for a fixed state the map from two input
bytes to the resulting state is injective. -/
theorem short_bursts_detected :
    (∀ (m m' : List Nat) (i : Nat), m.length = m'.length → m ≠ m' →
      (∀ x ∈ m, x < 0x100) → (∀ x ∈ m', x < 0x100) →
      (∀ j, j ≠ i → j ≠ i + 1 → m[j]? = m'[j]?) →
      ComputeCcittCrc16 m m.length ≠ ComputeCcittCrc16 m' m'.length) ∧
    (∀ d : Nat,
      (∀ c, UpdateCcittCrc16 c d < 0x10000) ∧
      (∀ c c', c < 0x10000 → c' < 0x10000 →
        UpdateCcittCrc16 c d = UpdateCcittCrc16 c' d → c = c') ∧
      (∀ s, s < 0x10000 → ∃ c, c < 0x10000 ∧ UpdateCcittCrc16 c d = s)) ∧
    (∀ c d1 d2 e1 e2 : Nat, c < 0x10000 → d1 < 0x100 → d2 < 0x100 → e1 < 0x100 → e2 < 0x100 →
      UpdateCcittCrc16 (UpdateCcittCrc16 c d1) d2 = UpdateCcittCrc16 (UpdateCcittCrc16 c e1) e2 →
      d1 = e1 ∧ d2 = e2) := by
  refine ⟨?_, fun d => ⟨fun c => UpdateCcittCrc16_lt c d,
    fun c c' hc hc' h => Update_state_inj d c c' hc hc' h,
    fun s hs => Update_state_surj d s hs⟩,
    fun c d1 d2 e1 e2 hc h1 h2 h3 h4 h => Update_two_inj c d1 d2 e1 e2 hc h1 h2 h3 h4 h⟩
  intro m m' i hl hne hb hb' ha
  rw [ComputeCcittCrc16_self, ComputeCcittCrc16_self]
  intro e
  exact burst_detected i m m' 0xffff (by decide) hl hne hb hb' ha (Option.some.inj e)

/-- C19 on the sequences `[1, 2, 3, 4]` and `[1, 7, 9, 4]`, which differ at
positions 1 and 2. -/
theorem short_bursts_detected_witness :
    ComputeCcittCrc16 [1, 2, 3, 4] 4 ≠ ComputeCcittCrc16 [1, 7, 9, 4] 4 ∧
    (∃ c, c < 0x10000 ∧ UpdateCcittCrc16 c 0x31 = 0x29B1) ∧
    ((7 : Nat) = 7 ∧ (9 : Nat) = 9) :=
  ⟨short_bursts_detected.1 [1, 2, 3, 4] [1, 7, 9, 4] 1 (by decide) (by decide) (by decide)
     (by decide)
     (fun j h1 h2 => by
       match j with
       | 0 => rfl
       | 1 => exact absurd rfl h1
       | 2 => exact absurd rfl h2
       | 3 => rfl
       | k + 4 => rfl),
   (short_bursts_detected.2.1 0x31).2.2 0x29B1 (by decide),
   short_bursts_detected.2.2 0xFFFF 7 9 7 9 (by decide) (by decide) (by decide) (by decide)
     (by decide) rfl⟩

/-- C20: bounds. On a record of at least 0x320 bytes, for every predicate and
both modes, `ValidateAllChecksums`, every `validateChecksum` call and every
`computeChecksum` call on a data area give a result, so no read or write of the
checked embedding falls outside the buffer, and the length is kept; the two
loops of `computeChecksum`, run with their exit tests as written, leave within
five and within twenty passes with the outcome the embedding uses. -/
theorem no_out_of_bounds (acb : Nat → Bool) (b : List Nat) (ow : Bool) (h : 0x320 ≤ b.length) :
    (∃ r b', ValidateAllChecksums acb b ow = some (r, b') ∧ b'.length = b.length) ∧
    (∀ t a : Int, ∃ r b', validateChecksum acb b t a ow = some (r, b') ∧
      b'.length = b.length) ∧
    (∀ t a : Int, ∃ r, computeChecksum acb t (b.drop (areaBase t a)) = some r) ∧
    (∀ (startBlock : Nat) (numPtr : List Nat) (checksum : Nat),
      computeChecksum.blockWhile acb startBlock 4 5 numPtr startBlock checksum
        = some (computeChecksum.blockLoop acb 4 numPtr startBlock checksum)) ∧
    (∀ checksum : Nat,
      computeChecksum.padWhile acb 20 9 checksum
        = some (computeChecksum.padLoop acb (0x1c - 9) 9 checksum)) := by
  refine ⟨?_, fun t a => validateChecksum_total acb b t a ow h,
    fun t a => computeChecksum_total acb b t a h,
    fun s numPtr c => blockWhile_eq acb s 4 4 5 numPtr s c rfl (by decide),
    fun c => padWhile_eq acb 19 20 9 c rfl (by decide)⟩
  obtain ⟨r1, b1, r2, b2, r3, b3, r4, b4, r5, b5, r6, b6, r7, b7, r8, b8, r9, b9, r10, b10,
    e1, e2, e3, e4, e5, e6, e7, e8, e9, e10, e⟩ := sweep_chain acb b ow h
  refine ⟨_, _, e, ?_⟩
  have l1 := validateChecksum_length acb b 4 0 ow r1 b1 e1
  have l2 := validateChecksum_length acb b1 3 0 ow r2 b2 e2
  have l3 := validateChecksum_length acb b2 2 0 ow r3 b3 e3
  have l4 := validateChecksum_length acb b3 1 0 ow r4 b4 e4
  have l5 := validateChecksum_length acb b4 0 0 ow r5 b5 e5
  have l6 := validateChecksum_length acb b5 4 1 ow r6 b6 e6
  have l7 := validateChecksum_length acb b6 3 1 ow r7 b7 e7
  have l8 := validateChecksum_length acb b7 2 1 ow r8 b8 e8
  have l9 := validateChecksum_length acb b8 1 1 ow r9 b9 e9
  have l10 := validateChecksum_length acb b9 0 1 ow r10 b10 e10
  omega

/-- C20 on the all-zero record of 0x320 bytes in overwrite mode. -/
theorem no_out_of_bounds_witness :
    0x320 ≤ (List.replicate 0x320 (0 : Nat)).length ∧
    ∃ r b', ValidateAllChecksums (fun _ => false) (List.replicate 0x320 0) true = some (r, b') ∧
      b'.length = (List.replicate 0x320 (0 : Nat)).length :=
  ⟨by decide, (no_out_of_bounds (fun _ => false) (List.replicate 0x320 0) true (by decide)).1⟩

end Checksum
